import Mathlib

/-!
# Overheight sign notification agent (`overhead.c`): protocol and event engine

A shallow embedding of the parts of `overhead.c` that the protocol claims are about.

Conventions of the embedding:

* a C string (`STRING`) is the list of its bytes before the terminating NUL, each byte a
  natural number; a `STRING` that may be `NULL` is an `Option`;
* the character classes of `<ctype.h>` are those of the "C" locale on bytes;
* a function that can dereference `NULL`, use an indeterminate pointer or write past an
  allocation returns `Res.fault` there: the C program has no defined behaviour after it;
* a recursion of the C code that is not structural carries a fuel argument and returns
  `Res.nofuel` when it is used up; the entry points pass enough fuel, which is proved;
* log output (`important`, `fprintf(stderr, ...)`) is not modelled.
-/

namespace Overhead

/-! ## Results of fallible code -/

/-- Outcome of a C function that may fault (undefined behaviour) or, in the model only,
run out of fuel. -/
inductive Res (α : Type) where
  | ok (a : α)
  | fault
  | nofuel
  deriving Repr, DecidableEq

/-- Sequencing of fallible steps. -/
def Res.bind {α β : Type} (r : Res α) (f : α → Res β) : Res β :=
  match r with
  | .ok a => f a
  | .fault => .fault
  | .nofuel => .nofuel

/-! ## Characters and strings -/

/-- Bytes of a string literal. -/
def bytes (s : String) : List Nat := s.toList.map Char.toNat

/-- `isspace` in the "C" locale: space, `\t`, `\n`, `\v`, `\f`, `\r`. -/
def isspace (c : Nat) : Bool := c == 32 || (9 ≤ c && c ≤ 13)

/-- `isdigit`. -/
def isdigit (c : Nat) : Bool := 48 ≤ c && c ≤ 57

/-- `isalnum` in the "C" locale. -/
def isalnum (c : Nat) : Bool :=
  (48 ≤ c && c ≤ 57) || (65 ≤ c && c ≤ 90) || (97 ≤ c && c ≤ 122)

/-- `tolower` in the "C" locale. -/
def tolower (c : Nat) : Nat := if 65 ≤ c ∧ c ≤ 90 then c + 32 else c

/-- `mystrcasecmp(s, t)` on two non-NULL strings: TRUE when they are equal ignoring case.
The loop walks both strings while the lowered characters agree and answers TRUE when it
reaches the terminator of `s` (then also of `t`). -/
def mystrcasecmp : List Nat → List Nat → Bool
  | [], [] => true
  | [], _ :: _ => false
  | _ :: _, [] => false
  | a :: s, b :: t => if tolower a = tolower b then mystrcasecmp s t else false

/-- `mystrcasecmp` on pointers that may be `NULL`: the first `*s` or `*t` faults. -/
def mystrcasecmp_ptr (s t : Option (List Nat)) : Res Bool :=
  match s, t with
  | some s, some t => .ok (mystrcasecmp s t)
  | _, _ => .fault

/-- `istagchar`: alphanumeric, period, hyphen, underscore or colon. -/
def istagchar (c : Nat) : Bool :=
  isalnum c || c == 46 || c == 45 || c == 95 || c == 58

/-! ## XML tree -/

/-- The `key` pointer of a `struct xml_element`. `Parse_XML_Message` sets the root's key to
`NULL`; the children are `malloc`ed by `parse_xml_element`, which sets `xml_list` and
`value` to `NULL` and leaves `key` indeterminate until a tag is read. -/
inductive KeyField where
  | garbage
  | null
  | str (s : List Nat)
  deriving Repr, DecidableEq

/-- A `struct xml_element` together with what it points to: `xml_list` is the chain of
children followed through `next`, head first. -/
inductive xml_element where
  | mk (key : KeyField) (xml_list : List xml_element) (value : Option (List Nat))
  deriving Repr

namespace xml_element

/-- Field `key`. -/
def key : xml_element → KeyField
  | mk k _ _ => k

/-- Field `xml_list`, followed through `next`. -/
def xml_list : xml_element → List xml_element
  | mk _ l _ => l

/-- Field `value`. -/
def value : xml_element → Option (List Nat)
  | mk _ _ v => v

/-- Assignment to `key`. -/
def setKey : xml_element → KeyField → xml_element
  | mk _ l v, k => mk k l v

/-- Assignment to `value`. -/
def setValue : xml_element → Option (List Nat) → xml_element
  | mk k l _, v => mk k l v

/-- Assignment to `xml_list`. -/
def setList : xml_element → List xml_element → xml_element
  | mk k _ v, l => mk k l v

end xml_element

/-! ## XML parser -/

/-- `is_XML_comment`: the buffer starts with `<!--`. -/
def is_XML_comment : List Nat → Bool
  | 60 :: 33 :: 45 :: 45 :: _ => true
  | _ => false

/-- `is_XML_comment_end`: the buffer starts with `-->`. -/
def is_XML_comment_end : List Nat → Bool
  | 45 :: 45 :: 62 :: _ => true
  | _ => false

/-- The loop of `find_end_of_comment`: `none` is `NULL`. -/
def find_end_of_comment_loop : List Nat → Option (List Nat)
  | [] => none
  | c :: rest =>
    if is_XML_comment_end (c :: rest) then some ((c :: rest).drop 3)
    else find_end_of_comment_loop rest

/-- `find_end_of_comment`: skip the four opening characters, then scan for `-->`. -/
def find_end_of_comment (buffer : List Nat) : Option (List Nat) :=
  find_end_of_comment_loop (buffer.drop 4)

/-- `is_XML_declaration`: the buffer starts with `<?xml`. -/
def is_XML_declaration : List Nat → Bool
  | 60 :: 63 :: 120 :: 109 :: 108 :: _ => true
  | _ => false

/-- `is_XML_declaration_end`: the buffer starts with `?>`. -/
def is_XML_declaration_end : List Nat → Bool
  | 63 :: 62 :: _ => true
  | _ => false

/-- The loop of `find_end_of_declaration`. -/
def find_end_of_declaration_loop : List Nat → Option (List Nat)
  | [] => none
  | c :: rest =>
    if is_XML_declaration_end (c :: rest) then some ((c :: rest).drop 2)
    else find_end_of_declaration_loop rest

/-- `find_end_of_declaration`: skip the five opening characters, then scan for `?>`. -/
def find_end_of_declaration (buffer : List Nat) : Option (List Nat) :=
  find_end_of_declaration_loop (buffer.drop 5)

/-- `find_end_of_tag`: skip the tag characters; at the end of the input return `NULL`;
otherwise the tag is terminated in place, attributes up to `>` are skipped (`NULL` when
there is no `>`), and the result points past the `>` and the white space after it.
The string the terminated tag pointer then denotes is `tag_text`. -/
def find_end_of_tag (buffer : List Nat) : Option (List Nat) :=
  match buffer.dropWhile istagchar with
  | [] => none
  | c :: b1 =>
    if c = 62 then some (b1.dropWhile isspace)
    else
      match b1.dropWhile (fun x => x != 62) with
      | [] => none
      | _ :: b2 => some (b2.dropWhile isspace)

/-- The string at a tag pointer once `find_end_of_tag` has written the terminator over the
first character that is not a tag character. -/
def tag_text (buffer : List Nat) : List Nat := buffer.takeWhile istagchar

/-- Removal of trailing white space, as the loop at the end of `get_value` does. -/
def rtrim (v : List Nat) : List Nat := (v.reverse.dropWhile isspace).reverse

/-- `get_value`: skip leading blanks and take the text up to the next `<` or the end of the
input. The pair is the returned buffer pointer and the string stored in `*value`; the
trailing white space is trimmed only when a `<` was found. -/
def get_value (buffer : List Nat) : List Nat × List Nat :=
  let b := buffer.dropWhile isspace
  let text := b.takeWhile (fun x => x != 60)
  match b.dropWhile (fun x => x != 60) with
  | [] => ([], text)
  | c :: rest => (c :: rest, rtrim text)

/-- The step `if (*buffer == c) buffer++`. -/
def skip_char (c : Nat) : List Nat → List Nat
  | [] => []
  | x :: r => if x = c then r else x :: r

/-- The end-tag part of `parse_xml_element`: skip `<` and `/`, fail at the end of the
input, otherwise return what `find_end_of_tag` returns. -/
def parse_end_tag (buffer : List Nat) : Option (List Nat) :=
  match skip_char 47 (skip_char 60 buffer) with
  | [] => none
  | c :: r => find_end_of_tag (c :: r)

/-- A freshly `malloc`ed child: `xml_list` and `value` are set to `NULL`, `key` is not
initialised. -/
def new_child : xml_element := .mk .garbage [] none

mutual

/-- `parse_xml_element(buffer, tag_tree)`: the result is the returned buffer pointer
(`none` for `NULL`) and the element `tag_tree` as the call leaves it. -/
def parse_xml_element : Nat → List Nat → xml_element → Res (Option (List Nat) × xml_element)
  | 0, _, _ => .nofuel
  | fuel + 1, buffer, tag_tree =>
    match buffer.dropWhile isspace with
    | [] => .ok (none, tag_tree)
    | c :: cs =>
      if c ≠ 60 then
        .ok (some (get_value (c :: cs)).1, tag_tree.setValue (some (get_value (c :: cs)).2))
      else if is_XML_comment (c :: cs) then
        match find_end_of_comment (c :: cs) with
        | none => .fault
        | some b => parse_xml_element fuel b tag_tree
      else if is_XML_declaration (c :: cs) then
        match find_end_of_declaration (c :: cs) with
        | none => .fault
        | some b => parse_xml_element fuel b tag_tree
      else
        match find_end_of_tag cs with
        | none => .fault
        | some [] => .ok (none, tag_tree)
        | some (d :: ds) =>
          let tree1 := tag_tree.setKey (.str (tag_text cs))
          if d ≠ 60 then
            .ok (parse_end_tag (get_value (d :: ds)).1,
                 tree1.setValue (some (get_value (d :: ds)).2))
          else
            match parse_children fuel (d :: ds) tree1 with
            | .ok (some b, tree2) => .ok (parse_end_tag b, tree2)
            | r => r

/-- The `while` loop of `parse_xml_element` that accumulates the children: each new child is
linked in front of `tag_tree->xml_list` before it is parsed. A result without a buffer means
that the enclosing `parse_xml_element` returns `NULL`. -/
def parse_children : Nat → List Nat → xml_element → Res (Option (List Nat) × xml_element)
  | 0, _, _ => .nofuel
  | fuel + 1, buffer, tag_tree =>
    if buffer.head? = some 60 ∧ buffer.tail.head? ≠ some 47 then
      match parse_xml_element fuel buffer new_child with
      | .ok (some (e :: b), child) =>
        parse_children fuel (e :: b) (tag_tree.setList (child :: tag_tree.xml_list))
      | .ok (_, child) => .ok (none, tag_tree.setList (child :: tag_tree.xml_list))
      | .fault => .fault
      | .nofuel => .nofuel
    else .ok (some buffer, tag_tree)

end

/-- Fuel that `parse_xml_element` never uses up on a buffer of the given length. -/
def parse_fuel (buffer : List Nat) : Nat := 2 * buffer.length + 1

/-- `search_xml_value(list, key)`: the value of the first element of the chain whose key
matches ignoring case, `NULL` when none matches. Comparing against an element whose key
is `NULL` or was never assigned dereferences an invalid pointer. -/
def search_xml_value : List xml_element → List Nat → Res (Option (List Nat))
  | [], _ => .ok none
  | p :: rest, key =>
    match p.key with
    | .str k => if mystrcasecmp key k then .ok p.value else search_xml_value rest key
    | _ => .fault

mutual

/-- `free_xml_element(root)` over a chain of elements: `true` when every `free` it performs
is given `NULL` or an allocated string; a key that was never assigned is an indeterminate
pointer and `free` of it is undefined. -/
def free_xml_element : List xml_element → Bool
  | [] => true
  | e :: rest => free_xml_node e && free_xml_element rest

/-- One iteration of the loop of `free_xml_element`. -/
def free_xml_node : xml_element → Bool
  | .mk k l _ => (k != KeyField.garbage) && free_xml_element l

end

/-! ## Devices -/

/-- Constant `MAX_DETECTORS`. -/
abbrev MAX_DETECTORS : Nat := 4

/-- Constant `MAX_CHANNELS`. -/
abbrev MAX_CHANNELS : Nat := 8

/-- Constant `MAX_MESSAGE_LENGTH`. -/
abbrev MAX_MESSAGE_LENGTH : Nat := 100000

/-- Constant `MAX_FILENAME_LENGTH`. -/
abbrev MAX_FILENAME_LENGTH : Nat := 320

/-- Constant `INVALID_SOCKET`. -/
abbrev INVALID_SOCKET : Int := -1

/-- `enum DeviceStatus`. -/
inductive DeviceStatus where
  | ST_ACTIVE
  | ST_ERROR
  | ST_FAILED
  | ST_OUTOFSERVICE
  deriving Repr, DecidableEq

/-- `Format_Device_Status`. -/
def Format_Device_Status : DeviceStatus → List Nat
  | .ST_ACTIVE => bytes "Active"
  | .ST_ERROR => bytes "Error"
  | .ST_FAILED => bytes "Failed"
  | .ST_OUTOFSERVICE => bytes "OutofService"

/-- `struct detector_device_descriptor`. -/
structure detector_device_descriptor where
  name : Option (List Nat)
  providerName : Option (List Nat)
  resourceType : Option (List Nat)
  centerId : Option (List Nat)
  id : Option (List Nat)
  triggerHeight : Option (List Nat)
  event_channel : Int
  fault_channel : Int
  eventFileName : Option (List Nat)
  status : DeviceStatus
  deriving Repr, DecidableEq

/-- The device a `DEVICE` pointer refers to. -/
abbrev DEVICE := detector_device_descriptor

/-- The initial value of `default_device`. -/
def default_device_init : detector_device_descriptor :=
  { name := none, providerName := none, resourceType := none, centerId := none, id := none,
    triggerHeight := none, event_channel := -1, fault_channel := -1, eventFileName := none,
    status := .ST_ERROR }

/-- `struct Timestamp` of `libmoxa_rtu.h`; its field `msec` is neither written nor read by
`overhead.c` and is left out. The fields are `UINT32`. -/
structure Timestamp where
  sec : Nat
  min : Nat
  hour : Nat
  day : Nat
  mon : Nat
  year : Nat
  deriving Repr, DecidableEq

/-! ## Formatted input and output -/

/-- Decimal digits of a number, most significant first, by repeated division. -/
def digits : Nat → Nat → List Nat
  | 0, _ => []
  | fuel + 1, v => if v < 10 then [48 + v] else digits fuel (v / 10) ++ [48 + v % 10]

/-- Conversion `%lu` (also `%u`): the decimal digits of an unsigned value. -/
def fmt_lu (v : Nat) : List Nat := digits (v + 1) v

/-- Conversion `%0<w>lu`: decimal digits, padded on the left with zeros to `w` characters. -/
def fmt_0lu (w v : Nat) : List Nat :=
  List.replicate (w - (fmt_lu v).length) 48 ++ fmt_lu v

/-- Conversion `%d` of an `int`. -/
def fmt_d (v : Int) : List Nat :=
  if v < 0 then 45 :: fmt_lu v.natAbs else fmt_lu v.natAbs

/-- The text `snprintf(buf, size, ...)` leaves in `buf`: at most `size - 1` characters. -/
def snprintf (size : Nat) (text : List Nat) : List Nat := text.take (size - 1)

/-- Value of a run of decimal digits. -/
def digits_value (ds : List Nat) : Nat := ds.foldl (fun acc d => 10 * acc + (d - 48)) 0

/-- Conversion `%<w>lu` of `sscanf` on a target whose `unsigned long` has 32 bits: skip white
space, accept an optional sign and then digits, at most `w` characters together; fail when
there is no digit. A minus sign negates the value in unsigned arithmetic, as `strtoul`
does. The result is the value stored and the rest of the input. -/
def scan_lu (w : Nat) (input : List Nat) : Option (Nat × List Nat) :=
  let inp := input.dropWhile isspace
  let signed := match inp with
    | 43 :: _ => true
    | 45 :: _ => true
    | _ => false
  let neg := inp.head? = some 45
  let body := if signed then inp.drop 1 else inp
  let room := if signed then w - 1 else w
  let ds := (body.take room).takeWhile isdigit
  if ds = [] then none
  else
    let v := digits_value ds % 2 ^ 32
    some (if neg then (2 ^ 32 - v) % 2 ^ 32 else v, body.drop ds.length)

/-- An ordinary character of a `sscanf` format: the next input character must be equal. -/
def scan_lit (c : Nat) (input : List Nat) : Option (List Nat) :=
  match input with
  | x :: rest => if x = c then some rest else none
  | [] => none

/-- `sscanf(szLine, EVENT_FILE_FORMAT, &year, &mon, &day, &hour, &min, &sec) == 6` with
`EVENT_FILE_FORMAT` = `"%04lu/%02lu/%02lu %02lu:%02lu:%02lu\n"`: the six values when all six
conversions succeed. The white space of the format matches any amount of white space, and
what follows the sixth conversion does not change the count. -/
def sscanf_EVENT_FILE_FORMAT (szLine : List Nat) : Option Timestamp := do
  let (year, r) ← scan_lu 4 szLine
  let r ← scan_lit 47 r
  let (mon, r) ← scan_lu 2 r
  let r ← scan_lit 47 r
  let (day, r) ← scan_lu 2 r
  let (hour, r) ← scan_lu 2 (r.dropWhile isspace)
  let r ← scan_lit 58 r
  let (min, r) ← scan_lu 2 r
  let r ← scan_lit 58 r
  let (sec, _) ← scan_lu 2 r
  pure { sec := sec, min := min, hour := hour, day := day, mon := mon, year := year }

/-- The files the agent can open for reading: the contents by path, `none` when `open`
fails. -/
abbrev Files := List Nat → Option (List Nat)

/-- `ReadEventFromFile(d, &timedate)`: `some` of the time stamp read when it returns TRUE.
`open` of a `NULL` path fails; `read` takes at most `MAX_FILENAME_LENGTH - 1` bytes and
fails on an empty file; the line scanned is the C string in the bytes read. -/
def ReadEventFromFile (fs : Files) (d : DEVICE) : Option Timestamp :=
  match d.eventFileName with
  | none => none
  | some path =>
    match fs path with
    | none => none
    | some content =>
      let szLine := content.take (MAX_FILENAME_LENGTH - 1)
      if szLine.length ≤ 0 then none
      else sscanf_EVENT_FILE_FORMAT (szLine.takeWhile (fun x => x != 0))

/-! ## Message buffer -/

/-- `struct BUFFER`: `n` characters used, `length` bytes allocated, `b` the characters
(`none` while the pointer is `NULL`). -/
structure BUFFER where
  n : Nat
  length : Nat
  b : Option (List Nat)
  deriving Repr, DecidableEq

/-- The initial value of the global buffer `b`. -/
def BUFFER_init : BUFFER := { n := 0, length := 0, b := none }

/-- `ClearBuffer`: allocate 1024 bytes on first use, then reset to the empty string. Writing
the terminator through a `NULL` pointer faults. -/
def ClearBuffer (b : BUFFER) : Res BUFFER :=
  let b1 : BUFFER := if b.length ≤ 0 then { b with length := 1024, b := some [] } else b
  match b1.b with
  | none => .fault
  | some _ => .ok { b1 with n := 0, b := some [] }

/-- One step of the copy loop of `AppendBuffer`: `b->b[b->n] = s[i]; b->n += 1`. -/
def AppendBuffer_step (b : BUFFER) (c : Nat) : BUFFER :=
  { b with b := b.b.map (fun t => t.take b.n ++ [c]), n := b.n + 1 }

/-- `AppendBuffer(b, s)`: nothing for a `NULL` or empty `s`; otherwise the capacity is
doubled, once, when `n + strlen(s) + 1` exceeds it, and the characters and the terminator
are stored from index `n` on. Storing beyond the capacity, or through a `NULL` pointer,
faults. -/
def AppendBuffer (b : BUFFER) (s : Option (List Nat)) : Res BUFFER :=
  match s with
  | none => .ok b
  | some [] => .ok b
  | some (c :: cs) =>
    let n := (c :: cs).length
    let b1 : BUFFER := if b.n + n + 1 > b.length then { b with length := 2 * b.length } else b
    if b1.b = none then .fault
    else if b1.n + n + 1 > b1.length then .fault
    else .ok ((c :: cs).foldl AppendBuffer_step b1)

/-- A run of `AppendBuffer` calls on the same buffer, in order. -/
def AppendAll (b : BUFFER) : List (Option (List Nat)) → Res BUFFER
  | [] => .ok b
  | s :: rest => (AppendBuffer b s).bind (fun b1 => AppendAll b1 rest)

/-- The calls `QAppendBuffer(b, s)` makes. -/
def QAppendBuffer (s : Option (List Nat)) : List (Option (List Nat)) :=
  [some (bytes "\""), s, some (bytes "\"")]

/-- `FinishBuffer`: a copy of the buffer's string, `NULL` when there is no buffer. -/
def FinishBuffer (b : BUFFER) : Option (List Nat) := b.b.map (fun t => t.take b.n)

/-- The calls `AppendHeader(buffer, MyRefId, icdVersion)` makes. -/
def AppendHeader (MyRefId icdVersion : Option (List Nat)) : List (Option (List Nat)) :=
  [some (bytes "<refId>"), MyRefId, some (bytes "</refId>"),
   some (bytes "<icdVersion>"), icdVersion, some (bytes "</icdVersion>")]

/-- The calls `AppendId(buffer, d)` makes. -/
def AppendId (d : DEVICE) : List (Option (List Nat)) :=
  [some (bytes "<id"), some (bytes " providerName=")] ++ QAppendBuffer d.providerName ++
  [some (bytes " resourceType=")] ++ QAppendBuffer d.resourceType ++
  [some (bytes " centerId=")] ++ QAppendBuffer d.centerId ++
  [some (bytes ">"), d.id, some (bytes "</id>")]

/-- The local `readingTime` of `AppendOverheight`. -/
def readingTime (t : Timestamp) : List Nat :=
  snprintf 16 (fmt_0lu 2 t.hour ++ bytes ":" ++ fmt_0lu 2 t.min ++ bytes ":" ++ fmt_0lu 2 t.sec)

/-- The local `readingDate` of `AppendOverheight`. -/
def readingDate (t : Timestamp) : List Nat :=
  snprintf 16 (fmt_0lu 4 t.year ++ bytes "-" ++ fmt_0lu 2 t.mon ++ bytes "-" ++ fmt_0lu 2 t.day)

/-- The calls `AppendOverheight(buffer, d, timedate, dataexists)` makes; the time stamp is
`some` when `dataexists` is TRUE. -/
def AppendOverheight (d : DEVICE) (timedate : Option Timestamp) : List (Option (List Nat)) :=
  [some (bytes "<overheight>")] ++
  (match timedate with
   | some t =>
     [some (bytes "<overheightReadingData>"),
      some (bytes "<readingTime>"), some (readingTime t), some (bytes "</readingTime>"),
      some (bytes "<readingDate>"), some (readingDate t), some (bytes "</readingDate>"),
      some (bytes "<triggerHeight units=")] ++ QAppendBuffer (some (bytes "in")) ++
     [some (bytes ">"), d.triggerHeight, some (bytes "</triggerHeight>"),
      some (bytes "</overheightReadingData>")]
   | none => []) ++
  [some (bytes "<overheightStatus>"), some (bytes "<opStatus>"),
   some (Format_Device_Status d.status), some (bytes "</opStatus>"),
   some (bytes "</overheightStatus>"), some (bytes "</overheight>")]

/-! ## Program state and the network -/

/-- The socket calls as the agent sees them, over an environment state `σ`.

* `recv env fd len` is `recv(fd, buf, len, MSG_WAITALL)`: `none` is the result -1, `some bs`
  the result `bs.length` with the bytes `bs` stored (the model keeps at most `len` of them;
  the empty list is the result 0);
* `send env fd data` is `send(fd, data, n, 0)` and yields its result;
* `close env fd` is `close(fd)`. -/
structure Net (σ : Type) where
  recv : σ → Int → Nat → Option (List Nat) × σ
  send : σ → Int → List Nat → Int × σ
  close : σ → Int → σ

/-- The global variables of `overhead.c` that the protocol engine reads or writes, with the
files it reads, the state of the network environment and a record of the receive buffers
that `Read_XML_Message` allocated (their sizes, latest first). A `DEVICE` pointer held in
`Channel_Table` is the index of the slot of `DDD` it points to. -/
structure World (σ : Type) where
  env : σ
  ClientConnection : Int
  icdVersion : Option (List Nat)
  myRefId : Int
  DDD : Fin MAX_DETECTORS → Option DEVICE
  Channel_Table : Fin MAX_CHANNELS → Option (Fin MAX_DETECTORS)
  default_device : detector_device_descriptor
  b : BUFFER
  fs : Files
  mallocs : List Nat
  last_diValue : Nat
  pollingDelay : Int
  PortName : Option (List Nat)
  StringMyRefId : Option (List Nat)
  Log_File_Limit : Int

/-- Value of an `int` after an arithmetic result is stored in it (32 bits, two's
complement). -/
def wrap_int (v : Int) : Int := (v + 2 ^ 31) % 2 ^ 32 - 2 ^ 31

/-- `close_Client_Connection`. -/
def close_Client_Connection {σ : Type} (net : Net σ) (w : World σ) : World σ :=
  { w with env := net.close w.env w.ClientConnection, ClientConnection := INVALID_SOCKET }

/-! ## Building messages -/

/-- The `overheightData` block that `Format_XML_Response` appends for one device. -/
def overheightData_block (fs : Files) (d : DEVICE) : List (Option (List Nat)) :=
  [some (bytes "<overheightData>")] ++ AppendId d ++
  AppendOverheight d (ReadEventFromFile fs d) ++ [some (bytes "</overheightData>")]

/-- The loop of `Format_XML_Response` over the slots of `DDD`: empty slots are skipped. -/
def Format_XML_Response_loop (fs : Files) (DDD : Fin MAX_DETECTORS → Option DEVICE) :
    List (Fin MAX_DETECTORS) → BUFFER → Res BUFFER
  | [], buffer => .ok buffer
  | i :: rest, buffer =>
    match DDD i with
    | none => Format_XML_Response_loop fs DDD rest buffer
    | some d =>
      (AppendAll buffer (overheightData_block fs d)).bind
        (fun b1 => Format_XML_Response_loop fs DDD rest b1)

/-- `Format_XML_Response(refID, CVM_icdVersion)`: the message returned and the state it
leaves. The peer's `icdVersion` replaces the agent's when they differ ignoring case. -/
def Format_XML_Response {σ : Type} (w : World σ) (refID CVM_icdVersion : Option (List Nat)) :
    Res (Option (List Nat) × World σ) :=
  (mystrcasecmp_ptr w.icdVersion CVM_icdVersion).bind fun same =>
  let w1 : World σ := if !same then { w with icdVersion := CVM_icdVersion } else w
  (ClearBuffer w1.b).bind fun b0 =>
  (AppendAll b0
    ([some (bytes
        "<retrieveDataResp xmlns:xsi=\"http://www.w3.org/2001/XMLSchema-instance\">")] ++
      AppendHeader refID w1.icdVersion ++
      [some (bytes "<data xsi:type=\"retrieveData\">")])).bind fun b1 =>
  (Format_XML_Response_loop w1.fs w1.DDD (List.finRange MAX_DETECTORS) b1).bind fun b2 =>
  (AppendAll b2 [some (bytes "</data>"), some (bytes "</retrieveDataResp>")]).bind fun b3 =>
  .ok (FinishBuffer b3, { w1 with b := b3 })

/-- `Format_One_Event_Message(d, timedate, dataexists)`: the counter `myRefId` is
incremented and printed with `%d` into a 16-byte array. -/
def Format_One_Event_Message {σ : Type} (w : World σ) (d : DEVICE)
    (timedate : Option Timestamp) : Res (Option (List Nat) × World σ) :=
  let w1 : World σ := { w with myRefId := wrap_int (w.myRefId + 1) }
  let MyRefId := snprintf 16 (fmt_d w1.myRefId)
  (ClearBuffer w1.b).bind fun b0 =>
  (AppendAll b0
    ([some (bytes "<overheightUpdateMsg>")] ++ AppendHeader (some MyRefId) w1.icdVersion ++
      AppendId d ++ AppendOverheight d timedate ++
      [some (bytes "</overheightUpdateMsg>")])).bind fun b1 =>
  .ok (FinishBuffer b1, { w1 with b := b1 })

/-! ## Requests -/

/-- The part of `Parse_XML_Message` after the parse (`act`): whether a response is due is
decided on `root->key` and the `overheightData` child. -/
def Parse_XML_Message_act {σ : Type} (w : World σ) (root : xml_element) :
    Res (Option (List Nat) × World σ) :=
  match root.key with
  | .garbage => .fault
  | .null => .ok (none, w)
  | .str k =>
    if mystrcasecmp k (bytes "retrieveDataReq") then
      (search_xml_value root.xml_list (bytes "overheightData")).bind fun v =>
      match v with
      | none => .ok (none, w)
      | some v =>
        if mystrcasecmp v (bytes "true") then
          (search_xml_value root.xml_list (bytes "refId")).bind fun refID =>
          (search_xml_value root.xml_list (bytes "icdVersion")).bind fun icdVersion =>
          Format_XML_Response w refID icdVersion
        else .ok (none, w)
    else .ok (none, w)

/-- The root element `Parse_XML_Message` allocates: every field `NULL`. -/
def new_root : xml_element := .mk .null [] none

/-- `Parse_XML_Message(buffer)` on the C string in `buffer`: parse into a tree whose root is
`new_root`, act on the tree whatever the parser returned, free the tree, return the
message. -/
def Parse_XML_Message {σ : Type} (w : World σ) (buffer : List Nat) :
    Res (Option (List Nat) × World σ) :=
  (parse_xml_element (parse_fuel buffer) buffer new_root).bind fun r =>
  (Parse_XML_Message_act w r.2).bind fun m =>
  if free_xml_element [r.2] then .ok m else .fault

/-! ## Framing -/

/-- `Send_Request_Message(SocketFD, buffer)`: the result and the environment afterwards.
The length word is `strlen(buffer)`, most significant byte first. -/
def Send_Request_Message {σ : Type} (net : Net σ) (env : σ) (SocketFD : Int)
    (buffer : List Nat) : Int × σ :=
  let n := buffer.length
  let buf := [(n >>> 24) &&& 0xFF, (n >>> 16) &&& 0xFF, (n >>> 8) &&& 0xFF, (n >>> 0) &&& 0xFF]
  let r1 := net.send env SocketFD buf
  if r1.1 < 0 ∨ r1.1 ≠ 4 then (-7, r1.2)
  else
    let r2 := net.send r1.2 SocketFD [0, 0, 0, 0]
    if r2.1 < 0 ∨ r2.1 ≠ 4 then (-6, r2.2)
    else
      let r3 := net.send r2.2 SocketFD buffer
      if r3.1 < 0 then (-5, r3.2)
      else if r3.1 < (n : Int) then (-10, r3.2)
      else (0, r3.2)

/-- The loops of `Read_XML_Message` that read a 4-byte word one byte at a time:
`n = (n << 8) | (c & 0xFF)` on a 32-bit `int` kept as its bit pattern. `none` when a `recv`
returns 0 or less. (The byte is stored in the low byte of `c`: a little-endian target.) -/
def read_word {σ : Type} (net : Net σ) (fd : Int) : Nat → σ → Nat → Option Nat × σ
  | 0, env, n => (some n, env)
  | i + 1, env, n =>
    match net.recv env fd 1 with
    | (some (c :: _), env1) => read_word net fd i env1 ((n * 256 % 2 ^ 32) ||| (c &&& 0xFF))
    | (_, env1) => (none, env1)

/-- The signed value of a 32-bit pattern. -/
def to_int (u : Nat) : Int := if u < 2 ^ 31 then (u : Int) else (u : Int) - 2 ^ 32

/-- `Read_XML_Message()`: the message buffer returned (`none` for `NULL`), as the `n` bytes
received, and the state afterwards. -/
def Read_XML_Message {σ : Type} (net : Net σ) (w : World σ) : Option (List Nat) × World σ :=
  match read_word net w.ClientConnection 4 w.env 0 with
  | (none, env1) => (none, close_Client_Connection net { w with env := env1 })
  | (some un, env1) =>
    let n := to_int un
    if n ≤ 0 then (none, close_Client_Connection net { w with env := env1 })
    else
      match read_word net w.ClientConnection 4 env1 0 with
      | (none, env2) => (none, close_Client_Connection net { w with env := env2 })
      | (some _, env2) =>
        if n > MAX_MESSAGE_LENGTH then (none, { w with env := env2 })
        else
          let w3 : World σ := { w with env := env2, mallocs := (n.toNat + 1) :: w.mallocs }
          match net.recv env2 w.ClientConnection n.toNat with
          | (some bs, env3) =>
            if ((bs.take n.toNat).length : Int) ≠ n then
              (none, close_Client_Connection net { w3 with env := env3 })
            else (some (bs.take n.toNat), { w3 with env := env3 })
          | (none, env3) => (none, close_Client_Connection net { w3 with env := env3 })

/-- `WriteXMLMessageToServer(d, timedate, dataexists)`. -/
def WriteXMLMessageToServer {σ : Type} (net : Net σ) (w : World σ) (d : DEVICE)
    (timedate : Option Timestamp) : Res (World σ) :=
  (Format_One_Event_Message w d timedate).bind fun r =>
  match r.1 with
  | none => .ok r.2
  | some message =>
    if r.2.ClientConnection ≠ INVALID_SOCKET then
      let rc := Send_Request_Message net r.2.env r.2.ClientConnection message
      if rc.1 < 0 then .ok (close_Client_Connection net { r.2 with env := rc.2 })
      else .ok { r.2 with env := rc.2 }
    else .ok r.2

/-- `Read_and_Reply_to_CVM()`: the parser is given the C string in the buffer read, that
is the bytes before the first NUL. -/
def Read_and_Reply_to_CVM {σ : Type} (net : Net σ) (w : World σ) : Res (World σ) :=
  match Read_XML_Message net w with
  | (none, w1) => .ok w1
  | (some buffer, w1) =>
    (Parse_XML_Message w1 (buffer.takeWhile (fun x => x != 0))).bind fun r =>
    match r.1 with
    | none => .ok r.2
    | some message =>
      let rc := Send_Request_Message net r.2.env r.2.ClientConnection message
      if rc.1 < 0 then .ok (close_Client_Connection net { r.2 with env := rc.2 })
      else .ok { r.2 with env := rc.2 }

/-! ## Statements about requests -/

/-- The condition under which a request is answered: the root's tag is `retrieveDataReq`
ignoring case and the lookup of `overheightData` among the root's children yields a leaf text
equal to `true` ignoring case. -/
def dispatch_due (root : xml_element) : Prop :=
  ∃ k v, root.key = .str k ∧ mystrcasecmp k (bytes "retrieveDataReq") = true ∧
    search_xml_value root.xml_list (bytes "overheightData") = .ok (some v) ∧
    mystrcasecmp v (bytes "true") = true

/-- A request that carries `refId` and `overheightData` but no `icdVersion`. -/
def request_without_icdVersion : List Nat :=
  bytes "<retrieveDataReq><refId>5</refId><overheightData>TRUE</overheightData></retrieveDataReq>"

/-! ## Statements about messages -/

/-- The text a run of `AppendBuffer` calls adds: the strings in order, `NULL` adding
nothing. -/
def pieces_text (l : List (Option (List Nat))) : List Nat :=
  (l.map (fun s => s.getD [])).flatten

/-- The registered devices: the non-empty slots of `DDD`, in slot order. -/
def registered (DDD : Fin MAX_DETECTORS → Option DEVICE) : List DEVICE :=
  (List.finRange MAX_DETECTORS).filterMap DDD

/-- The buffer holds the text `t`: the pointer is set, `n` is the length of the text, and
the text with its terminator fits in the `length` bytes allocated. -/
def BUFFER.holds (b : BUFFER) (t : List Nat) : Prop :=
  b.b = some t ∧ b.n = t.length ∧ b.n + 1 ≤ b.length

/-- The `AppendBuffer` calls of `Format_XML_Response`, in order, for the header strings
`refID` and `icd` and the registered devices. -/
def response_pieces (fs : Files) (DDD : Fin MAX_DETECTORS → Option DEVICE)
    (refID icd : Option (List Nat)) : List (Option (List Nat)) :=
  [some (bytes "<retrieveDataResp xmlns:xsi=\"http://www.w3.org/2001/XMLSchema-instance\">")] ++
  AppendHeader refID icd ++ [some (bytes "<data xsi:type=\"retrieveData\">")] ++
  (registered DDD).flatMap (overheightData_block fs) ++
  [some (bytes "</data>"), some (bytes "</retrieveDataResp>")]

/-- The `AppendBuffer` calls of `Format_One_Event_Message`, in order. -/
def event_pieces (d : DEVICE) (timedate : Option Timestamp) (MyRefId icd : Option (List Nat)) :
    List (Option (List Nat)) :=
  [some (bytes "<overheightUpdateMsg>")] ++ AppendHeader MyRefId icd ++
  AppendId d ++ AppendOverheight d timedate ++ [some (bytes "</overheightUpdateMsg>")]

/-- A registry with one device, in slot 0, that has no event file yet. -/
def device_without_reading : DEVICE :=
  { name := some (bytes "d1"), providerName := some (bytes "TxDOT"),
    resourceType := some (bytes "ohvd"), centerId := some (bytes "AUS"),
    id := some (bytes "ID1"), triggerHeight := some (bytes "162"),
    event_channel := 0, fault_channel := 1, eventFileName := some (bytes "ev1"),
    status := .ST_ACTIVE }

/-- A network environment without state on which every call fails. -/
def dead_net : Net Unit :=
  { recv := fun e _ _ => (none, e), send := fun e _ _ => (-1, e), close := fun e _ => e }

/-- The state of the agent after a configuration that sets `icdVersion` to `1.0` and defines
the one device `device_without_reading`; no event file exists and no client is connected. -/
def world_one_device : World Unit :=
  { env := (), ClientConnection := INVALID_SOCKET, icdVersion := some (bytes "1.0"),
    myRefId := 0,
    DDD := fun i => if i = 0 then some device_without_reading else none,
    Channel_Table := fun i => if i = 0 ∨ i = 1 then some 0 else none,
    default_device := default_device_init, b := BUFFER_init, fs := fun _ => none,
    mallocs := [], last_diValue := 0, pollingDelay := 50000, PortName := none,
    StringMyRefId := none, Log_File_Limit := 6000000 }

/-- The text a string pointer contributes to a message: nothing when it is `NULL`. -/
def text_of (s : Option (List Nat)) : List Nat := s.getD []

/-- Written out: the identity element of a device in a message. -/
def spec_id_text (d : DEVICE) : List Nat :=
  bytes "<id" ++ bytes " providerName=" ++ bytes "\"" ++ text_of d.providerName ++ bytes "\"" ++
  bytes " resourceType=" ++ bytes "\"" ++ text_of d.resourceType ++ bytes "\"" ++
  bytes " centerId=" ++ bytes "\"" ++ text_of d.centerId ++ bytes "\"" ++
  bytes ">" ++ text_of d.id ++ bytes "</id>"

/-- The name the protocol gives each status in `opStatus`: Active, Error, Failed or
OutofService. -/
def opStatus_text : DeviceStatus → List Nat
  | .ST_ACTIVE => bytes "Active"
  | .ST_ERROR => bytes "Error"
  | .ST_FAILED => bytes "Failed"
  | .ST_OUTOFSERVICE => bytes "OutofService"

/-- Written out: the status element of a device in a message, with the name of its
status. -/
def spec_status_text (d : DEVICE) : List Nat :=
  bytes "<overheightStatus>" ++ bytes "<opStatus>" ++ opStatus_text d.status ++
  bytes "</opStatus>" ++ bytes "</overheightStatus>"

/-- Written out: the reading element of a message for a persisted reading. -/
def spec_reading_text (d : DEVICE) (t : Timestamp) : List Nat :=
  bytes "<overheightReadingData>" ++
  bytes "<readingTime>" ++ readingTime t ++ bytes "</readingTime>" ++
  bytes "<readingDate>" ++ readingDate t ++ bytes "</readingDate>" ++
  bytes "<triggerHeight units=" ++ bytes "\"" ++ bytes "in" ++ bytes "\"" ++ bytes ">" ++
  text_of d.triggerHeight ++ bytes "</triggerHeight>" ++
  bytes "</overheightReadingData>"

/-- Written out: the `overheight` element of a device. With a persisted reading it holds
the reading element and the status element; without one it holds the status element
only. -/
def spec_overheight_text (d : DEVICE) : Option Timestamp → List Nat
  | some t => bytes "<overheight>" ++ spec_reading_text d t ++ spec_status_text d ++
      bytes "</overheight>"
  | none => bytes "<overheight>" ++ spec_status_text d ++ bytes "</overheight>"

/-- Written out: the `overheightData` block of one device in a response. -/
def spec_block_text (fs : Files) (d : DEVICE) : List Nat :=
  bytes "<overheightData>" ++ spec_id_text d ++
  spec_overheight_text d (ReadEventFromFile fs d) ++ bytes "</overheightData>"

/-- Written out: the header of a message, `refId` then `icdVersion`. -/
def spec_header_text (refId icd : List Nat) : List Nat :=
  bytes "<refId>" ++ refId ++ bytes "</refId>" ++
  bytes "<icdVersion>" ++ icd ++ bytes "</icdVersion>"

/-- Written out: the opening tag of a response. -/
def spec_response_open : List Nat :=
  bytes "<retrieveDataResp xmlns:xsi=\"http://www.w3.org/2001/XMLSchema-instance\">"

/-- The response of `world_one_device` to a request with `refId` 5 and `icdVersion` 1.0. -/
def response_one_device : List Nat :=
  bytes "<retrieveDataResp xmlns:xsi=\"http://www.w3.org/2001/XMLSchema-instance\"><refId>5</refId><icdVersion>1.0</icdVersion><data xsi:type=\"retrieveData\"><overheightData><id providerName=\"TxDOT\" resourceType=\"ohvd\" centerId=\"AUS\">ID1</id><overheight><overheightStatus><opStatus>Active</opStatus></overheightStatus></overheight></overheightData></data></retrieveDataResp>"

/-- The message of an outcome, when there is one. -/
def Res.message {α : Type} : Res (Option (List Nat) × α) → Option (List Nat)
  | .ok r => r.1
  | _ => none

/-- The tree `parse_xml_element` builds for `request_without_icdVersion`. -/
def root_without_icdVersion : xml_element :=
  .mk (.str (bytes "retrieveDataReq"))
    [.mk (.str (bytes "overheightData")) [] (some (bytes "TRUE")),
     .mk (.str (bytes "refId")) [] (some (bytes "5"))] none

/-- The request of scenario B: `refId` 5, `icdVersion` 1.0, `overheightData` TRUE. -/
def request_scenario_B : List Nat :=
  bytes "<retrieveDataReq><refId>5</refId><icdVersion>1.0</icdVersion><overheightData>TRUE</overheightData></retrieveDataReq>"

/-- The tree `parse_xml_element` builds for `request_scenario_B`. -/
def root_scenario_B : xml_element :=
  .mk (.str (bytes "retrieveDataReq"))
    [.mk (.str (bytes "overheightData")) [] (some (bytes "TRUE")),
     .mk (.str (bytes "icdVersion")) [] (some (bytes "1.0")),
     .mk (.str (bytes "refId")) [] (some (bytes "5"))] none

/-- The state after an outcome, when there is one. -/
def Res.state {α β : Type} : Res (α × β) → Option β
  | .ok r => some r.2
  | _ => none

/-- A connection as the bytes in flight: `send` appends all its bytes and reports their
number; `recv` with `MSG_WAITALL` takes the requested number of bytes from the front and
fewer only when the stream ends there. -/
def wire : Net (List Nat) :=
  { recv := fun env _ len => (some (env.take len), env.drop len),
    send := fun env _ data => ((data.length : Int), env ++ data),
    close := fun env _ => env }

/-- The state of the agent with a client connected on descriptor 5 and the given bytes
inbound. -/
def world_connected (inbound : List Nat) : World (List Nat) :=
  { env := inbound, ClientConnection := 5, icdVersion := some (bytes "1.0"), myRefId := 0,
    DDD := fun i => if i = 0 then some device_without_reading else none,
    Channel_Table := fun i => if i = 0 ∨ i = 1 then some 0 else none,
    default_device := default_device_init, b := BUFFER_init, fs := fun _ => none,
    mallocs := [], last_diValue := 0, pollingDelay := 50000, PortName := none,
    StringMyRefId := none, Log_File_Limit := 6000000 }

/-- The length word `Send_Request_Message` sends for a payload of `n` bytes. -/
def length_word (n : Nat) : List Nat :=
  [(n >>> 24) &&& 0xFF, (n >>> 16) &&& 0xFF, (n >>> 8) &&& 0xFF, (n >>> 0) &&& 0xFF]

/-- All three `send` calls of `Send_Request_Message` are complete: the two words go out
with 4 bytes each and the payload with no fewer bytes than it has. -/
def sends_complete {σ : Type} (net : Net σ) (env : σ) (fd : Int) (buffer : List Nat) : Prop :=
  (net.send env fd (length_word buffer.length)).1 = 4 ∧
  (net.send (net.send env fd (length_word buffer.length)).2 fd [0, 0, 0, 0]).1 = 4 ∧
  (buffer.length : Int) ≤
    (net.send (net.send (net.send env fd (length_word buffer.length)).2 fd [0, 0, 0, 0]).2
      fd buffer).1

/-- The read of the 4 length bytes comes back short, at the end of the stream or with an
error: one of its `recv` calls returns 0 or less. -/
def length_read_fails {σ : Type} (net : Net σ) (w : World σ) : Prop :=
  (read_word net w.ClientConnection 4 w.env 0).1 = none

/-- The 4 length bytes are read, and the read of the 4 reserved bytes comes back short, at
the end of the stream or with an error. -/
def reserved_read_fails {σ : Type} (net : Net σ) (w : World σ) : Prop :=
  ∃ un env1, read_word net w.ClientConnection 4 w.env 0 = (some un, env1) ∧
    (read_word net w.ClientConnection 4 env1 0).1 = none

/-- Both words are read, the declared length `n` is within `MAX_MESSAGE_LENGTH`, and the
read of the `n` payload bytes comes back with an error or with fewer than `n` bytes. -/
def payload_read_fails {σ : Type} (net : Net σ) (w : World σ) : Prop :=
  ∃ un env1 m env2, read_word net w.ClientConnection 4 w.env 0 = (some un, env1) ∧
    read_word net w.ClientConnection 4 env1 0 = (some m, env2) ∧
    to_int un ≤ MAX_MESSAGE_LENGTH ∧
    (∀ bs, (net.recv env2 w.ClientConnection (to_int un).toNat).1 = some bs →
      ((bs.take (to_int un).toNat).length : Int) < to_int un)

/-! ## Statements about the parser: attribute-free, well-formed fragments -/

mutual

/-- An element of an attribute-free, well-formed fragment. A leaf `<tag s1>text</tag s2>`
holds text; a node `<tag s1>ws kids</tag s2>` holds child elements. `s1` and `s2` are the
white space XML allows before the `>` of a tag, `ws` the white space after the start
tag. -/
inductive Elem where
  | leaf (tag s1 text s2 : List Nat)
  | node (tag s1 ws : List Nat) (kids : Kids) (s2 : List Nat)

/-- The child elements of a node in document order, each followed by white space. -/
inductive Kids where
  | nil
  | cons (e : Elem) (ws : List Nat) (rest : Kids)

end

/-- White space only. -/
def is_blank (l : List Nat) : Bool := l.all isspace

/-- A tag name: one or more tag characters. -/
def is_tag_name (l : List Nat) : Bool := !l.isEmpty && l.all istagchar

mutual

/-- The text of an element. -/
def Elem.render : Elem → List Nat
  | .leaf tag s1 text s2 =>
    60 :: (tag ++ (s1 ++ 62 :: (text ++ 60 :: 47 :: (tag ++ (s2 ++ [62])))))
  | .node tag s1 ws kids s2 =>
    60 :: (tag ++ (s1 ++ 62 :: (ws ++ (kids.render ++ 60 :: 47 :: (tag ++ (s2 ++ [62]))))))

/-- The text of a sequence of child elements. -/
def Kids.render : Kids → List Nat
  | .nil => []
  | .cons e ws rest => e.render ++ (ws ++ rest.render)

end

mutual

/-- Well-formedness: tag names are tag names, white space is white space, and the text of a
leaf has no `<` and is not blank. -/
def Elem.wf : Elem → Bool
  | .leaf tag s1 text s2 =>
    is_tag_name tag && is_blank s1 && is_blank s2 && !text.contains 60 && !is_blank text
  | .node tag s1 ws kids s2 =>
    is_tag_name tag && is_blank s1 && is_blank s2 && is_blank ws && kids.wf

/-- Well-formedness of a sequence of children. -/
def Kids.wf : Kids → Bool
  | .nil => true
  | .cons e ws rest => e.wf && is_blank ws && rest.wf

end

/-- Text with the leading and trailing white space removed. -/
def trim (text : List Nat) : List Nat := rtrim (text.dropWhile isspace)

mutual

/-- The tree of an element: the key is the tag name; a leaf has its trimmed text as value; a
node has no value and lists its children, the last one in the document first. -/
def Elem.tree : Elem → xml_element
  | .leaf tag _ text _ => .mk (.str tag) [] (some (trim text))
  | .node tag _ _ kids _ => .mk (.str tag) kids.trees.reverse none

/-- The trees of a sequence of children, in document order. -/
def Kids.trees : Kids → List xml_element
  | .nil => []
  | .cons e _ rest => e.tree :: rest.trees

end

/-- The tag names of a sequence of children, in document order. -/
def Kids.tags : Kids → List (List Nat)
  | .nil => []
  | .cons (.leaf tag _ _ _) _ rest => tag :: rest.tags
  | .cons (.node tag _ _ _ _) _ rest => tag :: rest.tags

/-- The fragment `<a><b>1</b><c>2</c></a>`: a node with the two children `b` and `c`. -/
def fragment_two_children : Elem :=
  .node (bytes "a") [] []
    (.cons (.leaf (bytes "b") [] (bytes "1") []) []
      (.cons (.leaf (bytes "c") [] (bytes "2") []) [] .nil)) []

/-- A string that one `AppendBuffer` call can always take: at most 1024 bytes. -/
structure fits (s : Option (List Nat)) : Prop where
  le : (s.getD []).length ≤ 1024

/-- A device all of whose message strings fit. -/
def detector_device_descriptor.fits (d : DEVICE) : Prop :=
  Overhead.fits d.providerName ∧ Overhead.fits d.resourceType ∧ Overhead.fits d.centerId ∧
  Overhead.fits d.id ∧ Overhead.fits d.triggerHeight

/-- The global buffer as the program can leave it: not yet allocated, or allocated with at
least the initial 1024 bytes. -/
def BUFFER.usable (b : BUFFER) : Prop :=
  b.length = 0 ∨ (1024 ≤ b.length ∧ b.b ≠ none)

/-- The children that the loop of `parse_xml_element` parses from `buffer`, in document
order, each with the number of bytes from the place where the loop starts parsing it (its
start tag, or a comment in front of it) to the end of the text: the first is the child
parsed at the head of the buffer, the others are the children parsed from the text behind
it. The other component is the buffer pointer the loop ends with. -/
def children_in_document_order :
    Nat → List Nat → Res (Option (List Nat) × List (Nat × xml_element))
  | 0, _ => .nofuel
  | fuel + 1, buffer =>
    if buffer.head? = some 60 ∧ buffer.tail.head? ≠ some 47 then
      match parse_xml_element fuel buffer new_child with
      | .ok (some (e :: b), child) =>
        (children_in_document_order fuel (e :: b)).bind
          (fun r => .ok (r.1, (buffer.length, child) :: r.2))
      | .ok (_, child) => .ok (none, [(buffer.length, child)])
      | .fault => .fault
      | .nofuel => .nofuel
    else .ok (some buffer, [])

/-! ## Configuration -/

/-- `atoi(nptr)`, that is `(int) strtol(nptr, NULL, 10)` with a 32-bit `long`: white space
is skipped, one sign is accepted, the decimal digits that follow are read, and a value out
of range is replaced by the nearest bound. -/
def atoi (nptr : List Nat) : Int :=
  let s := nptr.dropWhile isspace
  let body := match s with
    | 43 :: r => r
    | 45 :: r => r
    | r => r
  let v : Int := (digits_value (body.takeWhile isdigit) : Nat)
  if s.head? = some 45 then max (-v) (-(2 ^ 31)) else min v (2 ^ 31 - 1)

/-- `decode_status`. -/
def decode_status (value : Option (List Nat)) : DeviceStatus :=
  match value with
  | some v =>
    if mystrcasecmp v (bytes "Active") then .ST_ACTIVE
    else if mystrcasecmp v (bytes "OutofService") then .ST_OUTOFSERVICE
    else if mystrcasecmp v (bytes "Failed") then .ST_FAILED
    else .ST_ERROR
  | none => .ST_ERROR

/-- `decode_channel_number`. -/
def decode_channel_number (value : List Nat) : Int :=
  let n := atoi value
  let n := if n < 0 then 0 else n
  if n ≥ MAX_CHANNELS then MAX_CHANNELS - 1 else n

/-- `decode_polling_delay`. -/
def decode_polling_delay (value : List Nat) : Int :=
  let n := atoi value
  let n := if n < 10 then 0 else n
  if n ≥ 1000000 then 1000000 else n

/-- `decode_file_size`: the digits are accumulated in an `int`. -/
def decode_file_size (value : List Nat) : Int :=
  let n := (value.takeWhile isdigit).foldl (fun n c => wrap_int (n * 10 + ((c : Int) - 48))) 0
  let rest := value.dropWhile isdigit
  let n := if rest.head? = some 75 ∨ rest.head? = some 107 then wrap_int (n * 1024) else n
  if rest.head? = some 77 ∨ rest.head? = some 109 then wrap_int (n * 1024 * 1024) else n

/-- First loop of `search_device_array`: the slot, among those listed, of the first
device whose name equals `name` ignoring case. A device without a name makes
`mystrcasecmp` read through a `NULL` pointer. -/
def search_device_array_find (DDD : Fin MAX_DETECTORS → Option DEVICE) (name : List Nat) :
    List (Fin MAX_DETECTORS) → Res (Option (Fin MAX_DETECTORS))
  | [] => .ok none
  | i :: rest =>
    match DDD i with
    | none => search_device_array_find DDD name rest
    | some d =>
      match d.name with
      | none => .fault
      | some n =>
        if mystrcasecmp name n then .ok (some i) else search_device_array_find DDD name rest

/-- The device that `search_device_array` puts into an empty slot. -/
def new_device (name : List Nat) : DEVICE :=
  { name := some name, providerName := none, resourceType := none, centerId := none,
    id := none, triggerHeight := none, event_channel := -1, fault_channel := -1,
    eventFileName := none, status := .ST_ERROR }

/-- `search_device_array(name)`: the slot of the device found or made, `none` for `NULL`,
and the registry afterwards. -/
def search_device_array (DDD : Fin MAX_DETECTORS → Option DEVICE) (name : List Nat) :
    Res (Option (Fin MAX_DETECTORS) × (Fin MAX_DETECTORS → Option DEVICE)) :=
  (search_device_array_find DDD name (List.finRange MAX_DETECTORS)).bind fun r =>
  match r with
  | some i => .ok (some i, DDD)
  | none =>
    match (List.finRange MAX_DETECTORS).find? (fun i => (DDD i).isNone) with
    | some i => .ok (some i, Function.update DDD i (some (new_device name)))
    | none => .ok (none, DDD)

/-- The cases of the `switch` of `define_key_string` that store into the device `d`. -/
def define_key_device (d : DEVICE) (string_index : Int) (value : List Nat) : DEVICE :=
  if string_index = 0 then { d with providerName := some value }
  else if string_index = 1 then { d with resourceType := some value }
  else if string_index = 2 then { d with centerId := some value }
  else if string_index = 3 then { d with triggerHeight := some value }
  else if string_index = 4 then { d with event_channel := decode_channel_number value }
  else if string_index = 5 then { d with fault_channel := decode_channel_number value }
  else if string_index = 6 then { d with eventFileName := some value }
  else if string_index = 7 then { d with status := decode_status (some value) }
  else if string_index = 12 then { d with id := some value }
  else d

/-- The cases of the `switch` of `define_key_string` that store into a global variable. -/
def define_key_global {σ : Type} (w : World σ) (string_index : Int) (value : List Nat) :
    World σ :=
  if string_index = 8 then { w with PortName := some value }
  else if string_index = 9 then { w with StringMyRefId := some value }
  else if string_index = 10 then { w with icdVersion := some value }
  else if string_index = 11 then { w with pollingDelay := decode_polling_delay value }
  else if string_index = 13 then { w with Log_File_Limit := decode_file_size value }
  else w

/-- `define_key_string(device, string_index, value)`; `value` is never `NULL`. -/
def define_key_string {σ : Type} (w : World σ) (device : Option (List Nat))
    (string_index : Int) (value : List Nat) : Res (World σ) :=
  match device with
  | some name =>
    (search_device_array w.DDD name).bind fun r =>
    match r.1 with
    | none => .ok { w with DDD := r.2 }
    | some i =>
      match r.2 i with
      | none => .fault
      | some d =>
        .ok (define_key_global
          { w with DDD := Function.update r.2 i (some (define_key_device d string_index value)) }
          string_index value)
  | none =>
    .ok (define_key_global
      { w with default_device := define_key_device w.default_device string_index value }
      string_index value)

/-- One call of `define_key_string` made while the configuration file is read. -/
structure Assignment where
  device : Option (List Nat)
  string_index : Int
  value : List Nat
  deriving Repr, DecidableEq

/-- The calls of `define_key_string` that the lines of the configuration file lead to, made
in order. -/
def define_all {σ : Type} (w : World σ) : List Assignment → Res (World σ)
  | [] => .ok w
  | a :: rest =>
    (define_key_string w a.device a.string_index a.value).bind fun w1 => define_all w1 rest

/-- The fields of a device that are still unset, filled from `default_device`. -/
def fill_device (def_dev d : DEVICE) : DEVICE :=
  { d with
    providerName := if d.providerName = none then def_dev.providerName else d.providerName
    resourceType := if d.resourceType = none then def_dev.resourceType else d.resourceType
    centerId := if d.centerId = none then def_dev.centerId else d.centerId
    id := if d.id = none then def_dev.id else d.id
    triggerHeight := if d.triggerHeight = none then def_dev.triggerHeight else d.triggerHeight
    event_channel := if d.event_channel = -1 then def_dev.event_channel else d.event_channel
    fault_channel := if d.fault_channel = -1 then def_dev.fault_channel else d.fault_channel
    eventFileName := if d.eventFileName = none then def_dev.eventFileName else d.eventFileName
    status := if d.status = .ST_ERROR then def_dev.status else d.status }

/-- The slot of `Channel_Table` that an `int` index designates; an index outside the array
designates none. -/
def channel_slot (c : Int) : Option (Fin MAX_CHANNELS) :=
  if h : 0 ≤ c ∧ c < MAX_CHANNELS then some ⟨c.toNat, by omega⟩ else none

/-- Body of the last loop of `Read_Config_File` for the slot `i` of `DDD`: the unset fields
are filled, then `Channel_Table` is read and written at the two channels of the device. An
index outside `Channel_Table` is an access outside the array. -/
def Read_Config_File_device {σ : Type} (w : World σ) (i : Fin MAX_DETECTORS) :
    Res (World σ) :=
  match w.DDD i with
  | none => .ok w
  | some d =>
    let d1 := fill_device w.default_device d
    match channel_slot d1.event_channel, channel_slot d1.fault_channel with
    | some e, some f =>
      .ok { w with
        DDD := Function.update w.DDD i (some d1)
        Channel_Table := Function.update (Function.update w.Channel_Table e (some i)) f (some i) }
    | _, _ => .fault

/-- The last loop of `Read_Config_File` over the slots listed. -/
def Read_Config_File_devices {σ : Type} (w : World σ) : List (Fin MAX_DETECTORS) → Res (World σ)
  | [] => .ok w
  | i :: rest => (Read_Config_File_device w i).bind fun w1 => Read_Config_File_devices w1 rest

/-- The finalize step of `Read_Config_File`: `Channel_Table` is emptied and the loop over
the devices is run. -/
def Read_Config_File_finalize {σ : Type} (w : World σ) : Res (World σ) :=
  Read_Config_File_devices { w with Channel_Table := fun _ => none }
    (List.finRange MAX_DETECTORS)

/-- The step of `Read_Config_File` that makes sure there is at least one device. -/
def Read_Config_File_ensure {σ : Type} (w : World σ) : Res (World σ) :=
  if ∀ i, w.DDD i = none then
    (search_device_array w.DDD (bytes "default device")).bind fun r => .ok { w with DDD := r.2 }
  else .ok w

/-- `Read_Config_File()` on a configuration file that can be opened, given by the calls of
`define_key_string` its lines lead to: the registry is emptied, the calls are made, a
device is made if there is none, and the finalize step is run. The template
`default_device` and the global settings keep what an earlier run left in them. -/
def Read_Config_File {σ : Type} (w : World σ) (lines : List Assignment) : Res (World σ) :=
  (define_all { w with DDD := fun _ => none } lines).bind fun w1 =>
  (Read_Config_File_ensure w1).bind fun w2 =>
  Read_Config_File_finalize w2

/-! ## Events -/

/-- The line `WriteEventToFile` prints into `szLine[32]` with `EVENT_FILE_FORMAT`. -/
def event_line (t : Timestamp) : List Nat :=
  snprintf 32 (fmt_0lu 4 t.year ++ [47] ++ fmt_0lu 2 t.mon ++ [47] ++ fmt_0lu 2 t.day ++ [32] ++
    fmt_0lu 2 t.hour ++ [58] ++ fmt_0lu 2 t.min ++ [58] ++ fmt_0lu 2 t.sec ++ [10])

/-- `WriteEventToFile(d, timedate)`: the files afterwards. `open` with `O_WRONLY|O_CREAT`
fails on a `NULL` or empty path and otherwise makes the file when it is missing; the line
and its closing NUL are written over the start of the file, which is not truncated. The
file system is taken to accept every such write. -/
def WriteEventToFile (fs : Files) (d : DEVICE) (timedate : Timestamp) : Files :=
  match d.eventFileName with
  | none => fs
  | some path =>
    if path = [] then fs
    else
      let data := event_line timedate ++ [0]
      fun p => if p = path then some (data ++ ((fs path).getD []).drop data.length) else fs p

/-- One call of `WriteXMLMessageToServer`, hence of `Format_One_Event_Message`: whether it
was made by `Process_Change_In_Status_Event`, the device as it was passed, and the reading
passed with it (`none` when `dataexists` was FALSE). -/
structure Push where
  status_change : Bool
  device : DEVICE
  timedate : Option Timestamp
  deriving Repr, DecidableEq

/-- `Process_Actual_DI_Event(d)` for the device in slot `i` of `DDD`, with the local time
`now` of the call: the state afterwards and the pushes made. -/
def Process_Actual_DI_Event {σ : Type} (net : Net σ) (w : World σ) (i : Fin MAX_DETECTORS)
    (now : Timestamp) : Res (World σ × List Push) :=
  match w.DDD i with
  | none => .fault
  | some d =>
    let w1 : World σ := { w with fs := WriteEventToFile w.fs d now }
    (WriteXMLMessageToServer net w1 d (some now)).bind fun w2 =>
    .ok (w2, [{ status_change := false, device := d, timedate := some now }])

/-- `Process_Change_In_Status_Event(d)` for the device in slot `i` of `DDD`. -/
def Process_Change_In_Status_Event {σ : Type} (net : Net σ) (w : World σ)
    (i : Fin MAX_DETECTORS) : Res (World σ × List Push) :=
  match w.DDD i with
  | none => .fault
  | some d =>
    let timedate := ReadEventFromFile w.fs d
    (WriteXMLMessageToServer net w d timedate).bind fun w1 =>
    .ok (w1, [{ status_change := true, device := d, timedate := timedate }])

/-- `setStatus(d, status)` for the device in slot `i` of `DDD`. -/
def setStatus {σ : Type} (net : Net σ) (w : World σ) (i : Fin MAX_DETECTORS)
    (status : DeviceStatus) : Res (World σ × List Push) :=
  match w.DDD i with
  | none => .fault
  | some d =>
    if d.status ≠ status then
      Process_Change_In_Status_Event net
        { w with DDD := Function.update w.DDD i (some { d with status := status }) } i
    else .ok (w, [])

/-- `Process_DI_Event(channel, new_state)` with the local time `now` of the call. The
callers pass a `channel` inside `Channel_Table`. -/
def Process_DI_Event {σ : Type} (net : Net σ) (w : World σ) (channel : Fin MAX_CHANNELS)
    (new_state : Int) (now : Timestamp) : Res (World σ × List Push) :=
  match w.Channel_Table channel with
  | none => .ok (w, [])
  | some i =>
    match w.DDD i with
    | none => .fault
    | some d =>
      if d.event_channel = channel ∧ new_state ≠ 1 then .ok (w, [])
      else
        (if d.event_channel = channel then Process_Actual_DI_Event net w i now
          else .ok (w, [])).bind fun r1 =>
        if d.fault_channel = channel then
          match r1.1.DDD i with
          | none => .fault
          | some d1 =>
            if d1.status = .ST_OUTOFSERVICE then .ok r1
            else
              (if new_state = 1 then setStatus net r1.1 i .ST_FAILED
                else setStatus net r1.1 i .ST_ACTIVE).bind fun r2 =>
              .ok (r2.1, r1.2 ++ r2.2)
        else .ok r1

/-! ## Statements about the lookup and about malformed requests -/

/-- Whether the key of an element is set and equals `key` once both are put in lower
case. -/
def key_is (key : List Nat) (p : xml_element) : Bool :=
  match p.key with
  | .str k => decide (key.map tolower = k.map tolower)
  | _ => false

/-- A child list with a leaf `refId`, an `icdVersion` that is not a leaf, and a second leaf
`REFID`. -/
def children_with_inner_node : List xml_element :=
  [.mk (.str (bytes "refId")) [] (some (bytes "5")),
   .mk (.str (bytes "icdVersion")) [.mk (.str (bytes "x")) [] (some (bytes "1"))] none,
   .mk (.str (bytes "REFID")) [] (some (bytes "6"))]

/-- The request of scenario B cut off before its closing tag. -/
def request_truncated : List Nat :=
  bytes "<retrieveDataReq><refId>5</refId><icdVersion>1.0</icdVersion><overheightData>TRUE</overheightData>"

/-- A request that ends inside a comment. -/
def request_open_comment : List Nat := bytes "<!-- retrieveDataReq"

/-- A request that ends inside a declaration. -/
def request_open_declaration : List Nat := bytes "<?xml version=\"1.0\""

/-- A request that ends inside its start tag. -/
def request_open_tag : List Nat := bytes "<retrieveDataReq"

/-! ## Statements about the configuration -/

/-- The fields of a device that the configuration file can set. -/
inductive Field where
  | providerName
  | resourceType
  | centerId
  | id
  | triggerHeight
  | eventChannel
  | faultChannel
  | eventFileName
  | status
  deriving Repr, DecidableEq

/-- The value of a field: a string pointer, a channel number or a status. -/
inductive FieldValue where
  | text (s : Option (List Nat))
  | channel (c : Int)
  | status (s : DeviceStatus)
  deriving Repr, DecidableEq

/-- The `string_index` of a field in the table `cft`. -/
def Field.index : Field → Int
  | .providerName => 0
  | .resourceType => 1
  | .centerId => 2
  | .triggerHeight => 3
  | .eventChannel => 4
  | .faultChannel => 5
  | .eventFileName => 6
  | .status => 7
  | .id => 12

/-- The value a device holds in a field. -/
def Field.get : Field → DEVICE → FieldValue
  | .providerName, d => .text d.providerName
  | .resourceType, d => .text d.resourceType
  | .centerId, d => .text d.centerId
  | .id, d => .text d.id
  | .triggerHeight, d => .text d.triggerHeight
  | .eventChannel, d => .channel d.event_channel
  | .faultChannel, d => .channel d.fault_channel
  | .eventFileName, d => .text d.eventFileName
  | .status, d => .status d.status

/-- The decoded value of the text assigned to a field. -/
def Field.decode : Field → List Nat → FieldValue
  | .eventChannel, v => .channel (decode_channel_number v)
  | .faultChannel, v => .channel (decode_channel_number v)
  | .status, v => .status (decode_status (some v))
  | _, v => .text (some v)

/-- The value a field has in a device that `search_device_array` has just made. -/
def Field.unset : Field → FieldValue
  | .eventChannel => .channel (-1)
  | .faultChannel => .channel (-1)
  | .status => .status .ST_ERROR
  | _ => .text none

/-- Two names are equal ignoring case. -/
def same_name (s t : List Nat) : Bool := decide (s.map tolower = t.map tolower)

/-- The assignment names the device `name` (ignoring case) and the field `f`. -/
def assigns (name : List Nat) (f : Field) (a : Assignment) : Bool :=
  match a.device with
  | some n => same_name n name && decide (a.string_index = f.index)
  | none => false

/-- The text explicitly assigned to the field `f` of the device `name` by the lines of a
configuration file: that of the last line that assigns it, `none` when no line does. -/
def assigned (lines : List Assignment) (name : List Nat) (f : Field) : Option (List Nat) :=
  ((lines.filter (assigns name f)).getLast?).map Assignment.value

/-- What is known of the registry after the lines `P` have been processed, starting from
an empty registry: every device has a name and holds in each field the decoded value last
assigned to it, or the unset value; no two devices have the same name ignoring case; every
device a line names is registered unless the registry is full. -/
structure registry_inv (P : List Assignment) (DDD : Fin MAX_DETECTORS → Option DEVICE) :
    Prop where
  named : ∀ i d, DDD i = some d → ∃ n, d.name = some n ∧
    ∀ f : Field, f.get d = match assigned P n f with
      | some v => f.decode v
      | none => f.unset
  distinct : ∀ i j d e n m, DDD i = some d → DDD j = some e → d.name = some n →
    e.name = some m → same_name n m = true → i = j
  known : ∀ a ∈ P, ∀ n, a.device = some n →
    (∃ i d m, DDD i = some d ∧ d.name = some m ∧ same_name m n = true) ∨ ∀ i, DDD i ≠ none

/-- Whether the device in slot `i` uses the channel `c` as its event or fault channel. -/
def uses_channel (DDD : Fin MAX_DETECTORS → Option DEVICE) (c : Fin MAX_CHANNELS)
    (i : Fin MAX_DETECTORS) : Bool :=
  match DDD i with
  | some d => decide (d.event_channel = c ∨ d.fault_channel = c)
  | none => false

/-- The highest slot of the registry whose device uses the channel `c`, none when no
device uses it. -/
def last_user (DDD : Fin MAX_DETECTORS → Option DEVICE) (c : Fin MAX_CHANNELS) :
    Option (Fin MAX_DETECTORS) :=
  (List.finRange MAX_DETECTORS).reverse.find? (uses_channel DDD c)

/-- Every registered device has, once its unset channels are taken from `default_device`,
both channels inside `Channel_Table`. -/
def channels_in_range {σ : Type} (w : World σ) : Prop :=
  ∀ i d, w.DDD i = some d →
    (0 ≤ (fill_device w.default_device d).event_channel ∧
      (fill_device w.default_device d).event_channel < MAX_CHANNELS) ∧
    (0 ≤ (fill_device w.default_device d).fault_channel ∧
      (fill_device w.default_device d).fault_channel < MAX_CHANNELS)

/-- The value of an outcome, when there is one. -/
def Res.result {α : Type} : Res α → Option α
  | .ok a => some a
  | _ => none

/-- The state `world_one_device` before any configuration file is read: no device. -/
def world_empty_registry : World Unit :=
  { world_one_device with DDD := fun _ => none, Channel_Table := fun _ => none }

/-- The device `device_without_reading` under another name. -/
def device_named (name : List Nat) : DEVICE :=
  { device_without_reading with name := some name }

/-- A state whose registry is full: four devices `north`, `south`, `east` and `west`. -/
def world_four_devices : World Unit :=
  { world_one_device with
    DDD := fun i =>
      if i = 0 then some (device_named (bytes "north"))
      else if i = 1 then some (device_named (bytes "south"))
      else if i = 2 then some (device_named (bytes "east"))
      else some (device_named (bytes "west")) }

/-- A configuration file that sets the template to status `Active` and channels 0 and 1,
and assigns the status `Error` and the id `ID1` to the device `d1`. -/
def lines_status_Error : List Assignment :=
  [{ device := none, string_index := 7, value := bytes "Active" },
   { device := none, string_index := 4, value := bytes "0" },
   { device := none, string_index := 5, value := bytes "1" },
   { device := some (bytes "d1"), string_index := 7, value := bytes "Error" },
   { device := some (bytes "D1"), string_index := 12, value := bytes "ID1" }]

/-- A state before the finalize step in which the devices `d1` (slot 0) and `d2` (slot 1)
both have event channel 3; their fault channels are 4 and 5. -/
def world_shared_channel : World Unit :=
  { world_one_device with
    DDD := fun i =>
      if i = 0 then
        some { device_named (bytes "d1") with event_channel := 3, fault_channel := 4 }
      else if i = 1 then
        some { device_named (bytes "d2") with event_channel := 3, fault_channel := 5 }
      else none }

/-- A configuration file in which no line names a device. -/
def lines_template_only : List Assignment :=
  [{ device := none, string_index := 0, value := bytes "TxDOT" },
   { device := none, string_index := 4, value := bytes "2" },
   { device := none, string_index := 5, value := bytes "3" },
   { device := none, string_index := 7, value := bytes "Active" },
   { device := none, string_index := 10, value := bytes "2.0" }]

/-! ## Statements about events -/

/-- The local time 2024/01/02 12:30:45. -/
def half_past_noon : Timestamp :=
  { sec := 45, min := 30, hour := 12, day := 2, mon := 1, year := 2024 }

/-- The state `world_one_device` with its device out of service. -/
def world_out_of_service : World Unit :=
  { world_one_device with
    DDD := fun i =>
      if i = 0 then some { device_without_reading with status := .ST_OUTOFSERVICE } else none }

/-- A device whose event channel and fault channel are both 3, in status FAILED. -/
def device_shared_wire : DEVICE :=
  { device_without_reading with event_channel := 3, fault_channel := 3, status := .ST_FAILED }

/-- The state after a configuration file that gives the one device `device_shared_wire`:
channel 3 is mapped to it. -/
def world_shared_wire : World Unit :=
  { world_one_device with
    DDD := fun i => if i = 0 then some device_shared_wire else none
    Channel_Table := fun c => if c = 3 then some 0 else none }

/-- The text of the push that `Format_One_Event_Message` builds for the device `d` with
the reading `timedate`, the counter value `refId` and the version `icd`. -/
def spec_push_text (d : DEVICE) (timedate : Option Timestamp) (refId : Int)
    (icd : Option (List Nat)) : List Nat :=
  bytes "<overheightUpdateMsg>" ++
  spec_header_text (snprintf 16 (fmt_d refId)) (text_of icd) ++
  spec_id_text d ++ spec_overheight_text d timedate ++ bytes "</overheightUpdateMsg>"

/-! ## Polling -/

/-- One call `Process_DI_Event(channel, new_state)` made by `Poll_for_DI_Event`, with the
pushes it produced. -/
structure Signal where
  channel : Fin MAX_CHANNELS
  new_state : Int
  pushes : List Push
  deriving Repr, DecidableEq

/-- The loop of `Poll_for_DI_Event` over the channels listed: a channel whose bit differs
between `diValue` and `last_diValue` is passed to `Process_DI_Event` with its new bit. The
local time of the call for channel `i` is `now i`. -/
def Poll_for_DI_Event_loop {σ : Type} (net : Net σ) (diValue last_diValue : Nat)
    (now : Fin MAX_CHANNELS → Timestamp) :
    List (Fin MAX_CHANNELS) → World σ → Res (World σ × List Signal)
  | [], w => .ok (w, [])
  | i :: rest, w =>
    let mask := 1 <<< i.val
    if diValue &&& mask ≠ last_diValue &&& mask then
      let new_state : Int := (((diValue >>> i.val) &&& 1 : Nat) : Int)
      (Process_DI_Event net w i new_state (now i)).bind fun r =>
      (Poll_for_DI_Event_loop net diValue last_diValue now rest r.1).bind fun r2 =>
      .ok (r2.1, { channel := i, new_state := new_state, pushes := r.2 } :: r2.2)
    else Poll_for_DI_Event_loop net diValue last_diValue now rest w

/-- `Poll_for_DI_Event()`. The driver call `MX_RTU_Module_DI_Value_Get` is the argument
`read`: `none` when its result is not `MODULE_RW_ERR_OK`, else the word stored in
`diValue`. The result is the state afterwards and the calls of `Process_DI_Event` made. -/
def Poll_for_DI_Event {σ : Type} (net : Net σ) (w : World σ) (read : Option Nat)
    (now : Fin MAX_CHANNELS → Timestamp) : Res (World σ × List Signal) :=
  match read with
  | none => .ok (w, [])
  | some diValue =>
    if diValue = w.last_diValue then .ok (w, [])
    else
      (Poll_for_DI_Event_loop net diValue w.last_diValue now (List.finRange MAX_CHANNELS)
        w).bind fun r =>
      .ok ({ r.1 with last_diValue := diValue }, r.2)

/-- `Initialize_Network_Config_Values()`. -/
def Initialize_Network_Config_Values {σ : Type} (w : World σ) : World σ :=
  { w with
    myRefId := match w.StringMyRefId with
      | some s => atoi s
      | none => w.myRefId
    PortName := match w.PortName with
      | none => some (bytes "3080")
      | some p => some p }

/-! ## Statements about polling, pushes and formats -/

/-- The `w` low decimal digits of `v` as characters, most significant first: `v` written
with `w` digits, padded with zeros. -/
def decimal : Nat → Nat → List Nat
  | 0, _ => []
  | w + 1, v => decimal w (v / 10) ++ [48 + v % 10]

/-- A time stamp whose year has at most four digits and whose other fields have at most
two. -/
def Timestamp.in_range (t : Timestamp) : Prop :=
  t.year ≤ 9999 ∧ t.mon ≤ 99 ∧ t.day ≤ 99 ∧ t.hour ≤ 99 ∧ t.min ≤ 99 ∧ t.sec ≤ 99

/-- The channel `c` is mapped to a device whose event channel it is. -/
def event_wired {σ : Type} (w : World σ) (c : Fin MAX_CHANNELS) : Prop :=
  ∃ i d, w.Channel_Table c = some i ∧ w.DDD i = some d ∧ d.event_channel = c

/-- A tick of `Poll_for_DI_Event` reports an overheight event on the channel `c`: one of
its calls of `Process_DI_Event` is for `c` and made a push through
`Process_Actual_DI_Event`. -/
def reports_event (c : Fin MAX_CHANNELS) (tick : List Signal) : Bool :=
  tick.any (fun s => decide (s.channel = c) && s.pushes.any (fun p => !p.status_change))

/-- A clock that stands at `half_past_noon`. -/
def stopped_clock (_ : Fin MAX_CHANNELS) : Timestamp := half_past_noon

/-- Successive calls of `Format_One_Event_Message`, one per push, with the messages they
return. -/
def push_all {σ : Type} :
    World σ → List (DEVICE × Option Timestamp) → Res (List (Option (List Nat)) × World σ)
  | w, [] => .ok ([], w)
  | w, p :: rest =>
    (Format_One_Event_Message w p.1 p.2).bind fun r =>
    (push_all r.2 rest).bind fun r2 => .ok (r.1 :: r2.1, r2.2)

/-- The messages of successive pushes when the counter stands at `counter` before the
first: each push carries the decimal text of a counter one greater than the push before. -/
def spec_pushes (icd : Option (List Nat)) :
    Int → List (DEVICE × Option Timestamp) → List (Option (List Nat))
  | _, [] => []
  | counter, p :: rest =>
    some (bytes "<overheightUpdateMsg>" ++
      spec_header_text (fmt_d (counter + 1)) (text_of icd) ++
      spec_id_text p.1 ++ spec_overheight_text p.1 p.2 ++ bytes "</overheightUpdateMsg>") ::
    spec_pushes icd (counter + 1) rest

/-- The state `world_one_device` with the counter `myRefId` at the largest `int`. -/
def world_last_refId : World Unit := { world_one_device with myRefId := 2147483647 }

/-- Configuration A: the template gets a provider name and the channels 2 and 3; no
device is named. -/
def lines_generation_A : List Assignment :=
  [{ device := none, string_index := 0, value := bytes "TxDOT" },
   { device := none, string_index := 4, value := bytes "2" },
   { device := none, string_index := 5, value := bytes "3" }]

/-- Configuration B: the device `d1` with the channels 0 and 1 and nothing else. -/
def lines_generation_B : List Assignment :=
  [{ device := some (bytes "d1"), string_index := 4, value := bytes "0" },
   { device := some (bytes "d1"), string_index := 5, value := bytes "1" }]

/-- A configuration that names the device `d1` and sets no channel. -/
def lines_without_channels : List Assignment :=
  [{ device := some (bytes "d1"), string_index := 12, value := bytes "ID1" }]

/-! ## Statements about the status in messages -/

/-- The device `device_without_reading` in status FAILED. -/
def device_failed : DEVICE := { device_without_reading with status := .ST_FAILED }

/-- A second device, out of service, whose event file `ev2` holds a reading. -/
def device_out_of_service : DEVICE :=
  { name := some (bytes "d2"), providerName := some (bytes "TxDOT"),
    resourceType := some (bytes "ohvd"), centerId := some (bytes "AUS"),
    id := some (bytes "ID2"), triggerHeight := some (bytes "162"),
    event_channel := 2, fault_channel := 3, eventFileName := some (bytes "ev2"),
    status := .ST_OUTOFSERVICE }

/-- A state with the two devices `device_failed` (no reading) and `device_out_of_service`
(reading of 2024/01/02 12:30:45 in its event file). -/
def world_two_devices : World Unit :=
  { world_one_device with
    DDD := fun i =>
      if i = 0 then some device_failed
      else if i = 1 then some device_out_of_service
      else none
    Channel_Table := fun c =>
      if c = 0 ∨ c = 1 then some 0 else if c = 2 ∨ c = 3 then some 1 else none
    fs := fun p => if p = bytes "ev2" then some (bytes "2024/01/02 12:30:45\n") else none }

/-- The response of `world_two_devices` to a request with `refId` 5 and `icdVersion` 1.0. -/
def response_two_devices : List Nat :=
  bytes "<retrieveDataResp xmlns:xsi=\"http://www.w3.org/2001/XMLSchema-instance\"><refId>5</refId><icdVersion>1.0</icdVersion><data xsi:type=\"retrieveData\"><overheightData><id providerName=\"TxDOT\" resourceType=\"ohvd\" centerId=\"AUS\">ID1</id><overheight><overheightStatus><opStatus>Failed</opStatus></overheightStatus></overheight></overheightData><overheightData><id providerName=\"TxDOT\" resourceType=\"ohvd\" centerId=\"AUS\">ID2</id><overheight><overheightReadingData><readingTime>12:30:45</readingTime><readingDate>2024-01-02</readingDate><triggerHeight units=\"in\">162</triggerHeight></overheightReadingData><overheightStatus><opStatus>OutofService</opStatus></overheightStatus></overheight></overheightData></data></retrieveDataResp>"

/-- The push for the device `device_failed` without a reading, the counter at 1. -/
def push_failed : List Nat :=
  bytes "<overheightUpdateMsg><refId>1</refId><icdVersion>1.0</icdVersion><id providerName=\"TxDOT\" resourceType=\"ohvd\" centerId=\"AUS\">ID1</id><overheight><overheightStatus><opStatus>Failed</opStatus></overheightStatus></overheight></overheightUpdateMsg>"

/-- The `overheight` element of `device_failed` with the reading 2024/01/02 12:30:45. -/
def overheight_failed_with_reading : List Nat :=
  bytes "<overheight><overheightReadingData><readingTime>12:30:45</readingTime><readingDate>2024-01-02</readingDate><triggerHeight units=\"in\">162</triggerHeight></overheightReadingData><overheightStatus><opStatus>Failed</opStatus></overheightStatus></overheight>"

/-- A request with a comment and a text in front of its one child element. -/
def request_text_after_comment : List Nat :=
  bytes "<retrieveDataReq><!-- c -->text<refId>5</refId></retrieveDataReq>"

/-- The tree `parse_xml_element` builds for `request_text_after_comment`: the child made
for the comment receives the text as value and its key is never assigned. -/
def root_text_after_comment : xml_element :=
  .mk (.str (bytes "retrieveDataReq"))
    [.mk (.str (bytes "refId")) [] (some (bytes "5")),
     .mk .garbage [] (some (bytes "text"))] none

/-- A configuration that sets the provider name of the template and nothing else. -/
def lines_provider_only : List Assignment :=
  [{ device := none, string_index := 0, value := bytes "TxDOT" }]

/-! # Theorems -/

/-! ## Fuel of the parser -/

theorem length_dropWhile_le (p : Nat → Bool) (l : List Nat) :
    (l.dropWhile p).length ≤ l.length := by
  induction l with
  | nil => simp
  | cons a l ih =>
    simp only [List.dropWhile_cons]
    split
    · simp only [List.length_cons]; omega
    · simp

theorem find_end_of_comment_loop_length {l b : List Nat}
    (h : find_end_of_comment_loop l = some b) : b.length ≤ l.length := by
  induction l with
  | nil => simp [find_end_of_comment_loop] at h
  | cons a l ih =>
    rw [find_end_of_comment_loop] at h
    split at h
    · cases h; simp only [List.length_drop]; omega
    · have := ih h; simp only [List.length_cons]; omega

theorem find_end_of_declaration_loop_length {l b : List Nat}
    (h : find_end_of_declaration_loop l = some b) : b.length ≤ l.length := by
  induction l with
  | nil => simp [find_end_of_declaration_loop] at h
  | cons a l ih =>
    rw [find_end_of_declaration_loop] at h
    split at h
    · cases h; simp only [List.length_drop]; omega
    · have := ih h; simp only [List.length_cons]; omega

theorem find_end_of_tag_length {l b : List Nat} (h : find_end_of_tag l = some b) :
    b.length < l.length := by
  unfold find_end_of_tag at h
  have h1 := length_dropWhile_le istagchar l
  split at h
  · simp at h
  · rename_i c b1 heq
    rw [heq] at h1
    simp only [List.length_cons] at h1
    split at h
    · cases h
      have := length_dropWhile_le isspace b1
      omega
    · have h2 := length_dropWhile_le (fun x => x != 62) b1
      split at h
      · simp at h
      · rename_i c2 b2 heq2
        rw [heq2] at h2
        simp only [List.length_cons] at h2
        cases h
        have := length_dropWhile_le isspace b2
        omega

theorem get_value_length (l : List Nat) : (get_value l).1.length ≤ l.length := by
  simp only [get_value]
  have h1 := length_dropWhile_le isspace l
  have h2 := length_dropWhile_le (fun x => x != 60) (l.dropWhile isspace)
  split
  · simp
  · rename_i c rest heq
    rw [heq] at h2
    simp only [List.length_cons] at h2 ⊢
    omega

theorem skip_char_length (c : Nat) (l : List Nat) : (skip_char c l).length ≤ l.length := by
  cases l with
  | nil => simp [skip_char]
  | cons x r =>
    simp only [skip_char]
    split <;> simp

theorem parse_end_tag_length {l b : List Nat} (h : parse_end_tag l = some b) :
    b.length < l.length := by
  simp only [parse_end_tag] at h
  have h1 := skip_char_length 60 l
  have h2 := skip_char_length 47 (skip_char 60 l)
  split at h
  · simp at h
  · rename_i c r heq
    have h3 := find_end_of_tag_length h
    rw [heq] at h2
    omega

theorem is_XML_comment_length {l : List Nat} (h : is_XML_comment l = true) : 4 ≤ l.length := by
  unfold is_XML_comment at h
  split at h
  · simp
  · simp at h

theorem is_XML_declaration_length {l : List Nat} (h : is_XML_declaration l = true) :
    5 ≤ l.length := by
  unfold is_XML_declaration at h
  split at h
  · simp
  · simp at h

theorem find_end_of_comment_length {l b : List Nat} (hc : is_XML_comment l = true)
    (h : find_end_of_comment l = some b) : b.length < l.length := by
  have h1 := find_end_of_comment_loop_length h
  have h2 := is_XML_comment_length hc
  simp only [List.length_drop] at h1
  omega

theorem find_end_of_declaration_length {l b : List Nat} (hc : is_XML_declaration l = true)
    (h : find_end_of_declaration l = some b) : b.length < l.length := by
  have h1 := find_end_of_declaration_loop_length h
  have h2 := is_XML_declaration_length hc
  simp only [List.length_drop] at h1
  omega


theorem parse_length (fuel : Nat) :
    (∀ buf t b t', parse_xml_element fuel buf t = .ok (some b, t') →
      b.length ≤ (buf.dropWhile isspace).length ∧
      ((buf.dropWhile isspace).head? = some 60 → b.length < (buf.dropWhile isspace).length)) ∧
    (∀ buf t b t', parse_children fuel buf t = .ok (some b, t') → b.length ≤ buf.length) := by
  induction fuel with
  | zero =>
    constructor
    · intro buf t b t' h; simp [parse_xml_element] at h
    · intro buf t b t' h; simp [parse_children] at h
  | succ fuel ih =>
    obtain ⟨ihE, ihC⟩ := ih
    constructor
    · intro buf t b t' h
      rw [parse_xml_element] at h
      split at h
      · simp at h
      · rename_i c cs heq
        rw [heq]
        split at h
        · -- text
          rename_i hc
          simp only [Res.ok.injEq, Prod.mk.injEq, Option.some.injEq] at h
          have := get_value_length (c :: cs)
          rw [h.1] at this
          refine ⟨this, ?_⟩
          intro h60; simp at h60; exact absurd h60 hc
        · split at h
          · -- comment
            rename_i hcom
            split at h
            · simp at h
            · rename_i b0 hf
              have h1 := find_end_of_comment_length hcom hf
              have h2 := (ihE _ _ _ _ h).1
              have h3 := length_dropWhile_le isspace b0
              constructor
              · omega
              · intro _; omega
          · split at h
            · rename_i hdec
              split at h
              · simp at h
              · rename_i b0 hf
                have h1 := find_end_of_declaration_length hdec hf
                have h2 := (ihE _ _ _ _ h).1
                have h3 := length_dropWhile_le isspace b0
                constructor
                · omega
                · intro _; omega
            · split at h
              · simp at h
              · simp at h
              · rename_i d ds hf
                have h1 := find_end_of_tag_length hf
                simp only [List.length_cons] at h1 ⊢
                split at h
                · simp only [Res.ok.injEq, Prod.mk.injEq] at h
                  have h2 := parse_end_tag_length h.1
                  have h3 := get_value_length (d :: ds)
                  simp only [List.length_cons] at h3
                  constructor
                  · omega
                  · intro _; omega
                · dsimp only at h
                  split at h
                  · rename_i b1 tree2 hpc
                    simp only [Res.ok.injEq, Prod.mk.injEq] at h
                    have h2 := parse_end_tag_length h.1
                    have h3 := ihC _ _ _ _ hpc
                    simp only [List.length_cons] at h3
                    constructor
                    · omega
                    · intro _; omega
                  · rename_i r hne
                    exfalso
                    exact hne b t' h
    · intro buf t b t' h
      rw [parse_children] at h
      split at h
      · rename_i hcond
        split at h
        · rename_i e b0 child hpe
          have h1 := (ihE _ _ _ _ hpe).2
          have h2 := ihC _ _ _ _ h
          have h3 : List.dropWhile isspace buf = buf := by
            cases buf with
            | nil => rfl
            | cons x r =>
              simp only [List.head?_cons, Option.some.injEq] at hcond
              rw [hcond.1]
              simp [List.dropWhile_cons, isspace]
          rw [h3] at h1
          have := h1 hcond.1
          simp only [List.length_cons] at h2 this
          omega
        · simp at h
        · simp at h
        · simp at h
      · simp only [Res.ok.injEq, Prod.mk.injEq, Option.some.injEq] at h
        rw [← h.1]


theorem parse_fuel_enough (fuel : Nat) :
    (∀ buf t, 2 * buf.length + 1 ≤ fuel → parse_xml_element fuel buf t ≠ .nofuel) ∧
    (∀ buf t, 2 * buf.length + 2 ≤ fuel → parse_children fuel buf t ≠ .nofuel) := by
  induction fuel with
  | zero =>
    constructor
    · intro buf t h; omega
    · intro buf t h; omega
  | succ fuel ih =>
    obtain ⟨ihE, ihC⟩ := ih
    constructor
    · intro buf t hf
      rw [parse_xml_element]
      have hd := length_dropWhile_le isspace buf
      split
      · simp
      · rename_i c cs heq
        rw [heq] at hd
        simp only [List.length_cons] at hd
        split
        · simp
        · split
          · rename_i hcom
            split
            · simp
            · rename_i b0 hfe
              have h1 := find_end_of_comment_length hcom hfe
              simp only [List.length_cons] at h1
              exact ihE _ _ (by omega)
          · split
            · rename_i hdec
              split
              · simp
              · rename_i b0 hfe
                have h1 := find_end_of_declaration_length hdec hfe
                simp only [List.length_cons] at h1
                exact ihE _ _ (by omega)
            · split
              · simp
              · simp
              · rename_i d ds hfe
                have h1 := find_end_of_tag_length hfe
                simp only [List.length_cons] at h1
                split
                · simp
                · dsimp only
                  have h2 := ihC (d :: ds) (t.setKey (KeyField.str (tag_text cs)))
                    (by simp only [List.length_cons]; omega)
                  split
                  · simp
                  · rename_i r hne
                    exact h2
    · intro buf t hf
      rw [parse_children]
      split
      · rename_i hcond
        have h0 := ihE buf new_child (by omega)
        split
        · rename_i e b0 child hpe
          have h1 := (parse_length fuel).1 _ _ _ _ hpe
          have h3 : List.dropWhile isspace buf = buf := by
            cases buf with
            | nil => rfl
            | cons x r =>
              simp only [List.head?_cons, Option.some.injEq] at hcond
              rw [hcond.1]
              simp [List.dropWhile_cons, isspace]
          rw [h3] at h1
          have h4 := h1.2 hcond.1
          exact ihC _ _ (by omega)
        · simp
        · simp
        · rename_i hpe
          exact absurd hpe h0
      · simp

/-- The fuel `Parse_XML_Message` passes is never used up. -/
theorem parse_xml_element_fuel (buffer : List Nat) (t : xml_element) :
    parse_xml_element (parse_fuel buffer) buffer t ≠ .nofuel :=
  (parse_fuel_enough (parse_fuel buffer)).1 buffer t (le_refl _)

/-! ## Sequencing of outcomes -/

theorem Res.bind_ok {α β : Type} (a : α) (f : α → Res β) : (Res.ok a).bind f = f a := rfl

theorem Res.bind_fault {α β : Type} (f : α → Res β) : (Res.fault : Res α).bind f = .fault := rfl

theorem Res.bind_nofuel {α β : Type} (f : α → Res β) :
    (Res.nofuel : Res α).bind f = .nofuel := rfl

theorem Res.bind_eq_ok {α β : Type} {r : Res α} {f : α → Res β} {b : β}
    (h : r.bind f = .ok b) : ∃ a, r = .ok a ∧ f a = .ok b := by
  cases r with
  | ok a => exact ⟨a, rfl, h⟩
  | fault => simp [Res.bind] at h
  | nofuel => simp [Res.bind] at h

/-! ## The message buffer -/

theorem Res.bind_ne_nofuel {α β : Type} {r : Res α} {f : α → Res β}
    (hr : r ≠ .nofuel) (hf : ∀ a, f a ≠ .nofuel) : r.bind f ≠ .nofuel := by
  cases r with
  | ok a => exact hf a
  | fault => simp [Res.bind]
  | nofuel => exact absurd rfl hr

theorem pieces_text_nil : pieces_text [] = [] := rfl

theorem pieces_text_cons (s : Option (List Nat)) (l : List (Option (List Nat))) :
    pieces_text (s :: l) = s.getD [] ++ pieces_text l := by
  simp [pieces_text]

theorem pieces_text_append (l1 l2 : List (Option (List Nat))) :
    pieces_text (l1 ++ l2) = pieces_text l1 ++ pieces_text l2 := by
  simp [pieces_text]

theorem foldl_AppendBuffer_step (l t : List Nat) (b : BUFFER) (hb : b.b = some t)
    (hn : b.n = t.length) :
    l.foldl AppendBuffer_step b = { b with n := b.n + l.length, b := some (t ++ l) } := by
  induction l generalizing b t with
  | nil => cases b; simp_all
  | cons x l ih =>
    simp only [List.foldl_cons]
    have h1 : (AppendBuffer_step b x).b = some (t ++ [x]) := by
      simp [AppendBuffer_step, hb, hn]
    have h2 : (AppendBuffer_step b x).n = (t ++ [x]).length := by
      simp [AppendBuffer_step, hn]
    rw [ih (t ++ [x]) _ h1 h2]
    simp only [AppendBuffer_step, List.length_cons, List.append_assoc, List.singleton_append]
    congr 1
    omega

theorem AppendBuffer_grow (b : BUFFER) (c : Nat) (cs : List Nat)
    (hg : b.n + (c :: cs).length + 1 > b.length) :
    AppendBuffer b (some (c :: cs)) =
      if b.b = none then .fault
      else if b.n + (c :: cs).length + 1 > 2 * b.length then .fault
      else .ok ((c :: cs).foldl AppendBuffer_step { b with length := 2 * b.length }) := by
  simp only [AppendBuffer, hg, if_true]

theorem AppendBuffer_keep (b : BUFFER) (c : Nat) (cs : List Nat)
    (hg : ¬ b.n + (c :: cs).length + 1 > b.length) :
    AppendBuffer b (some (c :: cs)) =
      if b.b = none then .fault else .ok ((c :: cs).foldl AppendBuffer_step b) := by
  simp only [AppendBuffer, hg, if_false]

/-- What `AppendBuffer` does to a buffer that holds `t`, whenever it returns. -/
theorem AppendBuffer_holds {b b' : BUFFER} {t : List Nat} {s : Option (List Nat)}
    (h : AppendBuffer b s = .ok b') (hb : b.holds t) :
    b'.holds (t ++ s.getD []) ∧ b.length ≤ b'.length := by
  obtain ⟨hb1, hb2, hb3⟩ := hb
  match s with
  | none => simp only [AppendBuffer] at h; cases h; simpa using ⟨hb1, hb2, hb3⟩
  | some [] => simp only [AppendBuffer] at h; cases h; simpa using ⟨hb1, hb2, hb3⟩
  | some (c :: cs) =>
    by_cases hg : b.n + (c :: cs).length + 1 > b.length
    · rw [AppendBuffer_grow b c cs hg] at h
      simp only [hb1, reduceCtorEq, if_false] at h
      split at h
      · simp at h
      · rename_i hfit
        cases h
        rw [foldl_AppendBuffer_step (c :: cs) t { n := b.n, length := 2 * b.length, b := some t } rfl hb2]
        simp only [List.length_cons, gt_iff_lt, not_lt] at hfit hg ⊢
        refine ⟨⟨rfl, ?_, ?_⟩, ?_⟩
        · simp [hb2]
        · show b.n + (cs.length + 1) + 1 ≤ 2 * b.length; omega
        · show b.length ≤ 2 * b.length; omega
    · rw [AppendBuffer_keep b c cs hg] at h
      simp only [hb1, reduceCtorEq, if_false] at h
      cases h
      rw [foldl_AppendBuffer_step (c :: cs) t _ hb1 hb2]
      simp only [List.length_cons, gt_iff_lt, not_lt] at hg ⊢
      refine ⟨⟨rfl, ?_, ?_⟩, ?_⟩
      · simp [hb2]
      · show b.n + (cs.length + 1) + 1 ≤ b.length; omega
      · exact le_refl _

/-- `AppendBuffer` returns when the string is no longer than the capacity. -/
theorem AppendBuffer_total {b : BUFFER} {t : List Nat} (s : Option (List Nat))
    (hb : b.holds t) (hs : (s.getD []).length ≤ b.length) :
    ∃ b', AppendBuffer b s = .ok b' := by
  obtain ⟨hb1, hb2, hb3⟩ := hb
  match s with
  | none => exact ⟨_, rfl⟩
  | some [] => exact ⟨_, rfl⟩
  | some (c :: cs) =>
    simp only [Option.getD_some, List.length_cons] at hs
    by_cases hg : b.n + (c :: cs).length + 1 > b.length
    · rw [AppendBuffer_grow b c cs hg]
      simp only [hb1, reduceCtorEq, if_false]
      rw [if_neg]
      · exact ⟨_, rfl⟩
      · simp only [List.length_cons, gt_iff_lt, not_lt]; omega
    · rw [AppendBuffer_keep b c cs hg]
      simp only [hb1, reduceCtorEq, if_false]
      exact ⟨_, rfl⟩

/-- `AppendBuffer` faults when the string does not fit in twice the capacity. -/
theorem AppendBuffer_overflow {b : BUFFER} (s : List Nat)
    (h : 2 * b.length < b.n + s.length + 1) (hs : 0 < s.length) :
    AppendBuffer b (some s) = .fault := by
  match s with
  | [] => simp at hs
  | c :: cs =>
    have hg : b.n + (c :: cs).length + 1 > b.length := by omega
    rw [AppendBuffer_grow b c cs hg]
    split <;> rfl

theorem AppendAll_append (b : BUFFER) (l1 l2 : List (Option (List Nat))) :
    AppendAll b (l1 ++ l2) = (AppendAll b l1).bind (fun b1 => AppendAll b1 l2) := by
  induction l1 generalizing b with
  | nil => rfl
  | cons s l1 ih =>
    simp only [List.cons_append, AppendAll]
    cases AppendBuffer b s with
    | ok b1 => simp only [Res.bind]; exact ih b1
    | fault => rfl
    | nofuel => rfl

/-- What a run of `AppendBuffer` calls does to a buffer that holds `t`, whenever it
returns. -/
theorem AppendAll_holds {l : List (Option (List Nat))} {b b' : BUFFER} {t : List Nat}
    (h : AppendAll b l = .ok b') (hb : b.holds t) :
    b'.holds (t ++ pieces_text l) ∧ b.length ≤ b'.length := by
  induction l generalizing b t with
  | nil =>
    simp only [AppendAll] at h
    cases h
    simpa [pieces_text_nil] using hb
  | cons s l ih =>
    simp only [AppendAll] at h
    obtain ⟨b1, h1, h2⟩ := Res.bind_eq_ok h
    have r1 := AppendBuffer_holds h1 hb
    have r2 := ih h2 r1.1
    rw [pieces_text_cons, ← List.append_assoc]
    exact ⟨r2.1, le_trans r1.2 r2.2⟩

/-- A run of `AppendBuffer` calls returns when no string is longer than the capacity. -/
theorem AppendAll_total {l : List (Option (List Nat))} {b : BUFFER} {t : List Nat}
    (hb : b.holds t) (hl : ∀ s ∈ l, (s.getD []).length ≤ b.length) :
    ∃ b', AppendAll b l = .ok b' := by
  induction l generalizing b t with
  | nil => exact ⟨b, rfl⟩
  | cons s l ih =>
    obtain ⟨b1, h1⟩ := AppendBuffer_total s hb (hl s (List.mem_cons_self _ _))
    have r1 := AppendBuffer_holds h1 hb
    obtain ⟨b2, h2⟩ := ih r1.1 (fun s' hs' =>
      le_trans (hl s' (List.mem_cons_of_mem _ hs')) r1.2)
    exact ⟨b2, by simp only [AppendAll, h1, Res.bind_ok, h2]⟩

theorem AppendBuffer_ne_nofuel (b : BUFFER) (s : Option (List Nat)) :
    AppendBuffer b s ≠ .nofuel := by
  match s with
  | none => simp [AppendBuffer]
  | some [] => simp [AppendBuffer]
  | some (c :: cs) =>
    by_cases hg : b.n + (c :: cs).length + 1 > b.length
    · rw [AppendBuffer_grow b c cs hg]
      split
      · simp
      · split <;> simp
    · rw [AppendBuffer_keep b c cs hg]
      split <;> simp

theorem AppendAll_ne_nofuel (l : List (Option (List Nat))) (b : BUFFER) :
    AppendAll b l ≠ .nofuel := by
  induction l generalizing b with
  | nil => simp [AppendAll]
  | cons s l ih =>
    simp only [AppendAll]
    exact Res.bind_ne_nofuel (AppendBuffer_ne_nofuel b s) (fun b1 => ih b1)

theorem ClearBuffer_ne_nofuel (b : BUFFER) : ClearBuffer b ≠ .nofuel := by
  unfold ClearBuffer
  dsimp only
  split <;> simp

/-- After `ClearBuffer` the buffer holds the empty string in at least 1 byte. -/
theorem ClearBuffer_holds {b b' : BUFFER} (h : ClearBuffer b = .ok b') :
    b'.holds [] ∧ (b.length = 0 → b'.length = 1024) ∧ (0 < b.length → b'.length = b.length) := by
  unfold ClearBuffer at h
  dsimp only at h
  split at h
  · simp at h
  · cases h
    refine ⟨⟨rfl, rfl, ?_⟩, ?_, ?_⟩
    · show 0 + 1 ≤ (if b.length ≤ 0 then _ else b).length
      split
      · show 1 ≤ 1024; omega
      · omega
    · intro h0
      show (if b.length ≤ 0 then _ else b).length = 1024
      rw [if_pos (by omega)]
    · intro h0
      show (if b.length ≤ 0 then _ else b).length = b.length
      rw [if_neg (by omega)]

/-! ## Building the response -/

theorem Res.bind_assoc {α β γ : Type} (r : Res α) (f : α → Res β) (g : β → Res γ) :
    (r.bind f).bind g = r.bind (fun a => (f a).bind g) := by
  cases r <;> rfl

theorem Format_XML_Response_loop_eq (fs : Files) (DDD : Fin MAX_DETECTORS → Option DEVICE)
    (l : List (Fin MAX_DETECTORS)) (b : BUFFER) :
    Format_XML_Response_loop fs DDD l b =
      AppendAll b ((l.filterMap DDD).flatMap (overheightData_block fs)) := by
  induction l generalizing b with
  | nil => rfl
  | cons i l ih =>
    simp only [Format_XML_Response_loop]
    cases hd : DDD i with
    | none => simp only [List.filterMap_cons, hd]; exact ih b
    | some d =>
      simp only [List.filterMap_cons, hd, List.flatMap_cons, AppendAll_append]
      congr 1
      funext b1
      exact ih b1

/-- `Format_XML_Response` as one run of `AppendBuffer` calls. -/
theorem Format_XML_Response_eq {σ : Type} (w : World σ) (refID icd : Option (List Nat)) :
    Format_XML_Response w refID icd =
      (mystrcasecmp_ptr w.icdVersion icd).bind fun same =>
      (ClearBuffer w.b).bind fun b0 =>
      (AppendAll b0 (response_pieces w.fs w.DDD refID
        (if same = true then w.icdVersion else icd))).bind fun b3 =>
      .ok (FinishBuffer b3,
        { w with icdVersion := if same = true then w.icdVersion else icd, b := b3 }) := by
  unfold Format_XML_Response
  congr 1
  funext same
  cases same with
  | true =>
    simp only [Bool.not_true, Bool.false_eq_true, if_false, if_true, response_pieces,
      registered, AppendAll_append, Format_XML_Response_loop_eq, Res.bind_assoc]
  | false =>
    simp only [Bool.not_false, if_true, Bool.false_eq_true, if_false, response_pieces,
      registered, AppendAll_append, Format_XML_Response_loop_eq, Res.bind_assoc]

theorem FinishBuffer_holds {b : BUFFER} {t : List Nat} (h : b.holds t) :
    FinishBuffer b = some t := by
  obtain ⟨h1, h2, _⟩ := h
  simp [FinishBuffer, h1, h2]

theorem mystrcasecmp_ptr_eq_ok {s t : Option (List Nat)} {r : Bool}
    (h : mystrcasecmp_ptr s t = .ok r) :
    ∃ s' t', s = some s' ∧ t = some t' ∧ r = mystrcasecmp s' t' := by
  unfold mystrcasecmp_ptr at h
  split at h
  · cases h; exact ⟨_, _, rfl, rfl, rfl⟩
  · simp at h

/-- What `Format_XML_Response` returns, whenever it returns: both versions are strings, the
agent keeps its own when they are equal ignoring case and takes the peer's otherwise, and
the message is the text of the `AppendBuffer` calls made. -/
theorem Format_XML_Response_returns {σ : Type} {w w' : World σ}
    {refID icd m : Option (List Nat)} (h : Format_XML_Response w refID icd = .ok (m, w')) :
    ∃ cur v, w.icdVersion = some cur ∧ icd = some v ∧
      w'.icdVersion = some (if mystrcasecmp cur v = true then cur else v) ∧
      m = some (pieces_text (response_pieces w.fs w.DDD refID w'.icdVersion)) ∧
      w'.DDD = w.DDD ∧ w'.fs = w.fs ∧ w'.myRefId = w.myRefId ∧
      w'.ClientConnection = w.ClientConnection ∧ w'.env = w.env ∧
      w'.b.holds (pieces_text (response_pieces w.fs w.DDD refID w'.icdVersion)) := by
  rw [Format_XML_Response_eq] at h
  obtain ⟨same, hs, h⟩ := Res.bind_eq_ok h
  obtain ⟨b0, h0, h⟩ := Res.bind_eq_ok h
  obtain ⟨b3, h3, h⟩ := Res.bind_eq_ok h
  obtain ⟨cur, v, hcur, hv, hsame⟩ := mystrcasecmp_ptr_eq_ok hs
  simp only [Res.ok.injEq, Prod.mk.injEq] at h
  obtain ⟨hm, hw⟩ := h
  have hh := (AppendAll_holds h3 (ClearBuffer_holds h0).1).1
  simp only [List.nil_append] at hh
  have hicd : (if same = true then w.icdVersion else icd) =
      some (if mystrcasecmp cur v = true then cur else v) := by
    rw [hsame, hcur, hv]
    split <;> rfl
  subst hw
  refine ⟨cur, v, hcur, hv, hicd, ?_, rfl, rfl, rfl, rfl, rfl, ?_⟩
  · rw [← hm]
    exact FinishBuffer_holds hh
  · exact hh

/-! ## The text of the messages -/

theorem pieces_text_flatMap {α : Type} (l : List α) (f : α → List (Option (List Nat))) :
    pieces_text (l.flatMap f) = (l.map (fun a => pieces_text (f a))).flatten := by
  induction l with
  | nil => rfl
  | cons a l ih =>
    simp only [List.flatMap_cons, pieces_text_append, ih, List.map_cons, List.flatten_cons]

theorem pieces_text_AppendHeader (refId icd : Option (List Nat)) :
    pieces_text (AppendHeader refId icd) = spec_header_text (text_of refId) (text_of icd) := by
  simp only [AppendHeader, pieces_text_cons, pieces_text_nil, spec_header_text, text_of,
    Option.getD_some, List.append_nil, List.append_assoc]

theorem pieces_text_AppendId (d : DEVICE) : pieces_text (AppendId d) = spec_id_text d := by
  simp only [AppendId, QAppendBuffer, pieces_text_append, pieces_text_cons, pieces_text_nil,
    spec_id_text, text_of, Option.getD_some, List.append_nil, List.append_assoc]

/-- `Format_Device_Status` prints each status under its name: `Active`, `Error`, `Failed`,
`OutofService`. -/
theorem Format_Device_Status_eq (s : DeviceStatus) :
    Format_Device_Status s = opStatus_text s := by
  cases s <;> rfl

theorem pieces_text_AppendOverheight (d : DEVICE) (timedate : Option Timestamp) :
    pieces_text (AppendOverheight d timedate) = spec_overheight_text d timedate := by
  cases timedate with
  | none =>
    simp only [AppendOverheight, pieces_text_append, pieces_text_cons, pieces_text_nil,
      spec_overheight_text, spec_status_text, Option.getD_some, List.append_nil,
      List.append_assoc, List.nil_append, Format_Device_Status_eq]
  | some t =>
    simp only [AppendOverheight, QAppendBuffer, pieces_text_append, pieces_text_cons,
      pieces_text_nil, spec_overheight_text, spec_status_text, spec_reading_text, text_of,
      Option.getD_some, List.append_nil, List.append_assoc, List.nil_append,
      Format_Device_Status_eq]

theorem pieces_text_overheightData_block (fs : Files) (d : DEVICE) :
    pieces_text (overheightData_block fs d) = spec_block_text fs d := by
  simp only [overheightData_block, pieces_text_append, pieces_text_cons, pieces_text_nil,
    pieces_text_AppendId, pieces_text_AppendOverheight, spec_block_text, Option.getD_some,
    List.append_nil, List.append_assoc]

/-- The text of a response, written out. -/
theorem pieces_text_response_pieces (fs : Files) (DDD : Fin MAX_DETECTORS → Option DEVICE)
    (refID icd : Option (List Nat)) :
    pieces_text (response_pieces fs DDD refID icd) =
      spec_response_open ++ spec_header_text (text_of refID) (text_of icd) ++
      bytes "<data xsi:type=\"retrieveData\">" ++
      ((registered DDD).map (spec_block_text fs)).flatten ++
      bytes "</data>" ++ bytes "</retrieveDataResp>" := by
  simp only [response_pieces, pieces_text_append, pieces_text_cons, pieces_text_nil,
    pieces_text_AppendHeader, pieces_text_flatMap, pieces_text_overheightData_block,
    spec_response_open, Option.getD_some, List.append_nil, List.append_assoc]

/-- The text of a push, written out. -/
theorem pieces_text_event_pieces (d : DEVICE) (timedate : Option Timestamp)
    (MyRefId icd : Option (List Nat)) :
    pieces_text (event_pieces d timedate MyRefId icd) =
      bytes "<overheightUpdateMsg>" ++ spec_header_text (text_of MyRefId) (text_of icd) ++
      spec_id_text d ++ spec_overheight_text d timedate ++ bytes "</overheightUpdateMsg>" := by
  simp only [event_pieces, pieces_text_append, pieces_text_cons, pieces_text_nil,
    pieces_text_AppendHeader, pieces_text_AppendId, pieces_text_AppendOverheight,
    Option.getD_some, List.append_nil, List.append_assoc]

/-- What `Format_One_Event_Message` returns, whenever it returns. -/
theorem Format_One_Event_Message_returns {σ : Type} {w w' : World σ} {d : DEVICE}
    {timedate : Option Timestamp} {m : Option (List Nat)}
    (h : Format_One_Event_Message w d timedate = .ok (m, w')) :
    w'.myRefId = wrap_int (w.myRefId + 1) ∧ w'.icdVersion = w.icdVersion ∧
    m = some (pieces_text (event_pieces d timedate
      (some (snprintf 16 (fmt_d (wrap_int (w.myRefId + 1))))) w.icdVersion)) ∧
    w'.DDD = w.DDD ∧ w'.fs = w.fs ∧ w'.ClientConnection = w.ClientConnection ∧
    w'.env = w.env := by
  unfold Format_One_Event_Message at h
  dsimp only at h
  obtain ⟨b0, h0, h⟩ := Res.bind_eq_ok h
  obtain ⟨b1, h1, h⟩ := Res.bind_eq_ok h
  simp only [Res.ok.injEq, Prod.mk.injEq] at h
  obtain ⟨hm, hw⟩ := h
  have hh := (AppendAll_holds h1 (ClearBuffer_holds h0).1).1
  simp only [List.nil_append] at hh
  subst hw
  refine ⟨rfl, rfl, ?_, rfl, rfl, rfl, rfl⟩
  rw [← hm]
  exact FinishBuffer_holds hh

/-! ## Requests and responses: claims C1 to C4 -/

theorem Res.message_eq_some {α : Type} {r : Res (Option (List Nat) × α)} {m : List Nat}
    (h : r.message = some m) : ∃ a, r = .ok (some m, a) := by
  cases r with
  | ok p =>
    obtain ⟨m', a⟩ := p
    simp only [Res.message] at h
    exact ⟨a, by rw [h]⟩
  | fault => simp [Res.message] at h
  | nofuel => simp [Res.message] at h

set_option maxRecDepth 100000 in
/-- C1 (failing input): the request `request_without_icdVersion` parses into a tree whose
root is `retrieveDataReq` and whose `overheightData` child is `TRUE`, so a response is due,
but `Parse_XML_Message` returns none: `Format_XML_Response` is handed `NULL` as the peer's
`icdVersion` and `mystrcasecmp` dereferences it. -/
theorem Parse_XML_Message_without_icdVersion_faults {σ : Type} (w : World σ) :
    parse_xml_element (parse_fuel request_without_icdVersion) request_without_icdVersion
        new_root = .ok (some [], root_without_icdVersion) ∧
      dispatch_due root_without_icdVersion ∧
      Parse_XML_Message w request_without_icdVersion = .fault := by
  have hp : parse_xml_element (parse_fuel request_without_icdVersion)
      request_without_icdVersion new_root = .ok (some [], root_without_icdVersion) := by rfl
  refine ⟨hp, ⟨bytes "retrieveDataReq", bytes "TRUE", rfl, by rfl, by rfl, by rfl⟩, ?_⟩
  have h1 : search_xml_value root_without_icdVersion.xml_list (bytes "overheightData") =
      .ok (some (bytes "TRUE")) := by rfl
  have h2 : search_xml_value root_without_icdVersion.xml_list (bytes "refId") =
      .ok (some (bytes "5")) := by rfl
  have h3 : search_xml_value root_without_icdVersion.xml_list (bytes "icdVersion") =
      .ok none := by rfl
  have h4 : mystrcasecmp (bytes "retrieveDataReq") (bytes "retrieveDataReq") = true := by rfl
  have h5 : mystrcasecmp (bytes "TRUE") (bytes "true") = true := by rfl
  have h6 : Format_XML_Response w (some (bytes "5")) none = .fault := by
    rw [Format_XML_Response_eq]
    cases w.icdVersion <;> rfl
  have hact : Parse_XML_Message_act w root_without_icdVersion = .fault := by
    unfold Parse_XML_Message_act
    have hk : root_without_icdVersion.key = .str (bytes "retrieveDataReq") := rfl
    simp only [hk, h4, if_true, h1, Res.bind_ok, h5, h2, h3, h6]
  unfold Parse_XML_Message
  rw [hp]
  simp only [Res.bind_ok, hact, Res.bind_fault]

/-! ## Requests: when a response is produced -/

/-- Whenever `Format_XML_Response` returns, it returns a message. -/
theorem Format_XML_Response_isSome {σ : Type} {w w' : World σ} {refID icd m : Option (List Nat)}
    (h : Format_XML_Response w refID icd = .ok (m, w')) : m.isSome = true := by
  obtain ⟨_, _, _, _, _, hm, _⟩ := Format_XML_Response_returns h
  rw [hm]; rfl

theorem mystrcasecmp_ptr_ne_nofuel (s t : Option (List Nat)) :
    mystrcasecmp_ptr s t ≠ .nofuel := by
  unfold mystrcasecmp_ptr
  split <;> simp

theorem Format_XML_Response_ne_nofuel {σ : Type} (w : World σ) (refID icd : Option (List Nat)) :
    Format_XML_Response w refID icd ≠ .nofuel := by
  rw [Format_XML_Response_eq]
  refine Res.bind_ne_nofuel (mystrcasecmp_ptr_ne_nofuel _ _) (fun same => ?_)
  refine Res.bind_ne_nofuel (ClearBuffer_ne_nofuel _) (fun b0 => ?_)
  refine Res.bind_ne_nofuel (AppendAll_ne_nofuel _ _) (fun b3 => ?_)
  simp

theorem search_xml_value_ne_nofuel (l : List xml_element) (key : List Nat) :
    search_xml_value l key ≠ .nofuel := by
  induction l with
  | nil => simp [search_xml_value]
  | cons p rest ih =>
    simp only [search_xml_value]
    split
    · split
      · simp
      · exact ih
    · simp

theorem Parse_XML_Message_act_ne_nofuel {σ : Type} (w : World σ) (root : xml_element) :
    Parse_XML_Message_act w root ≠ .nofuel := by
  unfold Parse_XML_Message_act
  split
  · simp
  · simp
  · split
    · refine Res.bind_ne_nofuel (search_xml_value_ne_nofuel _ _) (fun v => ?_)
      split
      · simp
      · split
        · refine Res.bind_ne_nofuel (search_xml_value_ne_nofuel _ _) (fun refID => ?_)
          refine Res.bind_ne_nofuel (search_xml_value_ne_nofuel _ _) (fun icd => ?_)
          exact Format_XML_Response_ne_nofuel _ _ _
        · simp
    · simp

/-- Whenever `Parse_XML_Message` returns, it returns a message exactly when the tree it
parsed satisfies the dispatch condition. -/
theorem Parse_XML_Message_returns {σ : Type} (w w' : World σ) (buffer : List Nat)
    (m : Option (List Nat)) (h : Parse_XML_Message w buffer = .ok (m, w')) :
    ∃ rest root, parse_xml_element (parse_fuel buffer) buffer new_root = .ok (rest, root) ∧
      (m.isSome = true ↔ dispatch_due root) := by
  unfold Parse_XML_Message at h
  obtain ⟨⟨rest, root⟩, hp, h⟩ := Res.bind_eq_ok h
  obtain ⟨r, hact, h⟩ := Res.bind_eq_ok h
  refine ⟨rest, root, hp, ?_⟩
  split at h
  · cases h
    dsimp only at hact
    unfold Parse_XML_Message_act at hact
    split at hact
    · simp at hact
    · rename_i hk
      simp only [Res.ok.injEq, Prod.mk.injEq] at hact
      rw [← hact.1]
      simp only [Option.isSome_none, Bool.false_eq_true, false_iff]
      rintro ⟨k, v, h1, _⟩
      rw [hk] at h1; cases h1
    · rename_i k hk
      split at hact
      · rename_i hreq
        obtain ⟨v, hv, hact⟩ := Res.bind_eq_ok hact
        split at hact
        · simp only [Res.ok.injEq, Prod.mk.injEq] at hact
          rw [← hact.1]
          simp only [Option.isSome_none, Bool.false_eq_true, false_iff]
          rintro ⟨k', v', _, _, h3, _⟩
          rw [hv] at h3; cases h3
        · rename_i v0
          split at hact
          · rename_i htrue
            obtain ⟨refID, _, hact⟩ := Res.bind_eq_ok hact
            obtain ⟨icd, _, hact⟩ := Res.bind_eq_ok hact
            have := Format_XML_Response_isSome hact
            simp only [this, true_iff]
            exact ⟨k, v0, hk, hreq, hv, htrue⟩
          · rename_i hnt
            simp only [Res.ok.injEq, Prod.mk.injEq] at hact
            rw [← hact.1]
            simp only [Option.isSome_none, Bool.false_eq_true, false_iff]
            rintro ⟨k', v', _, _, h3, h4⟩
            rw [hv] at h3; cases h3
            exact hnt h4
      · rename_i hreq
        simp only [Res.ok.injEq, Prod.mk.injEq] at hact
        rw [← hact.1]
        simp only [Option.isSome_none, Bool.false_eq_true, false_iff]
        rintro ⟨k', v', h1, h2, _⟩
        rw [hk] at h1; cases h1
        exact hreq h2
  · simp at h

/-- `Parse_XML_Message` never runs out of fuel: its outcome is that of the C function. -/
theorem Parse_XML_Message_fuel {σ : Type} (w : World σ) (buffer : List Nat) :
    Parse_XML_Message w buffer ≠ .nofuel := by
  unfold Parse_XML_Message
  refine Res.bind_ne_nofuel (parse_xml_element_fuel buffer new_root) (fun r => ?_)
  refine Res.bind_ne_nofuel (Parse_XML_Message_act_ne_nofuel w r.2) (fun m => ?_)
  split <;> simp

theorem Parse_XML_Message_act_message {σ : Type} {w : World σ} {root : xml_element}
    {m : List Nat} (h : (Parse_XML_Message_act w root).message = some m) :
    ∃ refID icd w', search_xml_value root.xml_list (bytes "refId") = .ok refID ∧
      search_xml_value root.xml_list (bytes "icdVersion") = .ok icd ∧
      Format_XML_Response w refID icd = .ok (some m, w') := by
  obtain ⟨w', h⟩ := Res.message_eq_some h
  unfold Parse_XML_Message_act at h
  split at h
  · simp at h
  · simp at h
  · split at h
    · obtain ⟨v, _, h⟩ := Res.bind_eq_ok h
      split at h
      · simp at h
      · split at h
        · obtain ⟨refID, h1, h⟩ := Res.bind_eq_ok h
          obtain ⟨icd, h2, h⟩ := Res.bind_eq_ok h
          exact ⟨refID, icd, w', h1, h2, h⟩
        · simp at h
    · simp at h

theorem Parse_XML_Message_message {σ : Type} {w : World σ} {buffer : List Nat}
    {rest : Option (List Nat)} {root : xml_element} {m : List Nat}
    (hp : parse_xml_element (parse_fuel buffer) buffer new_root = .ok (rest, root))
    (h : (Parse_XML_Message w buffer).message = some m) :
    (Parse_XML_Message_act w root).message = some m := by
  obtain ⟨w', h⟩ := Res.message_eq_some h
  unfold Parse_XML_Message at h
  rw [hp] at h
  simp only [Res.bind_ok] at h
  obtain ⟨a, ha, h⟩ := Res.bind_eq_ok h
  split at h
  · cases h
    rw [ha]
    rfl
  · simp at h

/-- C2: whenever `Parse_XML_Message` answers a request, the response opens with the header
`<refId>r</refId>` where `r` is the leaf text found for `refId` among the children of the
request's root, unchanged. -/
theorem Format_XML_Response_echoes_refId {σ : Type} (w : World σ) (buffer : List Nat)
    (rest : Option (List Nat)) (root : xml_element) (r m : List Nat)
    (hp : parse_xml_element (parse_fuel buffer) buffer new_root = .ok (rest, root))
    (hr : search_xml_value root.xml_list (bytes "refId") = .ok (some r))
    (h : (Parse_XML_Message w buffer).message = some m) :
    ∃ tail, m = spec_response_open ++ (bytes "<refId>" ++ r ++ bytes "</refId>") ++ tail := by
  obtain ⟨refID, icd, w', h1, _, hf⟩ :=
    Parse_XML_Message_act_message (Parse_XML_Message_message hp h)
  rw [hr] at h1
  cases h1
  obtain ⟨_, _, _, _, _, hm, _⟩ := Format_XML_Response_returns hf
  simp only [Option.some.injEq] at hm
  rw [hm, pieces_text_response_pieces]
  simp only [spec_header_text, text_of, Option.getD_some, List.append_assoc]
  exact ⟨_, rfl⟩

set_option maxRecDepth 100000 in
/-- C2 at the request of scenario B: `refId` 5 comes back as `<refId>5</refId>`. -/
theorem Format_XML_Response_echoes_refId_witness :
    parse_xml_element (parse_fuel request_scenario_B) request_scenario_B new_root =
        .ok (some [], root_scenario_B) ∧
      (Parse_XML_Message world_one_device request_scenario_B).message =
        some response_one_device ∧
      ∃ tail, response_one_device =
        spec_response_open ++ (bytes "<refId>" ++ bytes "5" ++ bytes "</refId>") ++ tail :=
  ⟨by rfl, by rfl,
    Format_XML_Response_echoes_refId world_one_device request_scenario_B (some [])
      root_scenario_B (bytes "5") response_one_device (by rfl) (by rfl) (by rfl)⟩

set_option maxRecDepth 100000 in
/-- C3 (counterexample): the one registered device has no persisted reading, and the
response does not contain a reading block for it, empty or not: the text
`<overheightReadingData>` does not occur in the response. -/
theorem Format_XML_Response_no_empty_reading_block :
    registered world_one_device.DDD = [device_without_reading] ∧
      ReadEventFromFile world_one_device.fs device_without_reading = none ∧
      (Format_XML_Response world_one_device (some (bytes "5")) (some (bytes "1.0"))).message =
        some response_one_device ∧
      ¬ (bytes "<overheightReadingData" <:+: response_one_device) :=
  ⟨by rfl, by rfl, by rfl, by decide⟩

/-- C3 (amended): every response that `Format_XML_Response` builds consists of the opening
tag, the header, and then exactly one `overheightData` block per registered device, in slot
order, followed by the closing tags. Each block holds the device's identity and an
`overheight` element that ends with the status element, in which `opStatus` is the name of
the device's current status (Active, Error, Failed or OutofService); the status element is
preceded by the persisted reading when `ReadEventFromFile` finds one, and without a reading
the `overheight` element holds the status element only. -/
theorem Format_XML_Response_blocks {σ : Type} (w : World σ) (refID icd : Option (List Nat))
    (m : List Nat) (h : (Format_XML_Response w refID icd).message = some m) :
    (∃ v, m = spec_response_open ++ spec_header_text (text_of refID) v ++
      bytes "<data xsi:type=\"retrieveData\">" ++
      ((registered w.DDD).map (spec_block_text w.fs)).flatten ++
      bytes "</data>" ++ bytes "</retrieveDataResp>") ∧
    ∀ d, spec_block_text w.fs d =
      bytes "<overheightData>" ++ spec_id_text d ++ bytes "<overheight>" ++
      (match ReadEventFromFile w.fs d with
        | some t => spec_reading_text d t
        | none => []) ++
      bytes "<overheightStatus><opStatus>" ++ opStatus_text d.status ++
      bytes "</opStatus></overheightStatus></overheight></overheightData>" := by
  obtain ⟨w', hf⟩ := Res.message_eq_some h
  obtain ⟨cur, v, _, _, hicd, hm, _⟩ := Format_XML_Response_returns hf
  simp only [Option.some.injEq] at hm
  rw [hm, pieces_text_response_pieces]
  refine ⟨⟨_, rfl⟩, fun d => ?_⟩
  unfold spec_block_text
  cases ReadEventFromFile w.fs d with
  | none =>
    simp only [spec_overheight_text, spec_status_text, List.append_assoc, List.append_nil]
    rfl
  | some t =>
    simp only [spec_overheight_text, spec_status_text, List.append_assoc]
    rfl

theorem or_byte (x c : Nat) (hx : x < 2 ^ 24) :
    (x * 256 % 2 ^ 32) ||| (c &&& 0xFF) = x * 256 + c % 256 := by
  have h1 : x * 256 % 2 ^ 32 = 2 ^ 8 * x := by omega
  have h2 : c &&& 0xFF = c % 2 ^ 8 := Nat.and_pow_two_sub_one_eq_mod c 8
  rw [h1, h2, ← Nat.mul_add_lt_is_or (Nat.mod_lt _ (by norm_num))]
  omega

/-- The byte-by-byte accumulation of `Read_XML_Message` over the length word that
`Send_Request_Message` sends yields the length again. -/
theorem read_word_length_word (n : Nat) (hn : n < 2 ^ 32) (fd : Int) (rest : List Nat) :
    read_word wire fd 4 (length_word n ++ rest) 0 = (some n, rest) := by
  simp only [length_word, read_word, wire, List.cons_append, List.nil_append, List.take_succ_cons,
    List.take_zero, List.drop_succ_cons, List.drop_zero, Nat.shiftRight_zero, Nat.and_assoc,
    Nat.and_self]
  have e0 : (0 * 256 % 2 ^ 32) ||| ((n >>> 24) &&& 0xFF) = n / 2 ^ 24 := by
    rw [or_byte 0 _ (by norm_num), Nat.shiftRight_eq_div_pow]; omega
  have e1 : (n / 2 ^ 24 * 256 % 2 ^ 32) ||| ((n >>> 16) &&& 0xFF) = n / 2 ^ 16 := by
    rw [or_byte _ _ (by omega), Nat.shiftRight_eq_div_pow]; omega
  have e2 : (n / 2 ^ 16 * 256 % 2 ^ 32) ||| ((n >>> 8) &&& 0xFF) = n / 2 ^ 8 := by
    rw [or_byte _ _ (by omega), Nat.shiftRight_eq_div_pow]; omega
  have e3 : (n / 2 ^ 8 * 256 % 2 ^ 32) ||| (n &&& 0xFF) = n := by
    rw [or_byte _ _ (by omega)]; omega
  rw [e0, e1, e2, e3]

theorem read_word_zero_word (fd : Int) (rest : List Nat) :
    read_word wire fd 4 ([0, 0, 0, 0] ++ rest) 0 = (some 0, rest) := by
  rfl


theorem length_word_length (n : Nat) : (length_word n).length = 4 := rfl

/-- C5 (counterexample): the frame `Send_Request_Message` emits for the empty payload is
rejected by `Read_XML_Message`: it returns no payload. -/
theorem framing_round_trip_fails_on_empty_payload :
    Send_Request_Message wire [] 5 [] = (0, [0, 0, 0, 0, 0, 0, 0, 0]) ∧
      (Read_XML_Message wire (world_connected [0, 0, 0, 0, 0, 0, 0, 0])).1 = none ∧
      (Read_XML_Message wire (world_connected [0, 0, 0, 0, 0, 0, 0, 0])).2.ClientConnection =
        INVALID_SOCKET :=
  ⟨by rfl, by rfl, by rfl⟩

/-- C5 (amended): for every payload of 1 to 100,000 bytes, `Send_Request_Message` emits the
length word, four zero bytes and the payload, and `Read_XML_Message` fed with that stream
returns exactly the payload, leaves the session open and has read the whole frame. -/
theorem framing_round_trip (w : World (List Nat)) (payload : List Nat)
    (h1 : 1 ≤ payload.length) (h2 : payload.length ≤ MAX_MESSAGE_LENGTH) :
    Send_Request_Message wire [] w.ClientConnection payload =
        (0, length_word payload.length ++ [0, 0, 0, 0] ++ payload) ∧
      Read_XML_Message wire
          { w with env := length_word payload.length ++ [0, 0, 0, 0] ++ payload } =
        (some payload, { w with env := [], mallocs := (payload.length + 1) :: w.mallocs }) := by
  constructor
  · have e : (([] : List Nat) ++ length_word payload.length).length = 4 := rfl
    simp only [Send_Request_Message, wire, List.nil_append, List.length_cons, List.length_nil]
    simp only [length_word, List.length_cons, List.length_nil, Nat.reduceAdd, Nat.cast_ofNat,
      lt_self_iff_false, ne_eq, not_true_eq_false, or_self, if_false, Int.natCast_nonneg,
      Int.not_lt.mpr, List.cons_append, List.nil_append, List.append_assoc]
    norm_num
  · have hn : payload.length < 2 ^ 32 := by
      have : MAX_MESSAGE_LENGTH = 100000 := rfl
      omega
    have hpos : ¬ to_int payload.length ≤ 0 := by
      unfold to_int
      have : MAX_MESSAGE_LENGTH = 100000 := rfl
      split <;> omega
    have hmax : ¬ to_int payload.length > MAX_MESSAGE_LENGTH := by
      unfold to_int
      have : MAX_MESSAGE_LENGTH = 100000 := rfl
      split <;> omega
    have hnat : (to_int payload.length).toNat = payload.length := by
      unfold to_int
      have : MAX_MESSAGE_LENGTH = 100000 := rfl
      split
      · simp
      · omega
    have hint : to_int payload.length = (payload.length : Int) := by
      unfold to_int
      have : MAX_MESSAGE_LENGTH = 100000 := rfl
      split
      · rfl
      · omega
    unfold Read_XML_Message
    simp only [List.append_assoc]
    rw [read_word_length_word _ hn]
    simp only [hpos, if_false]
    rw [read_word_zero_word]
    simp only [hmax, if_false, hnat]
    simp only [wire, List.take_length, List.drop_length, hint, ne_eq, not_true_eq_false,
      if_false]


/-- C5 (amended) at the payload `<a>x</a>`. -/
theorem framing_round_trip_witness :
    1 ≤ (bytes "<a>x</a>").length ∧ (bytes "<a>x</a>").length ≤ MAX_MESSAGE_LENGTH ∧
      (Send_Request_Message wire [] (world_connected []).ClientConnection (bytes "<a>x</a>") =
          (0, length_word (bytes "<a>x</a>").length ++ [0, 0, 0, 0] ++ bytes "<a>x</a>") ∧
        Read_XML_Message wire
            { world_connected [] with
              env := length_word (bytes "<a>x</a>").length ++ [0, 0, 0, 0] ++ bytes "<a>x</a>" } =
          (some (bytes "<a>x</a>"),
            { world_connected [] with
              env := [], mallocs := ((bytes "<a>x</a>").length + 1) ::
                (world_connected []).mallocs })) :=
  ⟨by decide, by decide,
    framing_round_trip (world_connected []) (bytes "<a>x</a>") (by decide) (by decide)⟩

/-- C6 (failing input): a header that declares 200,000 bytes (`00 03 0D 40`, then four
reserved bytes). `Read_XML_Message` returns no payload, allocates nothing and reads nothing
after the header, but it does not close the session: `ClientConnection` is still the
descriptor 5 and the undelivered payload bytes `rest` stay in the stream. -/
theorem Read_XML_Message_oversize_keeps_session (rest : List Nat) :
    (Read_XML_Message wire (world_connected ([0, 3, 13, 64, 0, 0, 0, 0] ++ rest))).1 = none ∧
      (Read_XML_Message wire (world_connected ([0, 3, 13, 64, 0, 0, 0, 0] ++ rest))).2.mallocs
        = [] ∧
      (Read_XML_Message wire (world_connected ([0, 3, 13, 64, 0, 0, 0, 0] ++ rest))).2.env
        = rest ∧
      (Read_XML_Message wire
        (world_connected ([0, 3, 13, 64, 0, 0, 0, 0] ++ rest))).2.ClientConnection = 5 ∧
      (5 : Int) ≠ INVALID_SOCKET :=
  ⟨by rfl, by rfl, by rfl, by rfl, by decide⟩

/-- What `Read_XML_Message` does with a declared length above `MAX_MESSAGE_LENGTH`, on any
network: no payload, no allocation, no read after the two words, session left as it was. -/
theorem Read_XML_Message_oversize {σ : Type} (net : Net σ) (w : World σ) (un m : Nat)
    (env1 env2 : σ) (h1 : read_word net w.ClientConnection 4 w.env 0 = (some un, env1))
    (h2 : read_word net w.ClientConnection 4 env1 0 = (some m, env2))
    (hn : to_int un > MAX_MESSAGE_LENGTH) :
    Read_XML_Message net w = (none, { w with env := env2 }) := by
  have hpos : ¬ to_int un ≤ 0 := by
    have : (MAX_MESSAGE_LENGTH : Int) = 100000 := rfl
    omega
  unfold Read_XML_Message
  simp only [h1, hpos, if_false, h2, hn, if_true]

/-- C7: when the read of the length bytes, of the reserved bytes or of the payload bytes
comes back short, at the end of the stream or with an error, `Read_XML_Message` returns no
payload and the session is closed. -/
theorem Read_XML_Message_short_read_closes {σ : Type} (net : Net σ) (w : World σ)
    (h : length_read_fails net w ∨ reserved_read_fails net w ∨ payload_read_fails net w) :
    (Read_XML_Message net w).1 = none ∧
      (Read_XML_Message net w).2.ClientConnection = INVALID_SOCKET := by
  unfold Read_XML_Message
  rcases h with h | h | h
  · unfold length_read_fails at h
    cases hr : read_word net w.ClientConnection 4 w.env 0 with
    | mk r env1 =>
      rw [hr] at h
      simp only at h
      subst h
      exact ⟨rfl, rfl⟩
  · obtain ⟨un, env1, h1, h2⟩ := h
    rw [h1]
    dsimp only
    split
    · exact ⟨rfl, rfl⟩
    · cases hr : read_word net w.ClientConnection 4 env1 0 with
      | mk r env2 =>
        rw [hr] at h2
        simp only at h2
        subst h2
        exact ⟨rfl, rfl⟩
  · obtain ⟨un, env1, m, env2, h1, h2, hmax, hshort⟩ := h
    rw [h1]
    dsimp only
    split
    · exact ⟨rfl, rfl⟩
    · rw [h2]
      dsimp only
      rw [if_neg (not_lt.mpr hmax)]
      cases hr : net.recv env2 w.ClientConnection (to_int un).toNat with
      | mk r env3 =>
        cases r with
        | none => exact ⟨rfl, rfl⟩
        | some bs =>
          have := hshort bs (by rw [hr])
          dsimp only
          rw [if_pos (ne_of_lt this)]
          exact ⟨rfl, rfl⟩

/-- C7 at a stream that ends after two of the four length bytes. -/
theorem Read_XML_Message_short_read_closes_witness :
    length_read_fails wire (world_connected [0, 0]) ∧
      (Read_XML_Message wire (world_connected [0, 0])).1 = none ∧
      (Read_XML_Message wire (world_connected [0, 0])).2.ClientConnection = INVALID_SOCKET :=
  ⟨by rfl, Read_XML_Message_short_read_closes wire (world_connected [0, 0]) (Or.inl (by rfl))⟩


/-- The result of `Send_Request_Message` is 0 when all three sends are complete and one of
-7, -6, -5, -10 otherwise. -/
theorem Send_Request_Message_result {σ : Type} (net : Net σ) (env : σ) (fd : Int)
    (buffer : List Nat) :
    (sends_complete net env fd buffer → (Send_Request_Message net env fd buffer).1 = 0) ∧
    (¬ sends_complete net env fd buffer → (Send_Request_Message net env fd buffer).1 < 0) := by
  unfold sends_complete Send_Request_Message length_word
  dsimp only
  constructor
  · rintro ⟨h1, h2, h3⟩
    rw [if_neg (by rw [h1]; decide), if_neg (by rw [h2]; decide)]
    have h0 := Int.natCast_nonneg buffer.length
    rw [if_neg (by omega), if_neg (not_lt.mpr h3)]
  · intro hnot
    split
    · show (-7 : Int) < 0; decide
    · rename_i c1
      split
      · show (-6 : Int) < 0; decide
      · rename_i c2
        split
        · show (-5 : Int) < 0; decide
        · rename_i c3
          split
          · show (-10 : Int) < 0; decide
          · rename_i c4
            exfalso
            apply hnot
            refine ⟨?_, ?_, ?_⟩
            · by_contra hne; exact c1 (Or.inr hne)
            · by_contra hne; exact c2 (Or.inr hne)
            · exact not_lt.mp c4

/-- C8: `Send_Request_Message` returns 0 when all three sends are complete and a negative
result as soon as one of them fails or writes fewer bytes than requested; when that happens
to the response in `Read_and_Reply_to_CVM` or to the push in `WriteXMLMessageToServer` (sent
when a session is open), the caller closes the session: `ClientConnection` is
`INVALID_SOCKET` afterwards. -/
theorem send_failure_closes_session {σ : Type} (net : Net σ) :
    (∀ (env : σ) (fd : Int) (buffer : List Nat),
      (sends_complete net env fd buffer → (Send_Request_Message net env fd buffer).1 = 0) ∧
      (¬ sends_complete net env fd buffer →
        (Send_Request_Message net env fd buffer).1 < 0)) ∧
    (∀ (w w1 w2 : World σ) (buffer message : List Nat),
      Read_XML_Message net w = (some buffer, w1) →
      Parse_XML_Message w1 (buffer.takeWhile (fun x => x != 0)) = .ok (some message, w2) →
      ¬ sends_complete net w2.env w2.ClientConnection message →
      ∃ w3, Read_and_Reply_to_CVM net w = .ok w3 ∧ w3.ClientConnection = INVALID_SOCKET) ∧
    (∀ (w w1 : World σ) (d : DEVICE) (timedate : Option Timestamp) (message : List Nat),
      Format_One_Event_Message w d timedate = .ok (some message, w1) →
      w1.ClientConnection ≠ INVALID_SOCKET →
      ¬ sends_complete net w1.env w1.ClientConnection message →
      ∃ w2, WriteXMLMessageToServer net w d timedate = .ok w2 ∧
        w2.ClientConnection = INVALID_SOCKET) := by
  refine ⟨fun env fd buffer => Send_Request_Message_result net env fd buffer, ?_, ?_⟩
  · intro w w1 w2 buffer message hread hparse hsend
    have hneg := (Send_Request_Message_result net w2.env w2.ClientConnection message).2 hsend
    unfold Read_and_Reply_to_CVM
    rw [hread]
    dsimp only
    rw [hparse]
    simp only [Res.bind]
    rw [if_pos hneg]
    exact ⟨_, rfl, rfl⟩
  · intro w w1 d timedate message hfmt hopen hsend
    have hneg := (Send_Request_Message_result net w1.env w1.ClientConnection message).2 hsend
    unfold WriteXMLMessageToServer
    rw [hfmt]
    simp only [Res.bind]
    rw [if_pos hopen, if_pos hneg]
    exact ⟨_, rfl, rfl⟩

set_option maxRecDepth 100000 in
/-- C8 on a network whose sends all fail, for the response to the request of scenario B. -/
theorem send_failure_closes_session_witness :
    ¬ sends_complete dead_net () 5 response_one_device ∧
      (Send_Request_Message dead_net () 5 response_one_device).1 < 0 :=
  ⟨fun h => absurd h.1 (by decide),
    ((send_failure_closes_session dead_net).1 () 5 response_one_device).2
      (fun h => absurd h.1 (by decide))⟩

/-! ## The parser on well-formed fragments: claims C9 and C10 -/

theorem dropWhile_all_append (p : Nat → Bool) (l r : List Nat) (h : l.all p = true) :
    (l ++ r).dropWhile p = r.dropWhile p := by
  induction l with
  | nil => rfl
  | cons a l ih =>
    simp only [List.all_cons, Bool.and_eq_true] at h
    simp only [List.cons_append, List.dropWhile_cons, h.1, if_true]
    exact ih h.2

theorem dropWhile_head_false (p : Nat → Bool) (c : Nat) (r : List Nat) (h : p c = false) :
    (c :: r).dropWhile p = c :: r := by
  simp only [List.dropWhile_cons, h, Bool.false_eq_true, if_false]

theorem takeWhile_all_append (p : Nat → Bool) (l : List Nat) (c : Nat) (r : List Nat)
    (h : l.all p = true) (hc : p c = false) : (l ++ c :: r).takeWhile p = l := by
  induction l with
  | nil => simp only [List.nil_append, List.takeWhile_cons, hc, Bool.false_eq_true, if_false]
  | cons a l ih =>
    simp only [List.all_cons, Bool.and_eq_true] at h
    simp only [List.cons_append, List.takeWhile_cons, h.1, if_true, ih h.2]

theorem isspace_not_tagchar (c : Nat) (h : isspace c = true) : istagchar c = false := by
  simp only [isspace, istagchar, isalnum, Bool.or_eq_true, Bool.and_eq_true, beq_iff_eq,
    decide_eq_true_eq] at h ⊢
  rw [Bool.eq_false_iff]
  simp only [ne_eq, Bool.or_eq_true, Bool.and_eq_true, decide_eq_true_eq, beq_iff_eq]
  omega

theorem isspace_ne_gt (c : Nat) (h : isspace c = true) : c ≠ 62 := by
  simp only [isspace, Bool.or_eq_true, Bool.and_eq_true, beq_iff_eq, decide_eq_true_eq] at h
  omega

theorem blank_all_ne_gt (l : List Nat) (h : is_blank l = true) :
    l.all (fun x => x != 62) = true := by
  simp only [is_blank, List.all_eq_true] at h ⊢
  intro x hx
  simpa using isspace_ne_gt x (h x hx)

/-- `find_end_of_tag` on `tag s>rest`: past the `>` and the white space after it. -/
theorem find_end_of_tag_wf (tag s rest : List Nat) (ht : tag.all istagchar = true)
    (hs : is_blank s = true) :
    find_end_of_tag (tag ++ (s ++ 62 :: rest)) = some (rest.dropWhile isspace) := by
  unfold find_end_of_tag
  rw [dropWhile_all_append _ _ _ ht]
  cases s with
  | nil =>
    simp only [List.nil_append]
    rw [dropWhile_head_false _ _ _ (by decide)]
    simp
  | cons c s' =>
    simp only [is_blank, List.all_cons, Bool.and_eq_true] at hs
    have hb : is_blank s' = true := hs.2
    simp only [List.cons_append]
    rw [dropWhile_head_false _ _ _ (isspace_not_tagchar c hs.1)]
    simp only [isspace_ne_gt c hs.1, if_false]
    rw [dropWhile_all_append _ _ _ (blank_all_ne_gt s' hb)]
    rw [dropWhile_head_false _ _ _ (by decide)]

/-- The tag string after `find_end_of_tag` on `tag s>rest` is `tag`. -/
theorem tag_text_wf (tag s rest : List Nat) (ht : tag.all istagchar = true)
    (hs : is_blank s = true) : tag_text (tag ++ (s ++ 62 :: rest)) = tag := by
  unfold tag_text
  cases s with
  | nil => exact takeWhile_all_append _ _ _ _ ht (by decide)
  | cons c s' =>
    simp only [is_blank, List.all_cons, Bool.and_eq_true] at hs
    exact takeWhile_all_append _ _ _ _ ht (isspace_not_tagchar c hs.1)

/-- The end-tag part of `parse_xml_element` on `</tag s>rest`. -/
theorem parse_end_tag_wf (tag s rest : List Nat) (ht : is_tag_name tag = true)
    (hs : is_blank s = true) :
    parse_end_tag (60 :: 47 :: (tag ++ (s ++ 62 :: rest))) = some (rest.dropWhile isspace) := by
  simp only [is_tag_name, Bool.and_eq_true, Bool.not_eq_true', List.isEmpty_eq_false] at ht
  have hf := find_end_of_tag_wf tag s rest ht.2 hs
  cases tag with
  | nil => simp at ht
  | cons a tag' =>
    simp only [List.all_cons, Bool.and_eq_true] at ht
    have ha : a ≠ 47 := by
      intro h; rw [h] at ht; exact absurd ht.2.1 (by decide)
    simp only [parse_end_tag, skip_char, if_true, List.cons_append, ha, if_false]
    exact hf


theorem is_XML_comment_tag (a : Nat) (r : List Nat) (h : istagchar a = true) :
    is_XML_comment (60 :: a :: r) = false := by
  have ha : a ≠ 33 := by intro e; rw [e] at h; exact absurd h (by decide)
  unfold is_XML_comment
  split
  · rename_i heq
    simp only [List.cons.injEq, true_and] at heq
    exact absurd heq.1 ha
  · rfl

theorem is_XML_declaration_tag (a : Nat) (r : List Nat) (h : istagchar a = true) :
    is_XML_declaration (60 :: a :: r) = false := by
  have ha : a ≠ 63 := by intro e; rw [e] at h; exact absurd h (by decide)
  unfold is_XML_declaration
  split
  · rename_i heq
    simp only [List.cons.injEq, true_and] at heq
    exact absurd heq.1 ha
  · rfl

/-- `parse_xml_element` at a start tag `<tag s>`: the key is set and the content `X` decides
between a value and a list of children. -/
theorem parse_xml_element_start (f : Nat) (tag s X : List Nat) (t : xml_element)
    (ht : is_tag_name tag = true) (hs : is_blank s = true) :
    parse_xml_element (f + 1) (60 :: (tag ++ (s ++ 62 :: X))) t =
      match X.dropWhile isspace with
      | [] => .ok (none, t)
      | d :: ds =>
        if d ≠ 60 then
          .ok (parse_end_tag (get_value (d :: ds)).1,
            (t.setKey (.str tag)).setValue (some (get_value (d :: ds)).2))
        else
          match parse_children f (d :: ds) (t.setKey (.str tag)) with
          | .ok (some b, tree2) => .ok (parse_end_tag b, tree2)
          | r => r := by
  simp only [is_tag_name, Bool.and_eq_true, Bool.not_eq_true', List.isEmpty_eq_false] at ht
  have hfe := find_end_of_tag_wf tag s X ht.2 hs
  have htt := tag_text_wf tag s X ht.2 hs
  cases tag with
  | nil => simp at ht
  | cons a tag' =>
    simp only [List.all_cons, Bool.and_eq_true] at ht
    rw [parse_xml_element, dropWhile_head_false _ _ _ (by decide)]
    simp only [ne_eq, not_true_eq_false, if_false, List.cons_append,
      is_XML_comment_tag a _ ht.2.1, is_XML_declaration_tag a _ ht.2.1, Bool.false_eq_true]
    simp only [List.cons_append] at hfe htt
    rw [hfe, htt]
    cases X.dropWhile isspace with
    | nil => rfl
    | cons d ds => rfl

theorem get_value_text (l r : List Nat) (h : l.all (fun x => x != 60) = true) :
    get_value (l ++ 60 :: r) = (60 :: r, rtrim (l.dropWhile isspace)) := by
  have hd : ∃ l', (l ++ 60 :: r).dropWhile isspace = l' ++ 60 :: r ∧
      l' = l.dropWhile isspace := by
    induction l with
    | nil => exact ⟨[], by rw [List.nil_append, dropWhile_head_false _ _ _ (by decide)], rfl⟩
    | cons a l ih =>
      simp only [List.all_cons, Bool.and_eq_true] at h
      by_cases ha : isspace a = true
      · obtain ⟨l', h1, h2⟩ := ih h.2
        refine ⟨l', ?_, ?_⟩
        · simp only [List.cons_append, List.dropWhile_cons, ha, if_true]; exact h1
        · simp only [List.dropWhile_cons, ha, if_true]; exact h2
      · refine ⟨a :: l, ?_, ?_⟩
        · simp only [List.cons_append, List.dropWhile_cons, ha, if_false]
          simp
        · simp only [List.dropWhile_cons, ha, if_false]
          simp
  obtain ⟨l', h1, h2⟩ := hd
  have hl' : l'.all (fun x => x != 60) = true := by
    rw [h2]
    simp only [List.all_eq_true] at h ⊢
    intro x hx
    exact h x ((List.dropWhile_sublist isspace).subset hx)
  simp only [get_value]
  rw [h1, dropWhile_all_append _ _ _ hl', dropWhile_head_false _ _ _ (by decide),
    takeWhile_all_append _ _ _ _ hl' (by decide), h2]


theorem nonblank_dropWhile (text r : List Nat) (hb : is_blank text = false) :
    ∃ d ds, text.dropWhile isspace = d :: ds ∧ isspace d = false ∧
      (text ++ r).dropWhile isspace = d :: (ds ++ r) := by
  induction text with
  | nil => simp [is_blank] at hb
  | cons a l ih =>
    by_cases ha : isspace a = true
    · have hl : is_blank l = false := by
        simp only [is_blank, List.all_cons, ha, Bool.true_and] at hb
        exact hb
      obtain ⟨d, ds, h1, h2, h3⟩ := ih hl
      refine ⟨d, ds, ?_, h2, ?_⟩
      · simp only [List.dropWhile_cons, ha, if_true]; exact h1
      · simp only [List.cons_append, List.dropWhile_cons, ha, if_true]; exact h3
    · refine ⟨a, l, ?_, by simpa using ha, ?_⟩
      · simp only [List.dropWhile_cons, ha, if_false]; simp
      · simp only [List.cons_append, List.dropWhile_cons, ha, if_false]; simp

theorem Elem.render_starts (e : Elem) : ∃ t, e.render = 60 :: t := by
  cases e with
  | leaf tag s1 text s2 => exact ⟨_, by rw [Elem.render]⟩
  | node tag s1 ws kids s2 => exact ⟨_, by rw [Elem.render]⟩

theorem Kids.render_then_starts (ks : Kids) (r : List Nat) : ∃ t, ks.render ++ 60 :: r = 60 :: t := by
  cases ks with
  | nil => exact ⟨r, by rw [Kids.render]; rfl⟩
  | cons e ws rest =>
    obtain ⟨t, ht⟩ := e.render_starts
    exact ⟨_, by rw [Kids.render, ht]; rfl⟩

theorem Elem.render_second (e : Elem) (hw : e.wf = true) :
    ∃ a t, e.render = 60 :: a :: t ∧ istagchar a = true := by
  cases e with
  | leaf tag s1 text s2 =>
    simp only [Elem.wf, is_tag_name, Bool.and_eq_true, Bool.not_eq_true',
      List.isEmpty_eq_false] at hw
    cases tag with
    | nil => simp at hw
    | cons a tag' =>
      have := hw.1.1.1.1.2
      simp only [List.all_cons, Bool.and_eq_true] at this
      exact ⟨a, _, by rw [Elem.render]; rfl, this.1⟩
  | node tag s1 ws kids s2 =>
    simp only [Elem.wf, is_tag_name, Bool.and_eq_true, Bool.not_eq_true',
      List.isEmpty_eq_false] at hw
    cases tag with
    | nil => simp at hw
    | cons a tag' =>
      have := hw.1.1.1.1.2
      simp only [List.all_cons, Bool.and_eq_true] at this
      exact ⟨a, _, by rw [Elem.render]; rfl, this.1⟩

theorem Elem.wf_leaf {tag s1 text s2 : List Nat} (hw : (Elem.leaf tag s1 text s2).wf = true) :
    is_tag_name tag = true ∧ is_blank s1 = true ∧ is_blank s2 = true ∧
      text.all (fun x => x != 60) = true ∧ is_blank text = false := by
  simp only [Elem.wf, Bool.and_eq_true, Bool.not_eq_true'] at hw
  refine ⟨hw.1.1.1.1, hw.1.1.1.2, hw.1.1.2, ?_, hw.2⟩
  have h60 := hw.1.2
  simp only [List.all_eq_true, bne_iff_ne, ne_eq]
  intro x hx hx60
  rw [hx60] at hx
  have : text.contains 60 = true := by simpa using hx
  rw [h60] at this
  exact absurd this (by decide)

theorem Elem.wf_node {tag s1 ws s2 : List Nat} {kids : Kids}
    (hw : (Elem.node tag s1 ws kids s2).wf = true) :
    is_tag_name tag = true ∧ is_blank s1 = true ∧ is_blank s2 = true ∧
      is_blank ws = true ∧ kids.wf = true := by
  simp only [Elem.wf, Bool.and_eq_true] at hw
  exact ⟨hw.1.1.1.1, hw.1.1.1.2, hw.1.1.2, hw.1.2, hw.2⟩

theorem Kids.wf_cons {e : Elem} {ws : List Nat} {rest : Kids}
    (hw : (Kids.cons e ws rest).wf = true) :
    e.wf = true ∧ is_blank ws = true ∧ rest.wf = true := by
  simp only [Kids.wf, Bool.and_eq_true] at hw
  exact ⟨hw.1.1, hw.1.2, hw.2⟩


mutual

/-- `parse_xml_element` on the text of a well-formed element followed by `rest`, with
enough fuel: it returns the position after the element and the white space behind it, and
has made of the fresh element the tree of the element. -/
theorem parse_xml_element_wf (e : Elem) (hw : e.wf = true) (fuel : Nat) (rest : List Nat)
    (k : KeyField) (hf : 2 * (e.render ++ rest).length + 1 ≤ fuel) :
    parse_xml_element fuel (e.render ++ rest) (.mk k [] none) =
      .ok (some (rest.dropWhile isspace), e.tree) := by
  obtain ⟨f, rfl⟩ : ∃ f, fuel = f + 1 := ⟨fuel - 1, by omega⟩
  match e, hw, hf with
  | .leaf tag s1 text s2, hw, hf =>
    obtain ⟨ht, hs1, hs2, h60, hnb⟩ := Elem.wf_leaf hw
    have e1 : (Elem.leaf tag s1 text s2).render ++ rest =
        60 :: (tag ++ (s1 ++ 62 :: (text ++ 60 :: 47 :: (tag ++ (s2 ++ 62 :: rest))))) := by
      simp only [Elem.render, List.cons_append, List.append_assoc, List.nil_append]
    rw [e1, parse_xml_element_start f tag s1 _ _ ht hs1]
    obtain ⟨d, ds, hd1, hd2, hd3⟩ := nonblank_dropWhile text
      (60 :: 47 :: (tag ++ (s2 ++ 62 :: rest))) hnb
    rw [hd3]
    have hall : (d :: ds).all (fun x => x != 60) = true := by
      rw [← hd1]
      simp only [List.all_eq_true] at h60 ⊢
      intro x hx
      exact h60 x ((List.dropWhile_sublist isspace).subset hx)
    have hd60 : d ≠ 60 := by
      simp only [List.all_cons, Bool.and_eq_true, bne_iff_ne, ne_eq] at hall
      exact hall.1
    have hgv := get_value_text (d :: ds) (47 :: (tag ++ (s2 ++ 62 :: rest))) hall
    simp only [List.cons_append] at hgv
    simp only [ne_eq, hd60, not_false_eq_true, if_true, hgv]
    rw [parse_end_tag_wf tag s2 rest ht hs2]
    simp only [dropWhile_head_false _ _ _ hd2, xml_element.setKey, xml_element.setValue,
      Elem.tree, trim, hd1]
  | .node tag s1 ws kids s2, hw, hf =>
    obtain ⟨ht, hs1, hs2, hws, hk⟩ := Elem.wf_node hw
    have e1 : (Elem.node tag s1 ws kids s2).render ++ rest =
        60 :: (tag ++ (s1 ++ 62 :: (ws ++
          (kids.render ++ 60 :: 47 :: (tag ++ (s2 ++ 62 :: rest)))))) := by
      simp only [Elem.render, List.cons_append, List.append_assoc, List.nil_append]
    rw [e1] at hf ⊢
    rw [parse_xml_element_start f tag s1 _ _ ht hs1]
    rw [dropWhile_all_append _ _ _ hws]
    have hkids := parse_children_wf kids hk f (tag ++ (s2 ++ 62 :: rest)) (.str tag) [] none
      (by
        simp only [List.length_cons, List.length_append] at hf ⊢
        omega)
    obtain ⟨t, hhead⟩ := kids.render_then_starts (47 :: (tag ++ (s2 ++ 62 :: rest)))
    rw [hhead] at hkids ⊢
    rw [dropWhile_head_false _ _ _ (by decide)]
    simp only [ne_eq, not_true_eq_false, if_false, xml_element.setKey, hkids]
    rw [parse_end_tag_wf tag s2 rest ht hs2]
    simp only [Elem.tree, List.append_nil]

/-- The loop over the children on the text of well-formed children followed by an end tag,
with enough fuel: it stops at the end tag and has put the trees of the children in front of
the list, the last child first. -/
theorem parse_children_wf (ks : Kids) (hw : ks.wf = true) (fuel : Nat) (rest : List Nat)
    (k : KeyField) (acc : List xml_element) (v : Option (List Nat))
    (hf : 2 * (ks.render ++ 60 :: 47 :: rest).length + 2 ≤ fuel) :
    parse_children fuel (ks.render ++ 60 :: 47 :: rest) (.mk k acc v) =
      .ok (some (60 :: 47 :: rest), .mk k (ks.trees.reverse ++ acc) v) := by
  obtain ⟨f, rfl⟩ : ∃ f, fuel = f + 1 := ⟨fuel - 1, by omega⟩
  match ks, hw, hf with
  | .nil, _, _ =>
    rw [parse_children]
    simp [Kids.render, Kids.trees]
  | .cons e ws ks', hw, hf =>
    obtain ⟨he, hws, hk⟩ := Kids.wf_cons hw
    have e1 : (Kids.cons e ws ks').render ++ 60 :: 47 :: rest =
        e.render ++ (ws ++ (ks'.render ++ 60 :: 47 :: rest)) := by
      simp only [Kids.render, List.append_assoc]
    rw [e1] at hf ⊢
    have hpe := parse_xml_element_wf e he f (ws ++ (ks'.render ++ 60 :: 47 :: rest)) .garbage
      (by omega)
    obtain ⟨a, t, hrender, ha⟩ := e.render_second he
    have ha47 : a ≠ 47 := by intro h; rw [h] at ha; exact absurd ha (by decide)
    obtain ⟨t', hhead⟩ := ks'.render_then_starts (47 :: rest)
    rw [dropWhile_all_append _ _ _ hws, hhead, dropWhile_head_false _ _ _ (by decide)] at hpe
    have hlen : 1 ≤ e.render.length := by rw [hrender]; simp
    have hkids := parse_children_wf ks' hk f rest k (e.tree :: acc) v
      (by
        simp only [List.length_cons, List.length_append] at hf ⊢
        omega)
    rw [hhead] at hkids
    rw [parse_children]
    have hcond : (e.render ++ (ws ++ 60 :: t')).head? = some 60 ∧
        (e.render ++ (ws ++ 60 :: t')).tail.head? ≠ some 47 := by
      rw [hrender]
      simp only [List.cons_append, List.head?_cons, List.tail_cons, ne_eq, Option.some.injEq]
      exact ⟨trivial, ha47⟩
    rw [hhead, if_pos hcond]
    have hnew : new_child = .mk .garbage [] none := rfl
    rw [hnew, hpe]
    simp only [xml_element.setList, xml_element.xml_list, hkids, Kids.trees,
      List.reverse_cons, List.append_assoc, List.singleton_append]

end


theorem parse_xml_element_skip_blank (f : Nat) (ws X : List Nat) (t : xml_element)
    (hws : is_blank ws = true) :
    parse_xml_element (f + 1) (ws ++ X) t = parse_xml_element (f + 1) X t := by
  conv_lhs => rw [parse_xml_element]
  conv_rhs => rw [parse_xml_element]
  rw [dropWhile_all_append _ _ _ hws]

theorem dropWhile_blank (ws : List Nat) (h : is_blank ws = true) : ws.dropWhile isspace = [] := by
  have := dropWhile_all_append isspace ws [] h
  simpa using this

/-- The parser on a whole fragment: white space, a well-formed element, white space. -/
theorem parse_fragment (e : Elem) (ws0 ws1 : List Nat) (hw : e.wf = true)
    (h0 : is_blank ws0 = true) (h1 : is_blank ws1 = true) :
    parse_xml_element (parse_fuel (ws0 ++ e.render ++ ws1)) (ws0 ++ e.render ++ ws1) new_root =
      .ok (some [], e.tree) := by
  have hfuel : parse_fuel (ws0 ++ e.render ++ ws1) =
      2 * (ws0 ++ e.render ++ ws1).length + 1 := rfl
  rw [hfuel, List.append_assoc, parse_xml_element_skip_blank _ _ _ _ h0]
  have := parse_xml_element_wf e hw (2 * (ws0 ++ (e.render ++ ws1)).length + 1) ws1 .null
    (by simp only [List.length_append]; omega)
  rw [dropWhile_blank ws1 h1] at this
  exact this

set_option maxRecDepth 100000 in
/-- C10 (counterexample): in `<a><b>1</b><c>2</c></a>` the start tag of `b` comes before
that of `c`, and the child list the parser builds for `a` has `c` first and `b` second. -/
theorem parse_xml_element_children_reversed_example :
    fragment_two_children.render = bytes "<a><b>1</b><c>2</c></a>" ∧
      parse_xml_element (parse_fuel (bytes "<a><b>1</b><c>2</c></a>"))
          (bytes "<a><b>1</b><c>2</c></a>") new_root =
        .ok (some [], .mk (.str (bytes "a"))
          [.mk (.str (bytes "c")) [] (some (bytes "2")),
           .mk (.str (bytes "b")) [] (some (bytes "1"))] none) ∧
      [KeyField.str (bytes "c"), KeyField.str (bytes "b")] ≠
        [KeyField.str (bytes "b"), KeyField.str (bytes "c")] :=
  ⟨by rfl, by rfl, by decide⟩

theorem Kids.trees_keys (ks : Kids) :
    ks.trees.map xml_element.key = ks.tags.map KeyField.str := by
  match ks with
  | .nil => rfl
  | .cons (.leaf tag s1 text s2) ws rest =>
    simp only [Kids.trees, Kids.tags, List.map_cons, Elem.tree, xml_element.key,
      Kids.trees_keys rest]
  | .cons (.node tag s1 ws' kids s2) ws rest =>
    simp only [Kids.trees, Kids.tags, List.map_cons, Elem.tree, xml_element.key,
      Kids.trees_keys rest]

/-- On well-formed fragments: the child list the parser builds for a node (`xml_list`,
followed through `next`) holds the trees of the children in reverse document order, the
child whose start tag comes last in the text first. The same holds inside every child,
whose tree is again `Elem.tree`. -/
theorem parse_xml_element_children_reversed (tag s1 ws s2 ws0 ws1 : List Nat) (kids : Kids)
    (hw : (Elem.node tag s1 ws kids s2).wf = true)
    (h0 : is_blank ws0 = true) (h1 : is_blank ws1 = true) :
    ∃ root,
      parse_xml_element (parse_fuel (ws0 ++ (Elem.node tag s1 ws kids s2).render ++ ws1))
        (ws0 ++ (Elem.node tag s1 ws kids s2).render ++ ws1) new_root = .ok (some [], root) ∧
      root.xml_list = kids.trees.reverse ∧
      root.xml_list.map xml_element.key = (kids.tags.map KeyField.str).reverse := by
  refine ⟨(Elem.node tag s1 ws kids s2).tree, parse_fragment _ ws0 ws1 hw h0 h1, ?_, ?_⟩
  · simp only [Elem.tree, xml_element.xml_list]
  · simp only [Elem.tree, xml_element.xml_list, List.map_reverse, Kids.trees_keys]

/-- The corollary at `<a><b>1</b><c>2</c></a>`: the keys of the children of `a` are listed
as `c`, `b`. -/
theorem parse_xml_element_children_reversed_at_two_children :
    fragment_two_children.wf = true ∧
      ∃ root,
        parse_xml_element (parse_fuel ([] ++ fragment_two_children.render ++ []))
          ([] ++ fragment_two_children.render ++ []) new_root = .ok (some [], root) ∧
        root.xml_list.map xml_element.key = [KeyField.str (bytes "c"), KeyField.str (bytes "b")] :=
  ⟨by decide,
    (parse_xml_element_children_reversed (bytes "a") [] [] [] [] []
      (.cons (.leaf (bytes "b") [] (bytes "1") []) []
        (.cons (.leaf (bytes "c") [] (bytes "2") []) [] .nil))
      (by decide) (by decide) (by decide)).elim
      fun root h => ⟨root, h.1, h.2.2⟩⟩

/-! ## When a message is built -/

theorem ClearBuffer_usable {b : BUFFER} (h : b.usable) :
    ∃ b0, ClearBuffer b = .ok b0 ∧ b0.holds [] ∧ 1024 ≤ b0.length := by
  unfold ClearBuffer
  dsimp only
  rcases h with h | ⟨h1, h2⟩
  · rw [if_pos (by omega)]
    exact ⟨_, rfl, ⟨rfl, rfl, by show 0 + 1 ≤ 1024; omega⟩, le_refl _⟩
  · rw [if_neg (by omega)]
    cases hb : b.b with
    | none => exact absurd hb h2
    | some t => exact ⟨_, rfl, ⟨rfl, rfl, by show 0 + 1 ≤ b.length; omega⟩, h1⟩

theorem fits_literal (s : List Nat) (h : s.length ≤ 1024) : fits (some s) := ⟨h⟩

theorem readingTime_fits (t : Timestamp) : fits (some (readingTime t)) := by
  constructor
  have : (readingTime t).length ≤ 15 := by
    unfold readingTime snprintf
    rw [List.length_take]
    exact Nat.min_le_left _ _
  simp only [Option.getD_some]
  omega

theorem readingDate_fits (t : Timestamp) : fits (some (readingDate t)) := by
  constructor
  have : (readingDate t).length ≤ 15 := by
    unfold readingDate snprintf
    rw [List.length_take]
    exact Nat.min_le_left _ _
  simp only [Option.getD_some]
  omega

theorem Format_Device_Status_fits (s : DeviceStatus) :
    fits (some (Format_Device_Status s)) := by
  constructor
  cases s <;> decide

theorem AppendHeader_fits (refId icd : Option (List Nat)) (h1 : fits refId) (h2 : fits icd) :
    ∀ s ∈ AppendHeader refId icd, fits s := by
  simp only [AppendHeader, List.forall_mem_cons, List.not_mem_nil, false_implies,
    implies_true, and_true]
  refine ⟨?_, h1, ?_, ?_, h2, ?_⟩ <;> exact fits_literal _ (by decide)

theorem AppendId_fits (d : DEVICE) (hd : d.fits) : ∀ s ∈ AppendId d, fits s := by
  obtain ⟨h1, h2, h3, h4, _⟩ := hd
  simp only [AppendId, QAppendBuffer, List.cons_append, List.nil_append, List.forall_mem_cons,
    List.not_mem_nil, false_implies, implies_true, and_true]
  refine ⟨?_, ?_, ?_, h1, ?_, ?_, ?_, h2, ?_, ?_, ?_, h3, ?_, ?_, h4, ?_⟩ <;>
    exact fits_literal _ (by decide)

theorem AppendOverheight_fits (d : DEVICE) (timedate : Option Timestamp) (hd : d.fits) :
    ∀ s ∈ AppendOverheight d timedate, fits s := by
  obtain ⟨_, _, _, _, h5⟩ := hd
  cases timedate with
  | none =>
    simp only [AppendOverheight, List.cons_append, List.nil_append, List.forall_mem_cons,
      List.not_mem_nil, false_implies, implies_true, and_true]
    refine ⟨?_, ?_, ?_, Format_Device_Status_fits _, ?_, ?_, ?_⟩ <;>
      exact fits_literal _ (by decide)
  | some t =>
    simp only [AppendOverheight, QAppendBuffer, List.cons_append, List.nil_append,
      List.forall_mem_cons, List.not_mem_nil, false_implies, implies_true, and_true]
    refine ⟨?_, ?_, ?_, readingTime_fits t, ?_, ?_, readingDate_fits t, ?_, ?_, ?_, ?_, ?_, ?_,
      h5, ?_, ?_, ?_, ?_, Format_Device_Status_fits _, ?_, ?_, ?_⟩ <;>
      exact fits_literal _ (by decide)

theorem overheightData_block_fits (fs : Files) (d : DEVICE) (hd : d.fits) :
    ∀ s ∈ overheightData_block fs d, fits s := by
  intro s hs
  simp only [overheightData_block, List.mem_append, List.mem_singleton] at hs
  rcases hs with ((rfl | hs) | hs) | rfl
  · exact fits_literal _ (by decide)
  · exact AppendId_fits d hd s hs
  · exact AppendOverheight_fits d _ hd s hs
  · exact fits_literal _ (by decide)

theorem response_pieces_fits (fs : Files) (DDD : Fin MAX_DETECTORS → Option DEVICE)
    (refID icd : Option (List Nat)) (h1 : fits refID) (h2 : fits icd)
    (hd : ∀ d ∈ registered DDD, d.fits) :
    ∀ s ∈ response_pieces fs DDD refID icd, fits s := by
  intro s hs
  simp only [response_pieces, List.mem_append, List.mem_singleton, List.mem_flatMap,
    List.mem_cons, List.not_mem_nil, or_false] at hs
  rcases hs with ((((rfl | hs) | rfl) | ⟨d, hdm, hs⟩) | rfl | rfl)
  · exact fits_literal _ (by decide)
  · exact AppendHeader_fits refID icd h1 h2 s hs
  · exact fits_literal _ (by decide)
  · exact overheightData_block_fits fs d (hd d hdm) s hs
  · exact fits_literal _ (by decide)
  · exact fits_literal _ (by decide)

/-- `Format_XML_Response` returns a message when both versions are strings, the buffer is
usable and the strings put into the message (the request's `refId`, the two versions and
the strings of the registered devices) have at most 1024 bytes each. -/
theorem Format_XML_Response_total {σ : Type} (w : World σ) (refID : Option (List Nat))
    (cur v : List Nat) (hcur : w.icdVersion = some cur) (hb : w.b.usable)
    (h1 : fits refID) (h2 : fits (some cur)) (h3 : fits (some v))
    (hd : ∀ d ∈ registered w.DDD, d.fits) :
    ∃ m w', Format_XML_Response w refID (some v) = .ok (some m, w') := by
  obtain ⟨b0, hc, hh, hlen⟩ := ClearBuffer_usable hb
  rw [Format_XML_Response_eq, hcur]
  simp only [mystrcasecmp_ptr, Res.bind_ok, hc]
  have hicd : fits (if mystrcasecmp cur v = true then some cur else some v) := by
    split
    · exact h2
    · exact h3
  obtain ⟨b3, h3'⟩ := AppendAll_total hh (fun s hs =>
    le_trans (response_pieces_fits w.fs w.DDD refID _ h1 hicd hd s hs).le hlen)
  rw [h3']
  simp only [Res.bind_ok]
  have := (AppendAll_holds h3' hh).1
  rw [FinishBuffer_holds this]
  exact ⟨_, _, rfl⟩

theorem event_pieces_fits (d : DEVICE) (timedate : Option Timestamp)
    (MyRefId icd : Option (List Nat)) (h1 : fits MyRefId) (h2 : fits icd) (hd : d.fits) :
    ∀ s ∈ event_pieces d timedate MyRefId icd, fits s := by
  intro s hs
  simp only [event_pieces, List.mem_append, List.mem_singleton] at hs
  rcases hs with (((rfl | hs) | hs) | hs) | rfl
  · exact fits_literal _ (by decide)
  · exact AppendHeader_fits MyRefId icd h1 h2 s hs
  · exact AppendId_fits d hd s hs
  · exact AppendOverheight_fits d _ hd s hs
  · exact fits_literal _ (by decide)

/-- `Format_One_Event_Message` returns a message when the buffer is usable and the strings
put into the message have at most 1024 bytes each. -/
theorem Format_One_Event_Message_total {σ : Type} (w : World σ) (d : DEVICE)
    (timedate : Option Timestamp) (hb : w.b.usable) (h1 : fits w.icdVersion) (hd : d.fits) :
    ∃ m w', Format_One_Event_Message w d timedate = .ok (some m, w') := by
  obtain ⟨b0, hc, hh, hlen⟩ := ClearBuffer_usable hb
  have hid : fits (some (snprintf 16 (fmt_d (wrap_int (w.myRefId + 1))))) := by
    constructor
    have : (snprintf 16 (fmt_d (wrap_int (w.myRefId + 1)))).length ≤ 15 := by
      unfold snprintf
      rw [List.length_take]
      exact Nat.min_le_left _ _
    simp only [Option.getD_some]
    omega
  obtain ⟨b1, h1'⟩ := AppendAll_total hh (fun s hs =>
    le_trans (event_pieces_fits d timedate _ w.icdVersion hid h1 hd s hs).le hlen)
  unfold Format_One_Event_Message
  dsimp only
  rw [hc]
  simp only [Res.bind_ok]
  unfold event_pieces at h1'
  rw [h1']
  simp only [Res.bind_ok]
  have := (AppendAll_holds h1' hh).1
  rw [FinishBuffer_holds this]
  exact ⟨_, _, rfl⟩

/-! ## The order of the children -/

theorem xml_list_setList (t : xml_element) (l : List xml_element) :
    (t.setList l).xml_list = l := by
  cases t; rfl

theorem setList_setList (t : xml_element) (l1 l2 : List xml_element) :
    (t.setList l1).setList l2 = t.setList l2 := by
  cases t; rfl

/-- The loop over the children puts the children it parses in front of the list, the one
parsed last first. -/
theorem parse_children_eq (fuel : Nat) (buffer : List Nat) (t : xml_element) :
    parse_children fuel buffer t =
      (children_in_document_order fuel buffer).bind (fun r =>
        .ok (r.1, t.setList ((r.2.map Prod.snd).reverse ++ t.xml_list))) := by
  induction fuel generalizing buffer t with
  | zero => rfl
  | succ fuel ih =>
    rw [parse_children, children_in_document_order]
    split
    · cases hpe : parse_xml_element fuel buffer new_child with
      | fault => rfl
      | nofuel => rfl
      | ok p =>
        obtain ⟨r, child⟩ := p
        cases r with
        | none =>
          simp only [Res.bind_ok, List.map_cons, List.map_nil, List.reverse_cons,
            List.reverse_nil, List.nil_append, List.singleton_append]
        | some b =>
          cases b with
          | nil =>
            simp only [Res.bind_ok, List.map_cons, List.map_nil, List.reverse_cons,
              List.reverse_nil, List.nil_append, List.singleton_append]
          | cons e b =>
            simp only [ih, Res.bind_assoc, Res.bind_ok, xml_list_setList, setList_setList,
              List.map_cons, List.reverse_cons, List.append_assoc, List.singleton_append]
    · cases t
      simp only [Res.bind_ok, List.map_nil, List.reverse_nil, List.nil_append,
        xml_element.setList, xml_element.xml_list]

/-- The children in document order start at ever later places of the text: the numbers of
bytes left at their starts decrease strictly, and none exceeds the length of the buffer. -/
theorem children_in_document_order_offsets (fuel : Nat) (buffer : List Nat)
    (r : Option (List Nat)) (kids : List (Nat × xml_element))
    (h : children_in_document_order fuel buffer = .ok (r, kids)) :
    List.Pairwise (fun p q => p.1 > q.1) kids ∧ ∀ p ∈ kids, p.1 ≤ buffer.length := by
  induction fuel generalizing buffer r kids with
  | zero => simp [children_in_document_order] at h
  | succ fuel ih =>
    rw [children_in_document_order] at h
    split at h
    · rename_i hcond
      split at h
      · rename_i e b child hpe
        obtain ⟨r1, h1, h2⟩ := Res.bind_eq_ok h
        simp only [Res.ok.injEq, Prod.mk.injEq] at h2
        obtain ⟨_, hk⟩ := h2
        obtain ⟨ihp, ihb⟩ := ih (e :: b) r1.1 r1.2 h1
        have hlen := ((parse_length fuel).1 _ _ _ _ hpe).2
        have h3 : List.dropWhile isspace buffer = buffer := by
          cases buffer with
          | nil => rfl
          | cons x rest =>
            simp only [List.head?_cons, Option.some.injEq] at hcond
            rw [hcond.1]
            simp [List.dropWhile_cons, isspace]
        rw [h3] at hlen
        have hlt := hlen hcond.1
        rw [← hk]
        constructor
        · rw [List.pairwise_cons]
          refine ⟨fun p hp => ?_, ihp⟩
          have := ihb p hp
          show buffer.length > p.1
          omega
        · intro p hp
          rw [List.mem_cons] at hp
          rcases hp with rfl | hp
          · exact le_refl _
          · have := ihb p hp
            omega
      · simp only [Res.ok.injEq, Prod.mk.injEq] at h
        rw [← h.2]
        simp
      · simp at h
      · simp at h
    · simp only [Res.ok.injEq, Prod.mk.injEq] at h
      rw [← h.2]
      simp

/-- C10 (amended): whenever the loop of `parse_xml_element` that builds a node's child list
returns, the children it has put in front of `xml_list` are listed in reverse document
order: taking the children in the order in which their start tags occur in the text
(`children_in_document_order`, each start later in the text than the one before), the list
exposed through `xml_list` and `next` is that sequence reversed. -/
theorem parse_children_reverse_document_order (fuel : Nat) (buffer : List Nat)
    (t t' : xml_element) (r : Option (List Nat))
    (h : parse_children fuel buffer t = .ok (r, t')) :
    ∃ kids, children_in_document_order fuel buffer = .ok (r, kids) ∧
      List.Pairwise (fun p q => p.1 > q.1) kids ∧
      t'.xml_list = (kids.map Prod.snd).reverse ++ t.xml_list := by
  rw [parse_children_eq] at h
  obtain ⟨p, hp, h⟩ := Res.bind_eq_ok h
  obtain ⟨r1, kids⟩ := p
  simp only [Res.ok.injEq, Prod.mk.injEq] at h
  obtain ⟨hr, ht⟩ := h
  subst hr
  refine ⟨kids, hp, (children_in_document_order_offsets fuel buffer _ kids hp).1, ?_⟩
  rw [← ht, xml_list_setList]

/-- C10 (amended) at the content of `<a><b>1</b><c>2</c></a>`: `b` starts 20 bytes before
the end of the text and `c` 12 bytes before it, and the list of `a` holds `c`, then `b`. -/
theorem parse_children_reverse_document_order_witness :
    parse_children 50 (bytes "<b>1</b><c>2</c></a>") (.mk (.str (bytes "a")) [] none) =
        .ok (some (bytes "</a>"), .mk (.str (bytes "a"))
          [.mk (.str (bytes "c")) [] (some (bytes "2")),
           .mk (.str (bytes "b")) [] (some (bytes "1"))] none) ∧
      ∃ kids, children_in_document_order 50 (bytes "<b>1</b><c>2</c></a>") =
          .ok (some (bytes "</a>"), kids) ∧
        List.Pairwise (fun p q => p.1 > q.1) kids ∧
        [xml_element.mk (.str (bytes "c")) [] (some (bytes "2")),
          xml_element.mk (.str (bytes "b")) [] (some (bytes "1"))] =
          (kids.map Prod.snd).reverse ++ [] :=
  ⟨by rfl,
    parse_children_reverse_document_order 50 (bytes "<b>1</b><c>2</c></a>")
      (.mk (.str (bytes "a")) [] none)
      (.mk (.str (bytes "a"))
        [.mk (.str (bytes "c")) [] (some (bytes "2")),
         .mk (.str (bytes "b")) [] (some (bytes "1"))] none)
      (some (bytes "</a>")) (by rfl)⟩

/-! ## The lookup in a child list: claim C11 -/

theorem mystrcasecmp_iff (s t : List Nat) :
    mystrcasecmp s t = true ↔ s.map tolower = t.map tolower := by
  induction s generalizing t with
  | nil => cases t <;> simp [mystrcasecmp]
  | cons a s ih =>
    cases t with
    | nil => simp [mystrcasecmp]
    | cons b t =>
      simp only [mystrcasecmp, List.map_cons, List.cons.injEq]
      by_cases hab : tolower a = tolower b
      · simp only [hab, if_true, true_and]
        exact ih t
      · simp [hab]

/-- The lookup on a child list whose elements all have their key assigned:
`search_xml_value` returns the value of the first element whose key equals the tag name
ignoring case; that value is none when the element is not a leaf, and the result is none
when no key matches. -/
theorem search_xml_value_first_match (l : List xml_element) (key : List Nat)
    (h : ∀ p ∈ l, ∃ k, p.key = .str k) :
    search_xml_value l key = .ok ((l.find? (key_is key)).bind xml_element.value) := by
  induction l with
  | nil => rfl
  | cons p rest ih =>
    obtain ⟨k, hk⟩ := h p (List.mem_cons_self _ _)
    have hrest := ih (fun q hq => h q (List.mem_cons_of_mem _ hq))
    simp only [search_xml_value, hk, List.find?_cons, key_is]
    by_cases hm : mystrcasecmp key k = true
    · have := (mystrcasecmp_iff key k).1 hm
      simp [hm, this]
    · have hne : ¬ key.map tolower = k.map tolower := fun e => hm ((mystrcasecmp_iff key k).2 e)
      simp only [hm, hne, decide_False]
      exact hrest

theorem search_xml_value_first_match_witness :
    (∀ p ∈ children_with_inner_node, ∃ k, p.key = .str k) ∧
    search_xml_value children_with_inner_node (bytes "RefId") = .ok (some (bytes "5")) ∧
    search_xml_value children_with_inner_node (bytes "icdversion") = .ok none ∧
    search_xml_value children_with_inner_node (bytes "data") = .ok none := by
  have h : ∀ p ∈ children_with_inner_node, ∃ k, p.key = .str k := by
    intro p hp
    simp only [children_with_inner_node, List.mem_cons, List.mem_singleton, List.not_mem_nil,
      or_false] at hp
    rcases hp with rfl | rfl | rfl <;> exact ⟨_, rfl⟩
  refine ⟨h, ?_, ?_, ?_⟩
  · rw [search_xml_value_first_match _ _ h]; rfl
  · rw [search_xml_value_first_match _ _ h]; rfl
  · rw [search_xml_value_first_match _ _ h]; rfl

/-! ## Malformed requests: claims C12 and C13 -/

set_option maxRecDepth 100000 in
/-- Claim C12, at a request cut off before its closing tag: `parse_xml_element` returns
`NULL`, and `Parse_XML_Message` still acts on the tree built so far and returns the full
response. -/
theorem Parse_XML_Message_answers_truncated_request :
    parse_xml_element (parse_fuel request_truncated) request_truncated new_root =
      .ok (none, root_scenario_B) ∧
    (Parse_XML_Message world_one_device request_truncated).message =
      some response_one_device := by
  constructor <;> rfl

set_option maxRecDepth 100000 in
/-- Claim C13, at requests that end inside a comment, inside a declaration and inside a
start tag: the `NULL` that `find_end_of_comment`, `find_end_of_declaration` or
`find_end_of_tag` returns is dereferenced, by `parse_xml_element` and so by
`Parse_XML_Message`. -/
theorem parse_xml_element_dereferences_NULL :
    find_end_of_comment request_open_comment = none ∧
    parse_xml_element (parse_fuel request_open_comment) request_open_comment new_root = .fault ∧
    Parse_XML_Message world_one_device request_open_comment = .fault ∧
    find_end_of_declaration request_open_declaration = none ∧
    parse_xml_element (parse_fuel request_open_declaration) request_open_declaration new_root
      = .fault ∧
    Parse_XML_Message world_one_device request_open_declaration = .fault ∧
    find_end_of_tag (request_open_tag.drop 1) = none ∧
    parse_xml_element (parse_fuel request_open_tag) request_open_tag new_root = .fault ∧
    Parse_XML_Message world_one_device request_open_tag = .fault := by
  refine ⟨?_, ?_, ?_, ?_, ?_, ?_, ?_, ?_, ?_⟩ <;> rfl

/-! ## The registry of devices -/

theorem same_name_iff (s t : List Nat) : same_name s t = true ↔ s.map tolower = t.map tolower := by
  simp [same_name]

theorem same_name_refl (s : List Nat) : same_name s s = true := by simp [same_name]

theorem same_name_symm {s t : List Nat} (h : same_name s t = true) : same_name t s = true := by
  rw [same_name_iff] at *
  exact h.symm

theorem same_name_trans {s t u : List Nat} (h1 : same_name s t = true)
    (h2 : same_name t u = true) : same_name s u = true := by
  rw [same_name_iff] at *
  exact h1.trans h2

theorem mystrcasecmp_eq_same_name (s t : List Nat) : mystrcasecmp s t = same_name s t := by
  rw [Bool.eq_iff_iff, mystrcasecmp_iff, same_name_iff]

/-- What the first loop of `search_device_array` returns on a registry whose devices all
have a name. -/
theorem search_device_array_find_eq (DDD : Fin MAX_DETECTORS → Option DEVICE) (name : List Nat)
    (hn : ∀ i d, DDD i = some d → ∃ n, d.name = some n) (l : List (Fin MAX_DETECTORS)) :
    search_device_array_find DDD name l =
      .ok (l.find? (fun i => match DDD i with
        | some d => same_name name (d.name.getD [])
        | none => false)) := by
  induction l with
  | nil => rfl
  | cons i rest ih =>
    simp only [search_device_array_find, List.find?_cons]
    cases hd : DDD i with
    | none => simpa using ih
    | some d =>
      obtain ⟨n, hdn⟩ := hn i d hd
      simp only [hdn, Option.getD_some, mystrcasecmp_eq_same_name]
      cases same_name name n <;> simp [ih]

/-- The three outcomes of `search_device_array` on a registry whose devices all have a
name: the device is found; it is made in the first empty slot; the registry is full. -/
theorem search_device_array_cases (DDD : Fin MAX_DETECTORS → Option DEVICE) (name : List Nat)
    (hn : ∀ i d, DDD i = some d → ∃ n, d.name = some n) :
    (∃ i d n, DDD i = some d ∧ d.name = some n ∧ same_name name n = true ∧
      search_device_array DDD name = .ok (some i, DDD)) ∨
    ((∀ i d n, DDD i = some d → d.name = some n → same_name name n = false) ∧
      ((∃ i, DDD i = none ∧
        search_device_array DDD name =
          .ok (some i, Function.update DDD i (some (new_device name)))) ∨
       ((∀ i, DDD i ≠ none) ∧ search_device_array DDD name = .ok (none, DDD)))) := by
  unfold search_device_array
  rw [search_device_array_find_eq DDD name hn]
  simp only [Res.bind_ok]
  cases hf : (List.finRange MAX_DETECTORS).find? (fun i => match DDD i with
        | some d => same_name name (d.name.getD [])
        | none => false) with
  | some i =>
    left
    have hp := List.find?_some hf
    cases hd : DDD i with
    | none => simp [hd] at hp
    | some d =>
      obtain ⟨n, hdn⟩ := hn i d hd
      simp only [hd, hdn, Option.getD_some] at hp
      exact ⟨i, d, n, hd, hdn, hp, rfl⟩
  | none =>
    right
    have hnone : ∀ i d n, DDD i = some d → d.name = some n → same_name name n = false := by
      intro i d n hd hdn
      have := List.find?_eq_none.1 hf i (List.mem_finRange i)
      simpa [hd, hdn] using this
    refine ⟨hnone, ?_⟩
    cases hg : (List.finRange MAX_DETECTORS).find? (fun i => (DDD i).isNone) with
    | some i =>
      left
      have hp := List.find?_some hg
      exact ⟨i, by simpa using hp, rfl⟩
    | none =>
      right
      refine ⟨fun i hi => ?_, rfl⟩
      have := List.find?_eq_none.1 hg i (List.mem_finRange i)
      simp [hi] at this


theorem define_key_device_name (d : DEVICE) (idx : Int) (v : List Nat) :
    (define_key_device d idx v).name = d.name := by
  unfold define_key_device
  split_ifs <;> rfl

theorem define_key_device_get (d : DEVICE) (v : List Nat) (f : Field) :
    f.get (define_key_device d f.index v) = f.decode v := by
  cases f <;> rfl

theorem define_key_device_other (d : DEVICE) (idx : Int) (v : List Nat) (f : Field)
    (h : idx ≠ f.index) : f.get (define_key_device d idx v) = f.get d := by
  unfold define_key_device
  split_ifs <;> cases f <;> first | rfl | exact absurd (by assumption) h

theorem define_key_global_DDD {σ : Type} (w : World σ) (idx : Int) (v : List Nat) :
    (define_key_global w idx v).DDD = w.DDD ∧
    (define_key_global w idx v).default_device = w.default_device ∧
    (define_key_global w idx v).Channel_Table = w.Channel_Table := by
  unfold define_key_global
  split_ifs <;> exact ⟨rfl, rfl, rfl⟩

theorem new_device_get (name : List Nat) (f : Field) : f.get (new_device name) = f.unset := by
  cases f <;> rfl

theorem assigned_snoc (P : List Assignment) (a : Assignment) (n : List Nat) (f : Field) :
    assigned (P ++ [a]) n f = if assigns n f a = true then some a.value else assigned P n f := by
  unfold assigned
  rw [List.filter_append]
  by_cases h : assigns n f a = true
  · simp [h, List.filter_cons]
  · simp [h, List.filter_cons]

theorem assigned_none_of_unnamed (P : List Assignment) (n : List Nat) (f : Field)
    (h : ∀ a ∈ P, ∀ m, a.device = some m → same_name m n = false) : assigned P n f = none := by
  unfold assigned
  have : P.filter (assigns n f) = [] := by
    rw [List.filter_eq_nil_iff]
    intro a ha
    unfold assigns
    cases hd : a.device with
    | none => simp
    | some m => simp [h a ha m hd]
  rw [this]
  rfl


/-- The three outcomes of `define_key_string` with a device name, on a registry whose
devices all have a name. -/
theorem define_key_string_cases {σ : Type} (w : World σ) (name : List Nat) (idx : Int)
    (v : List Nat) (hn : ∀ i d, w.DDD i = some d → ∃ n, d.name = some n) :
    (∃ i d n, w.DDD i = some d ∧ d.name = some n ∧ same_name name n = true ∧
      define_key_string w (some name) idx v = .ok (define_key_global
        { w with DDD := Function.update w.DDD i (some (define_key_device d idx v)) } idx v)) ∨
    ((∀ i d n, w.DDD i = some d → d.name = some n → same_name name n = false) ∧
      ((∃ i, w.DDD i = none ∧
        define_key_string w (some name) idx v = .ok (define_key_global
          { w with DDD := (Function.update w.DDD i
              (some (define_key_device (new_device name) idx v))) } idx v)) ∨
       ((∀ i, w.DDD i ≠ none) ∧ define_key_string w (some name) idx v = .ok w))) := by
  rcases search_device_array_cases w.DDD name hn with
    ⟨i, d, n, hd, hdn, hs, he⟩ | ⟨hno, ⟨i, hi, he⟩ | ⟨hfull, he⟩⟩
  · left
    refine ⟨i, d, n, hd, hdn, hs, ?_⟩
    unfold define_key_string
    simp only [he, Res.bind_ok, hd]
  · right
    refine ⟨hno, Or.inl ⟨i, hi, ?_⟩⟩
    unfold define_key_string
    simp only [he, Res.bind_ok, Function.update_same, Function.update_idem]
  · right
    refine ⟨hno, Or.inr ⟨hfull, ?_⟩⟩
    unfold define_key_string
    simp only [he, Res.bind_ok]

theorem registry_inv_names {P : List Assignment} {DDD : Fin MAX_DETECTORS → Option DEVICE}
    (h : registry_inv P DDD) : ∀ i d, DDD i = some d → ∃ n, d.name = some n := by
  intro i d hd
  obtain ⟨n, hn, _⟩ := h.named i d hd
  exact ⟨n, hn⟩

theorem assigns_same_name {n : List Nat} {f : Field} {a : Assignment}
    (h : assigns n f a = true) : ∃ m, a.device = some m ∧ same_name m n = true ∧
      a.string_index = f.index := by
  unfold assigns at h
  cases hd : a.device with
  | none => simp [hd] at h
  | some m =>
    simp only [hd, Bool.and_eq_true, decide_eq_true_eq] at h
    exact ⟨m, rfl, h.1, h.2⟩

/-- One line of the configuration file keeps `registry_inv`. -/
theorem define_key_string_inv {σ : Type} {w w' : World σ} {P : List Assignment}
    (a : Assignment) (hinv : registry_inv P w.DDD)
    (h : define_key_string w a.device a.string_index a.value = .ok w') :
    registry_inv (P ++ [a]) w'.DDD := by
  cases hdev : a.device with
  | none =>
    rw [hdev] at h
    unfold define_key_string at h
    simp only [Res.ok.injEq] at h
    have hD : w'.DDD = w.DDD := by rw [← h]; exact (define_key_global_DDD _ _ _).1
    rw [hD]
    have ha : ∀ n f, assigns n f a = false := by
      intro n f; unfold assigns; rw [hdev]
    refine ⟨?_, hinv.distinct, ?_⟩
    · intro i d hd
      obtain ⟨n, hn, hf⟩ := hinv.named i d hd
      refine ⟨n, hn, fun f => ?_⟩
      rw [assigned_snoc, ha n f]
      exact hf f
    · intro b hb n hbn
      rcases List.mem_append.1 hb with hb | hb
      · exact hinv.known b hb n hbn
      · rw [List.mem_singleton.1 hb, hdev] at hbn
        cases hbn
  | some name =>
    rw [hdev] at h
    have hsn : ∀ n f, assigns n f a = (same_name name n && decide (a.string_index = f.index)) := by
      intro n f; unfold assigns; rw [hdev]
    rcases define_key_string_cases w name a.string_index a.value (registry_inv_names hinv) with
      ⟨i, d, n, hd, hdn, hs, he⟩ | ⟨hno, ⟨i, hi, he⟩ | ⟨hfull, he⟩⟩
    · -- the device is found in slot i
      rw [he] at h
      simp only [Res.ok.injEq] at h
      have hD : w'.DDD = Function.update w.DDD i
          (some (define_key_device d a.string_index a.value)) := by
        rw [← h]; exact (define_key_global_DDD _ _ _).1
      rw [hD]
      refine ⟨?_, ?_, ?_⟩
      · intro j e hj
        by_cases hji : j = i
        · subst hji
          rw [Function.update_same] at hj
          cases hj
          obtain ⟨n0, hn0, hf⟩ := hinv.named j d hd
          rw [hdn] at hn0
          cases hn0
          refine ⟨n, by rw [define_key_device_name]; exact hdn, fun f => ?_⟩
          rw [assigned_snoc, hsn, hs]
          by_cases hidx : a.string_index = f.index
          · simp only [hidx, decide_True, Bool.and_self, if_true]
            exact define_key_device_get d a.value f
          · simp only [hidx, decide_False, Bool.and_false, Bool.false_eq_true, if_false]
            rw [define_key_device_other d _ _ f hidx]
            exact hf f
        · rw [Function.update_noteq hji] at hj
          obtain ⟨m, hm, hf⟩ := hinv.named j e hj
          refine ⟨m, hm, fun f => ?_⟩
          rw [assigned_snoc, hsn]
          have : same_name name m = false := by
            cases hnm : same_name name m with
            | false => rfl
            | true =>
              exact absurd (hinv.distinct j i e d m n hj hd hm hdn
                (same_name_trans (same_name_symm hnm) hs)) hji
          simp only [this, Bool.false_and, Bool.false_eq_true, if_false]
          exact hf f
      · intro j k e1 e2 n1 n2 hj hk hn1 hn2 hs12
        have key : ∀ (j : Fin MAX_DETECTORS) (e : DEVICE) (m : List Nat),
            Function.update w.DDD i (some (define_key_device d a.string_index a.value)) j
              = some e → e.name = some m → ∃ e0, w.DDD j = some e0 ∧ e0.name = some m := by
          intro j e m hj hm
          by_cases hji : j = i
          · subst hji
            rw [Function.update_same] at hj
            cases hj
            rw [define_key_device_name] at hm
            exact ⟨d, hd, hm⟩
          · rw [Function.update_noteq hji] at hj
            exact ⟨e, hj, hm⟩
        obtain ⟨f1, hf1, hf1n⟩ := key j e1 n1 hj hn1
        obtain ⟨f2, hf2, hf2n⟩ := key k e2 n2 hk hn2
        exact hinv.distinct j k f1 f2 n1 n2 hf1 hf2 hf1n hf2n hs12
      · intro b hb m hbm
        have keep : ∀ (j : Fin MAX_DETECTORS) (e : DEVICE) (m0 : List Nat),
            w.DDD j = some e → e.name = some m0 →
            ∃ e1, Function.update w.DDD i (some (define_key_device d a.string_index a.value)) j
              = some e1 ∧ e1.name = some m0 := by
          intro j e m0 hj hm0
          by_cases hji : j = i
          · subst hji
            rw [hd] at hj
            cases hj
            exact ⟨_, Function.update_same _ _ _, by rw [define_key_device_name]; exact hm0⟩
          · exact ⟨e, by rw [Function.update_noteq hji]; exact hj, hm0⟩
        rcases List.mem_append.1 hb with hb | hb
        · rcases hinv.known b hb m hbm with ⟨j, e, m0, hj, hm0, hs0⟩ | hfull
          · obtain ⟨e1, he1, he1n⟩ := keep j e m0 hj hm0
            exact Or.inl ⟨j, e1, m0, he1, he1n, hs0⟩
          · right
            intro j
            by_cases hji : j = i
            · subst hji
              rw [Function.update_same]
              exact Option.some_ne_none _
            · rw [Function.update_noteq hji]
              exact hfull j
        · rw [List.mem_singleton.1 hb, hdev] at hbm
          cases hbm
          obtain ⟨e1, he1, he1n⟩ := keep i d n hd hdn
          exact Or.inl ⟨i, e1, n, he1, he1n, same_name_symm hs⟩
    · -- the device is made in the empty slot i
      rw [he] at h
      simp only [Res.ok.injEq] at h
      have hD : w'.DDD = Function.update w.DDD i
          (some (define_key_device (new_device name) a.string_index a.value)) := by
        rw [← h]; exact (define_key_global_DDD _ _ _).1
      rw [hD]
      have hfresh : ∀ b ∈ P, ∀ m, b.device = some m → same_name m name = false := by
        intro b hb m hbm
        cases hmn : same_name m name with
        | false => rfl
        | true =>
          rcases hinv.known b hb m hbm with ⟨j, e, m0, hj, hm0, hs0⟩ | hfull
          · have := hno j e m0 hj hm0
            rw [same_name_symm (same_name_trans hs0 hmn)] at this
            cases this
          · exact absurd hi (hfull i)
      refine ⟨?_, ?_, ?_⟩
      · intro j e hj
        by_cases hji : j = i
        · subst hji
          rw [Function.update_same] at hj
          cases hj
          refine ⟨name, by rw [define_key_device_name]; rfl, fun f => ?_⟩
          rw [assigned_snoc, hsn, same_name_refl]
          by_cases hidx : a.string_index = f.index
          · simp only [hidx, decide_True, Bool.and_self, if_true]
            exact define_key_device_get _ a.value f
          · simp only [hidx, decide_False, Bool.and_false, Bool.false_eq_true, if_false]
            rw [define_key_device_other _ _ _ f hidx, new_device_get,
              assigned_none_of_unnamed P name f hfresh]
        · rw [Function.update_noteq hji] at hj
          obtain ⟨m, hm, hf⟩ := hinv.named j e hj
          refine ⟨m, hm, fun f => ?_⟩
          rw [assigned_snoc, hsn, hno j e m hj hm]
          simp only [Bool.false_and, Bool.false_eq_true, if_false]
          exact hf f
      · intro j k e1 e2 n1 n2 hj hk hn1 hn2 hs12
        by_cases hji : j = i <;> by_cases hki : k = i
        · rw [hji, hki]
        · subst hji
          rw [Function.update_same] at hj
          cases hj
          rw [Function.update_noteq hki] at hk
          rw [define_key_device_name] at hn1
          cases hn1
          have := hno k e2 n2 hk hn2
          rw [hs12] at this
          cases this
        · subst hki
          rw [Function.update_same] at hk
          cases hk
          rw [Function.update_noteq hji] at hj
          rw [define_key_device_name] at hn2
          cases hn2
          have := hno j e1 n1 hj hn1
          rw [same_name_symm hs12] at this
          cases this
        · rw [Function.update_noteq hji] at hj
          rw [Function.update_noteq hki] at hk
          exact hinv.distinct j k e1 e2 n1 n2 hj hk hn1 hn2 hs12
      · intro b hb m hbm
        rcases List.mem_append.1 hb with hb | hb
        · rcases hinv.known b hb m hbm with ⟨j, e, m0, hj, hm0, hs0⟩ | hfull
          · have hji : j ≠ i := by
              intro hji
              rw [hji, hi] at hj
              cases hj
            exact Or.inl ⟨j, e, m0, by rw [Function.update_noteq hji]; exact hj, hm0, hs0⟩
          · exact absurd hi (hfull i)
        · rw [List.mem_singleton.1 hb, hdev] at hbm
          cases hbm
          exact Or.inl ⟨i, _, name, Function.update_same _ _ _,
            by rw [define_key_device_name]; rfl, same_name_refl _⟩
    · -- the registry is full
      rw [he] at h
      simp only [Res.ok.injEq] at h
      rw [← h]
      refine ⟨?_, hinv.distinct, ?_⟩
      · intro j e hj
        obtain ⟨m, hm, hf⟩ := hinv.named j e hj
        refine ⟨m, hm, fun f => ?_⟩
        rw [assigned_snoc, hsn, hno j e m hj hm]
        simp only [Bool.false_and, Bool.false_eq_true, if_false]
        exact hf f
      · intro b hb m hbm
        rcases List.mem_append.1 hb with hb | hb
        · exact hinv.known b hb m hbm
        · exact Or.inr hfull


theorem registry_inv_empty : registry_inv [] (fun _ => none) :=
  ⟨fun _ _ h => (by cases h), fun _ _ _ _ _ _ h => (by cases h), fun _ h => (by cases h)⟩

/-- The lines of a configuration file keep `registry_inv`. -/
theorem define_all_inv {σ : Type} (rest : List Assignment) :
    ∀ (P : List Assignment) (w w' : World σ), registry_inv P w.DDD →
      define_all w rest = .ok w' → registry_inv (P ++ rest) w'.DDD := by
  induction rest with
  | nil =>
    intro P w w' hinv h
    simp only [define_all, Res.ok.injEq] at h
    rw [← h, List.append_nil]
    exact hinv
  | cons a rest ih =>
    intro P w w' hinv h
    simp only [define_all] at h
    obtain ⟨w1, h1, h2⟩ := Res.bind_eq_ok h
    have := ih (P ++ [a]) w1 w' (define_key_string_inv a hinv h1) h2
    simpa using this

/-- A line of the configuration file is processed without fault on a registry whose
devices all have a name. -/
theorem define_key_string_total {σ : Type} (w : World σ) (a : Assignment)
    (hn : ∀ i d, w.DDD i = some d → ∃ n, d.name = some n) :
    ∃ w', define_key_string w a.device a.string_index a.value = .ok w' := by
  cases hdev : a.device with
  | none => exact ⟨_, rfl⟩
  | some name =>
    rcases define_key_string_cases w name a.string_index a.value hn with
      ⟨i, d, n, hd, hdn, hs, he⟩ | ⟨hno, ⟨i, hi, he⟩ | ⟨hfull, he⟩⟩
    · exact ⟨_, he⟩
    · exact ⟨_, he⟩
    · exact ⟨_, he⟩

/-- The lines of a configuration file are processed without fault. -/
theorem define_all_total {σ : Type} (rest : List Assignment) :
    ∀ (P : List Assignment) (w : World σ), registry_inv P w.DDD →
      ∃ w', define_all w rest = .ok w' := by
  induction rest with
  | nil => exact fun P w _ => ⟨w, rfl⟩
  | cons a rest ih =>
    intro P w hinv
    obtain ⟨w1, h1⟩ := define_key_string_total w a (registry_inv_names hinv)
    obtain ⟨w', h2⟩ := ih (P ++ [a]) w1 (define_key_string_inv a hinv h1)
    refine ⟨w', ?_⟩
    simp only [define_all, h1, Res.bind_ok, h2]

theorem define_key_string_default_device {σ : Type} {w w' : World σ} {name : List Nat}
    {idx : Int} {v : List Nat} (h : define_key_string w (some name) idx v = .ok w') :
    w'.default_device = w.default_device := by
  unfold define_key_string at h
  obtain ⟨r, -, h⟩ := Res.bind_eq_ok h
  split at h
  · simp only [Res.ok.injEq] at h
    rw [← h]
  · split at h
    · cases h
    · simp only [Res.ok.injEq] at h
      rw [← h]
      exact (define_key_global_DDD _ _ _).2.1

/-- The step that makes sure there is a device: what it returns. -/
theorem Read_Config_File_ensure_eq {σ : Type} (w : World σ) :
    ((∃ i, w.DDD i ≠ none) ∧ Read_Config_File_ensure w = .ok w) ∨
    ((∀ i, w.DDD i = none) ∧ Read_Config_File_ensure w =
      .ok { w with DDD := (Function.update w.DDD 0
        (some (new_device (bytes "default device")))) }) := by
  unfold Read_Config_File_ensure
  by_cases h : ∀ i, w.DDD i = none
  · right
    refine ⟨h, ?_⟩
    rw [if_pos h]
    have hD : w.DDD = fun _ => none := funext h
    rw [hD]
    rfl
  · left
    rw [if_neg h]
    push_neg at h
    exact ⟨h, rfl⟩

/-- The step that makes sure there is a device keeps `registry_inv`. -/
theorem Read_Config_File_ensure_inv {σ : Type} {w w' : World σ} {P : List Assignment}
    (hinv : registry_inv P w.DDD) (h : Read_Config_File_ensure w = .ok w') :
    registry_inv P w'.DDD ∧ w'.default_device = w.default_device := by
  rcases Read_Config_File_ensure_eq w with ⟨-, he⟩ | ⟨hall, he⟩
  · rw [he] at h
    simp only [Res.ok.injEq] at h
    rw [← h]
    exact ⟨hinv, rfl⟩
  · rw [he] at h
    simp only [Res.ok.injEq] at h
    rw [← h]
    refine ⟨⟨?_, ?_, ?_⟩, rfl⟩
    · intro j e hj
      by_cases hj0 : j = 0
      · subst hj0
        simp only [Function.update_same, Option.some.injEq] at hj
        subst hj
        refine ⟨_, rfl, fun f => ?_⟩
        rw [new_device_get, assigned_none_of_unnamed]
        intro b hb m hbm
        rcases hinv.known b hb m hbm with ⟨k, e, _, hk, -, -⟩ | hfull
        · rw [hall k] at hk
          cases hk
        · exact absurd (hall 0) (hfull 0)
      · simp only [Function.update_noteq hj0, hall j] at hj
        cases hj
    · intro j k e1 e2 n1 n2 hj hk _ _ _
      by_cases hj0 : j = 0 <;> by_cases hk0 : k = 0
      · rw [hj0, hk0]
      · simp only [Function.update_noteq hk0, hall k] at hk
        cases hk
      · simp only [Function.update_noteq hj0, hall j] at hj
        cases hj
      · simp only [Function.update_noteq hj0, hall j] at hj
        cases hj
    · intro b hb m hbm
      rcases hinv.known b hb m hbm with ⟨k, e, _, hk, -, -⟩ | hfull
      · rw [hall k] at hk
        cases hk
      · exact absurd (hall 0) (hfull 0)


/-! ## The finalize step -/

theorem fill_device_name (def_dev d : DEVICE) : (fill_device def_dev d).name = d.name := rfl

theorem fill_device_get (def_dev d : DEVICE) (f : Field) :
    f.get (fill_device def_dev d) = if f.get d = f.unset then f.get def_dev else f.get d := by
  cases f <;> simp only [Field.get, Field.unset, fill_device, FieldValue.text.injEq,
    FieldValue.channel.injEq, FieldValue.status.injEq] <;> split_ifs <;> rfl

theorem fill_device_idem (def_dev d : DEVICE) :
    fill_device def_dev (fill_device def_dev d) = fill_device def_dev d := by
  unfold fill_device
  simp only [detector_device_descriptor.mk.injEq, true_and]
  refine ⟨?_, ?_, ?_, ?_, ?_, ?_, ?_, ?_, ?_⟩ <;> split_ifs <;> simp_all

theorem channel_slot_eq_some {c : Int} {e : Fin MAX_CHANNELS} (h : channel_slot c = some e) :
    ((e : Nat) : Int) = c := by
  unfold channel_slot at h
  split_ifs at h with hc
  simp only [Option.some.injEq] at h
  rw [← h]
  simp only []
  omega

theorem channel_slot_isSome {c : Int} (h : 0 ≤ c ∧ c < MAX_CHANNELS) :
    ∃ e, channel_slot c = some e := by
  unfold channel_slot
  rw [dif_pos h]
  exact ⟨_, rfl⟩

/-- The device in each slot once its unset fields are filled. -/
theorem Read_Config_File_device_eq {σ : Type} {w w1 : World σ} {i : Fin MAX_DETECTORS}
    (h : Read_Config_File_device w i = .ok w1) :
    w1.default_device = w.default_device ∧
    w1.DDD = Function.update w.DDD i ((w.DDD i).map (fill_device w.default_device)) ∧
    ∀ c, w1.Channel_Table c =
      if uses_channel (fun j => (w.DDD j).map (fill_device w.default_device)) c i = true
      then some i else w.Channel_Table c := by
  unfold Read_Config_File_device at h
  cases hd : w.DDD i with
  | none =>
    rw [hd] at h
    simp only [Res.ok.injEq] at h
    subst h
    refine ⟨rfl, ?_, fun c => ?_⟩
    · rw [Option.map_none', ← hd, Function.update_eq_self]
    · simp [uses_channel, hd]
  | some d =>
    rw [hd] at h
    dsimp only at h
    cases he : channel_slot (fill_device w.default_device d).event_channel with
    | none => rw [he] at h; cases h
    | some e =>
      cases hf : channel_slot (fill_device w.default_device d).fault_channel with
      | none => rw [he, hf] at h; cases h
      | some f =>
        rw [he, hf] at h
        simp only [Res.ok.injEq] at h
        subst h
        refine ⟨rfl, rfl, fun c => ?_⟩
        have hev := channel_slot_eq_some he
        have hfv := channel_slot_eq_some hf
        simp only [uses_channel, hd, Option.map_some', decide_eq_true_eq]
        by_cases hcf : c = f
        · subst hcf
          rw [Function.update_same, if_pos (Or.inr hfv.symm)]
        · rw [Function.update_noteq hcf]
          by_cases hce : c = e
          · subst hce
            rw [Function.update_same, if_pos (Or.inl hev.symm)]
          · rw [Function.update_noteq hce, if_neg]
            rintro (h1 | h1)
            · apply hce
              apply Fin.ext
              have : ((e : Nat) : Int) = ((c : Nat) : Int) := by rw [hev, h1]
              exact_mod_cast this.symm
            · apply hcf
              apply Fin.ext
              have : ((f : Nat) : Int) = ((c : Nat) : Int) := by rw [hfv, h1]
              exact_mod_cast this.symm

theorem find_agree {α : Type} (p q : α → Bool) (l : List α) (h : ∀ x ∈ l, p x = q x) :
    l.find? p = l.find? q := by
  induction l with
  | nil => rfl
  | cons a l ih =>
    simp only [List.find?_cons, h a (List.mem_cons_self _ _)]
    rw [ih (fun x hx => h x (List.mem_cons_of_mem _ hx))]

/-- The last loop of `Read_Config_File` over distinct slots: every slot listed has its
device filled, and each channel is left with the last slot listed whose device uses it. -/
theorem Read_Config_File_devices_eq {σ : Type} (l : List (Fin MAX_DETECTORS)) :
    ∀ (w w' : World σ), l.Nodup → Read_Config_File_devices w l = .ok w' →
      w'.default_device = w.default_device ∧
      (∀ i, w'.DDD i =
        if i ∈ l then (w.DDD i).map (fill_device w.default_device) else w.DDD i) ∧
      ∀ c, w'.Channel_Table c =
        match l.reverse.find?
          (uses_channel (fun j => (w.DDD j).map (fill_device w.default_device)) c) with
        | some i => some i
        | none => w.Channel_Table c := by
  induction l with
  | nil =>
    intro w w' _ h
    simp only [Read_Config_File_devices, Res.ok.injEq] at h
    subst h
    exact ⟨rfl, fun i => by simp, fun c => rfl⟩
  | cons i rest ih =>
    intro w w' hnd h
    simp only [Read_Config_File_devices] at h
    obtain ⟨w1, h1, h2⟩ := Res.bind_eq_ok h
    obtain ⟨hdef1, hD1, hC1⟩ := Read_Config_File_device_eq h1
    have hnd' := List.nodup_cons.1 hnd
    obtain ⟨hdef, hD, hC⟩ := ih w1 w' hnd'.2 h2
    have hother : ∀ j ∈ rest, w1.DDD j = w.DDD j := by
      intro j hj
      rw [hD1, Function.update_noteq]
      rintro rfl
      exact hnd'.1 hj
    refine ⟨hdef.trans hdef1, fun j => ?_, fun c => ?_⟩
    · rw [hD j]
      by_cases hjr : j ∈ rest
      · rw [if_pos hjr, if_pos (List.mem_cons_of_mem _ hjr), hother j hjr, hdef1]
      · rw [if_neg hjr, hD1]
        by_cases hji : j = i
        · subst hji
          rw [Function.update_same, if_pos (List.mem_cons_self _ _)]
        · rw [Function.update_noteq hji, if_neg]
          simp only [List.mem_cons, not_or]
          exact ⟨hji, hjr⟩
    · rw [hC c, List.reverse_cons, List.find?_append]
      have hag : rest.reverse.find?
            (uses_channel (fun j => (w1.DDD j).map (fill_device w1.default_device)) c) =
          rest.reverse.find?
            (uses_channel (fun j => (w.DDD j).map (fill_device w.default_device)) c) := by
        apply find_agree
        intro j hj
        have hj' : j ∈ rest := List.mem_reverse.1 hj
        simp only [uses_channel, hother j hj', hdef1]
      rw [hag]
      cases hfind : rest.reverse.find?
          (uses_channel (fun j => (w.DDD j).map (fill_device w.default_device)) c) with
      | some k => rfl
      | none =>
        simp only [Option.none_or, List.find?_cons, List.find?_nil]
        rw [hC1 c]
        cases uses_channel (fun j => (w.DDD j).map (fill_device w.default_device)) c i <;> rfl

/-- The finalize step returns when the channels of every device are inside
`Channel_Table`. -/
theorem Read_Config_File_devices_total {σ : Type} (l : List (Fin MAX_DETECTORS)) :
    ∀ (w : World σ), channels_in_range w → ∃ w', Read_Config_File_devices w l = .ok w' := by
  induction l with
  | nil => exact fun w _ => ⟨w, rfl⟩
  | cons i rest ih =>
    intro w hr
    have h1 : ∃ w1, Read_Config_File_device w i = .ok w1 := by
      unfold Read_Config_File_device
      cases hd : w.DDD i with
      | none => exact ⟨w, rfl⟩
      | some d =>
        obtain ⟨e, he⟩ := channel_slot_isSome (hr i d hd).1
        obtain ⟨f, hf⟩ := channel_slot_isSome (hr i d hd).2
        dsimp only
        rw [he, hf]
        exact ⟨_, rfl⟩
    obtain ⟨w1, h1⟩ := h1
    obtain ⟨hdef1, hD1, -⟩ := Read_Config_File_device_eq h1
    have hr1 : channels_in_range w1 := by
      intro j d hj
      rw [hdef1]
      rw [hD1] at hj
      by_cases hji : j = i
      · subst hji
        rw [Function.update_same] at hj
        cases hd : w.DDD j with
        | none => rw [hd] at hj; cases hj
        | some d0 =>
          rw [hd, Option.map_some', Option.some.injEq] at hj
          rw [← hj, fill_device_idem]
          exact hr j d0 hd
      · rw [Function.update_noteq hji] at hj
        exact hr j d hj
    obtain ⟨w', h2⟩ := ih w1 hr1
    exact ⟨w', by simp only [Read_Config_File_devices, h1, Res.bind_ok, h2]⟩

/-! ## The configuration: claims C14 to C17 -/

theorem registered_length (DDD : Fin MAX_DETECTORS → Option DEVICE) :
    (registered DDD).length ≤ MAX_DETECTORS := by
  unfold registered
  exact (List.length_filterMap_le _ _).trans (by simp)

theorem decode_channel_number_range (v : List Nat) :
    0 ≤ decode_channel_number v ∧ decode_channel_number v < MAX_CHANNELS := by
  unfold decode_channel_number
  simp only [MAX_CHANNELS, Nat.cast_ofNat]
  split_ifs <;> omega

theorem decode_eq_unset (f : Field) (v : List Nat) :
    f.decode v = f.unset ↔ f.decode v = .status .ST_ERROR := by
  have := decode_channel_number_range v
  cases f <;> simp [Field.decode, Field.unset] <;> omega

/-- Claim C14. When the registry holds four devices whose names all differ, ignoring case,
from `name`, `search_device_array` returns no device and leaves the registry as it is, and
`define_key_string` with that name returns the state unchanged, whatever the key: the four
devices, `default_device` and the global settings are as before. Whatever assignments
follow, the registry holds at most 4 devices. -/
theorem define_key_string_rejects_fifth_device {σ : Type} (w : World σ)
    (name : List Nat) (string_index : Int) (value : List Nat)
    (hfull : ∀ i, ∃ d n, w.DDD i = some d ∧ d.name = some n ∧
      name.map tolower ≠ n.map tolower) :
    search_device_array w.DDD name = .ok (none, w.DDD) ∧
    define_key_string w (some name) string_index value = .ok w ∧
    ∀ lines w', define_all w lines = .ok w' → (registered w'.DDD).length ≤ MAX_DETECTORS := by
  have hn : ∀ i d, w.DDD i = some d → ∃ n, d.name = some n := by
    intro i d hd
    obtain ⟨d0, n, h0, hn0, -⟩ := hfull i
    rw [hd] at h0
    cases h0
    exact ⟨n, hn0⟩
  refine ⟨?_, ?_, fun _ _ _ => registered_length _⟩
  · rcases search_device_array_cases w.DDD name hn with
      ⟨i, d, n, hd, hdn, hs, -⟩ | ⟨-, ⟨i, hi, -⟩ | ⟨-, he⟩⟩
    · obtain ⟨d0, n0, h0, hn0, hne⟩ := hfull i
      rw [hd] at h0
      cases h0
      rw [hdn] at hn0
      cases hn0
      exact absurd ((same_name_iff _ _).1 hs) hne
    · obtain ⟨d0, n0, h0, -, -⟩ := hfull i
      rw [hi] at h0
      cases h0
    · exact he
  · rcases define_key_string_cases w name string_index value hn with
      ⟨i, d, n, hd, hdn, hs, -⟩ | ⟨-, ⟨i, hi, -⟩ | ⟨-, he⟩⟩
    · obtain ⟨d0, n0, h0, hn0, hne⟩ := hfull i
      rw [hd] at h0
      cases h0
      rw [hdn] at hn0
      cases hn0
      exact absurd ((same_name_iff _ _).1 hs) hne
    · obtain ⟨d0, n0, h0, -, -⟩ := hfull i
      rw [hi] at h0
      cases h0
    · exact he

/-- Claim C14 at a full registry (`north`, `south`, `east`, `west`) and the assignment
`up.PortName = /dev/ttyS1`. -/
theorem define_key_string_rejects_fifth_device_witness :
    (∀ i, ∃ d n, world_four_devices.DDD i = some d ∧ d.name = some n ∧
      (bytes "up").map tolower ≠ n.map tolower) ∧
    (search_device_array world_four_devices.DDD (bytes "up") =
        .ok (none, world_four_devices.DDD) ∧
      define_key_string world_four_devices (some (bytes "up")) 8 (bytes "/dev/ttyS1") =
        .ok world_four_devices ∧
      ∀ lines w', define_all world_four_devices lines = .ok w' →
        (registered w'.DDD).length ≤ MAX_DETECTORS) := by
  have hfull : ∀ i, ∃ d n, world_four_devices.DDD i = some d ∧ d.name = some n ∧
      (bytes "up").map tolower ≠ n.map tolower := by
    intro i
    fin_cases i <;> exact ⟨_, _, rfl, rfl, by decide⟩
  exact ⟨hfull,
    define_key_string_rejects_fifth_device world_four_devices (bytes "up") 8
      (bytes "/dev/ttyS1") hfull⟩

/-- What `Read_Config_File` leaves in the registry: every device has a name and holds, in
each field, the decoded value last assigned to it when that value is not the unset value,
and the value of `default_device` otherwise. -/
theorem Read_Config_File_registry {σ : Type} {w w' : World σ} {lines : List Assignment}
    (h : Read_Config_File w lines = .ok w') (i : Fin MAX_DETECTORS) (d : DEVICE)
    (hd : w'.DDD i = some d) :
    ∃ n, d.name = some n ∧ ∀ f : Field,
      f.get d = match assigned lines n f with
        | some v => if f.decode v = f.unset then f.get w'.default_device else f.decode v
        | none => f.get w'.default_device := by
  unfold Read_Config_File at h
  obtain ⟨w1, h1, h⟩ := Res.bind_eq_ok h
  obtain ⟨w2, h2, h3⟩ := Res.bind_eq_ok h
  have inv1 := define_all_inv lines [] _ w1 registry_inv_empty h1
  rw [List.nil_append] at inv1
  obtain ⟨inv2, -⟩ := Read_Config_File_ensure_inv inv1 h2
  unfold Read_Config_File_finalize at h3
  obtain ⟨hdef, hD, -⟩ := Read_Config_File_devices_eq _ _ _ (List.nodup_finRange _) h3
  have hDi := hD i
  rw [if_pos (List.mem_finRange i), hd] at hDi
  cases hd2 : w2.DDD i with
  | none =>
    simp only [hd2, Option.map_none'] at hDi
    cases hDi
  | some d2 =>
    simp only [hd2, Option.map_some', Option.some.injEq] at hDi
    obtain ⟨n, hn, hf⟩ := inv2.named i d2 hd2
    refine ⟨n, by rw [hDi, fill_device_name]; exact hn, fun f => ?_⟩
    rw [hDi, fill_device_get, hf f, hdef]
    cases assigned lines n f with
    | none => simp
    | some v => rfl

/-- Claim C15 as it stands, at the lines `opStatus = Active`, `EventChannel = 0`,
`FaultChannel = 1`, `d1.opStatus = Error`, `D1.id = ID1`: the status explicitly assigned to
`d1` decodes to `ST_ERROR`, and after `Read_Config_File` the device holds the status of the
template, `ST_ACTIVE`, instead. -/
theorem Read_Config_File_replaces_assigned_Error :
    assigned lines_status_Error (bytes "d1") .status = some (bytes "Error") ∧
    Field.decode .status (bytes "Error") = .status .ST_ERROR ∧
    ((Read_Config_File world_empty_registry lines_status_Error).result.bind
      (fun w => w.DDD 0)).map (Field.get .status) = some (.status .ST_ACTIVE) ∧
    (Read_Config_File world_empty_registry lines_status_Error).result.map
      (fun w => Field.get .status w.default_device) = some (.status .ST_ACTIVE) := by
  refine ⟨?_, ?_, ?_, ?_⟩ <;> rfl

/-- Claim C15, amended. After `Read_Config_File`, every device of the registry has a name,
and for each of the nine fields: when the lines assign the field to that device (by its
name ignoring case) and the decoded value of the last such assignment is not the status
`ST_ERROR`, the device holds that decoded value; when no line assigns it, or the value
assigned decodes to the status `ST_ERROR`, the device holds the value of
`default_device`. -/
theorem Read_Config_File_fields {σ : Type} (w w' : World σ) (lines : List Assignment)
    (h : Read_Config_File w lines = .ok w') (i : Fin MAX_DETECTORS) (d : DEVICE)
    (hd : w'.DDD i = some d) :
    ∃ n, d.name = some n ∧ ∀ f : Field,
      f.get d = match assigned lines n f with
        | some v =>
          if f.decode v = .status .ST_ERROR then f.get w'.default_device else f.decode v
        | none => f.get w'.default_device := by
  obtain ⟨n, hn, hf⟩ := Read_Config_File_registry h i d hd
  refine ⟨n, hn, fun f => ?_⟩
  rw [hf f]
  cases assigned lines n f with
  | none => rfl
  | some v =>
    show (if f.decode v = f.unset then _ else _) = (if f.decode v = _ then _ else _)
    by_cases hv : f.decode v = .status .ST_ERROR
    · rw [if_pos hv, if_pos ((decode_eq_unset f v).2 hv)]
    · rw [if_neg hv, if_neg (mt (decode_eq_unset f v).1 hv)]

/-- Claim C15, amended, at the lines of `lines_status_Error` and the device in slot 0. -/
theorem Read_Config_File_fields_witness :
    ∃ w' d, Read_Config_File world_empty_registry lines_status_Error = .ok w' ∧
      w'.DDD 0 = some d ∧
      ∃ n, d.name = some n ∧ ∀ f : Field,
        f.get d = match assigned lines_status_Error n f with
          | some v =>
            if f.decode v = .status .ST_ERROR then f.get w'.default_device else f.decode v
          | none => f.get w'.default_device :=
  ⟨_, _, rfl, rfl,
    Read_Config_File_fields world_empty_registry _ lines_status_Error rfl 0 _ rfl⟩

/-- Claim C16. When the channels of every device, once filled from `default_device`, are
in 0..7, the finalize step returns, every device is the filled one, and each slot `c` of
`Channel_Table` holds the highest slot of the registry whose device has `c` as event or
fault channel, and is empty when no device uses `c`. -/
theorem Channel_Table_last_user {σ : Type} (w : World σ) (h : channels_in_range w) :
    ∃ w', Read_Config_File_finalize w = .ok w' ∧
      (∀ i, w'.DDD i = (w.DDD i).map (fill_device w.default_device)) ∧
      ∀ c, w'.Channel_Table c = last_user w'.DDD c := by
  obtain ⟨w', hw'⟩ := Read_Config_File_devices_total (List.finRange MAX_DETECTORS)
    { w with Channel_Table := fun _ => none } h
  obtain ⟨-, hD, hC⟩ := Read_Config_File_devices_eq _ _ _ (List.nodup_finRange _) hw'
  have hD' : ∀ i, w'.DDD i = (w.DDD i).map (fill_device w.default_device) := by
    intro i
    rw [hD i, if_pos (List.mem_finRange i)]
  refine ⟨w', hw', hD', fun c => ?_⟩
  rw [hC c]
  unfold last_user
  have : w'.DDD = fun j => (w.DDD j).map (fill_device w.default_device) := funext hD'
  rw [this]
  cases (List.finRange MAX_DETECTORS).reverse.find?
    (uses_channel (fun j => (w.DDD j).map (fill_device w.default_device)) c) <;> rfl

/-- Claim C16 at two devices that both have event channel 3: channel 3 resolves to the
one registered last, in slot 1. -/
theorem Channel_Table_last_user_witness :
    channels_in_range world_shared_channel ∧
    (∃ w', Read_Config_File_finalize world_shared_channel = .ok w' ∧
      (∀ i, w'.DDD i =
        (world_shared_channel.DDD i).map (fill_device world_shared_channel.default_device)) ∧
      ∀ c, w'.Channel_Table c = last_user w'.DDD c) ∧
    (Read_Config_File_finalize world_shared_channel).result.map
      (fun w => (List.finRange MAX_CHANNELS).map w.Channel_Table) =
      some [none, none, none, some 1, some 0, some 1, none, none] := by
  have h : channels_in_range world_shared_channel := by
    intro i d hd
    fin_cases i
    · cases hd; decide
    · cases hd; decide
    · cases hd
    · cases hd
  exact ⟨h, Channel_Table_last_user world_shared_channel h, rfl⟩

theorem define_all_unnamed {σ : Type} (lines : List Assignment) :
    ∀ (w w1 : World σ), (∀ a ∈ lines, a.device = none) → define_all w lines = .ok w1 →
      w1.DDD = w.DDD := by
  induction lines with
  | nil =>
    intro w w1 _ h
    simp only [define_all, Res.ok.injEq] at h
    rw [h]
  | cons a rest ih =>
    intro w w1 hl h
    simp only [define_all, hl a (List.mem_cons_self _ _), define_key_string, Res.bind_ok] at h
    rw [ih _ w1 (fun b hb => hl b (List.mem_cons_of_mem _ hb)) h]
    exact (define_key_global_DDD _ _ _).1

/-- A configuration file none of whose lines names a device, whenever `Read_Config_File`
returns (the template then has both channels): the registry holds exactly one device, named
`default device`, and each of its nine fields holds the value of `default_device`. -/
theorem Read_Config_File_without_devices {σ : Type} (w w' : World σ)
    (lines : List Assignment) (hl : ∀ a ∈ lines, a.device = none)
    (h : Read_Config_File w lines = .ok w') :
    ∃ d, registered w'.DDD = [d] ∧ d.name = some (bytes "default device") ∧
      ∀ f : Field, f.get d = f.get w'.default_device := by
  unfold Read_Config_File at h
  obtain ⟨w1, h1, h⟩ := Res.bind_eq_ok h
  obtain ⟨w2, h2, h3⟩ := Res.bind_eq_ok h
  have hD1 : w1.DDD = fun _ => none := define_all_unnamed lines _ w1 hl h1
  rcases Read_Config_File_ensure_eq w1 with ⟨⟨i, hi⟩, -⟩ | ⟨-, he⟩
  · rw [hD1] at hi
    exact absurd rfl hi
  · rw [he] at h2
    simp only [Res.ok.injEq] at h2
    unfold Read_Config_File_finalize at h3
    obtain ⟨hdef, hD, -⟩ := Read_Config_File_devices_eq _ _ _ (List.nodup_finRange _) h3
    have hD' : w'.DDD = fun i =>
        if i = 0 then some (fill_device w2.default_device (new_device (bytes "default device")))
        else none := by
      funext i
      rw [hD i, if_pos (List.mem_finRange i)]
      simp only [← h2, hD1]
      by_cases hi : i = 0
      · rw [if_pos hi, hi, Function.update_same]
        rfl
      · rw [if_neg hi, Function.update_noteq hi]
        rfl
    refine ⟨fill_device w2.default_device (new_device (bytes "default device")), ?_, rfl,
      fun f => ?_⟩
    · rw [hD']
      rfl
    · rw [fill_device_get, new_device_get, if_pos rfl, hdef]

/-- The registry after a configuration file that sets the template, channels included,
and a global setting. -/
theorem Read_Config_File_without_devices_witness :
    (∀ a ∈ lines_template_only, a.device = none) ∧
    ∃ w', Read_Config_File world_empty_registry lines_template_only = .ok w' ∧
      ∃ d, registered w'.DDD = [d] ∧ d.name = some (bytes "default device") ∧
        ∀ f : Field, f.get d = f.get w'.default_device :=
  ⟨by decide, _, rfl,
    Read_Config_File_without_devices world_empty_registry _ lines_template_only (by decide)
      rfl⟩

/-- When the configuration file can be opened, `Read_Config_File` returns unless a channel
of a device, once filled from `default_device`, is outside `Channel_Table`. -/
theorem Read_Config_File_returns {σ : Type} (w : World σ) (lines : List Assignment) :
    ∃ w2, (define_all { w with DDD := fun _ => none } lines).bind Read_Config_File_ensure
        = .ok w2 ∧
      (channels_in_range w2 → ∃ w', Read_Config_File w lines = .ok w') := by
  obtain ⟨w1, h1⟩ := define_all_total lines [] { w with DDD := fun _ => none }
    registry_inv_empty
  have h2 : ∃ w2, Read_Config_File_ensure w1 = .ok w2 := by
    rcases Read_Config_File_ensure_eq w1 with ⟨-, he⟩ | ⟨-, he⟩ <;> exact ⟨_, he⟩
  obtain ⟨w2, h2⟩ := h2
  refine ⟨w2, by rw [h1, Res.bind_ok, h2], fun hr => ?_⟩
  obtain ⟨w', h3⟩ := Read_Config_File_devices_total (List.finRange MAX_DETECTORS)
    { w2 with Channel_Table := fun _ => none } hr
  exact ⟨w', by unfold Read_Config_File; rw [h1, Res.bind_ok, h2, Res.bind_ok]; exact h3⟩

/-! ## Events: claims C18 to C20 -/

/-- What `Format_One_Event_Message` leaves alone. -/
theorem Format_One_Event_Message_frame {σ : Type} {w w' : World σ} {d : DEVICE}
    {timedate : Option Timestamp} {m : Option (List Nat)}
    (h : Format_One_Event_Message w d timedate = .ok (m, w')) :
    w'.Channel_Table = w.Channel_Table ∧ w'.default_device = w.default_device ∧
    w'.last_diValue = w.last_diValue := by
  unfold Format_One_Event_Message at h
  dsimp only at h
  obtain ⟨b0, -, h⟩ := Res.bind_eq_ok h
  obtain ⟨b1, -, h⟩ := Res.bind_eq_ok h
  simp only [Res.ok.injEq, Prod.mk.injEq] at h
  rw [← h.2]
  exact ⟨rfl, rfl, rfl⟩

/-- What `WriteXMLMessageToServer` does, whenever it returns: one message is built, the
counter is incremented once, and the registry, the channel table and the files are left
alone. -/
theorem WriteXMLMessageToServer_returns {σ : Type} {net : Net σ} {w w' : World σ}
    {d : DEVICE} {timedate : Option Timestamp}
    (h : WriteXMLMessageToServer net w d timedate = .ok w') :
    w'.DDD = w.DDD ∧ w'.Channel_Table = w.Channel_Table ∧ w'.fs = w.fs ∧
    w'.default_device = w.default_device ∧ w'.icdVersion = w.icdVersion ∧
    w'.myRefId = wrap_int (w.myRefId + 1) ∧
    ∃ w1, Format_One_Event_Message w d timedate =
      .ok (some (spec_push_text d timedate (wrap_int (w.myRefId + 1)) w.icdVersion), w1) := by
  unfold WriteXMLMessageToServer at h
  obtain ⟨r, hr, h⟩ := Res.bind_eq_ok h
  obtain ⟨m, w1⟩ := r
  obtain ⟨hid, hicd, hm, hD, hfs, -, -⟩ := Format_One_Event_Message_returns hr
  obtain ⟨hC, hdef, -⟩ := Format_One_Event_Message_frame hr
  have hmsg : Format_One_Event_Message w d timedate =
      .ok (some (spec_push_text d timedate (wrap_int (w.myRefId + 1)) w.icdVersion), w1) := by
    rw [hr, hm, pieces_text_event_pieces]
    rfl
  have key : w'.DDD = w1.DDD ∧ w'.Channel_Table = w1.Channel_Table ∧ w'.fs = w1.fs ∧
      w'.default_device = w1.default_device ∧ w'.icdVersion = w1.icdVersion ∧
      w'.myRefId = w1.myRefId := by
    subst hm
    dsimp only at h
    split_ifs at h <;> simp only [Res.ok.injEq] at h <;> subst h <;>
      exact ⟨rfl, rfl, rfl, rfl, rfl, rfl⟩
  obtain ⟨k1, k2, k3, k4, k5, k6⟩ := key
  exact ⟨k1.trans hD, k2.trans hC, k3.trans hfs, k4.trans hdef, k5.trans hicd, k6.trans hid,
    w1, hmsg⟩

/-- What `Process_Actual_DI_Event` does, whenever it returns. -/
theorem Process_Actual_DI_Event_returns {σ : Type} {net : Net σ} {w w' : World σ}
    {i : Fin MAX_DETECTORS} {d : DEVICE} {now : Timestamp} {pushes : List Push}
    (hd : w.DDD i = some d) (h : Process_Actual_DI_Event net w i now = .ok (w', pushes)) :
    w'.DDD = w.DDD ∧ w'.Channel_Table = w.Channel_Table ∧
    w'.fs = WriteEventToFile w.fs d now ∧
    pushes = [{ status_change := false, device := d, timedate := some now }] := by
  unfold Process_Actual_DI_Event at h
  rw [hd] at h
  dsimp only at h
  obtain ⟨w2, h2, h⟩ := Res.bind_eq_ok h
  simp only [Res.ok.injEq, Prod.mk.injEq] at h
  obtain ⟨k1, k2, k3, -⟩ := WriteXMLMessageToServer_returns h2
  rw [← h.1, ← h.2]
  exact ⟨k1, k2, k3, rfl⟩

/-- What `setStatus` does, whenever it returns. -/
theorem setStatus_returns {σ : Type} {net : Net σ} {w w' : World σ}
    {i : Fin MAX_DETECTORS} {d : DEVICE} {status : DeviceStatus} {pushes : List Push}
    (hd : w.DDD i = some d) (h : setStatus net w i status = .ok (w', pushes)) :
    (d.status = status → pushes = [] ∧ w' = w) ∧
    (d.status ≠ status →
      pushes = [{ status_change := true, device := { d with status := status },
                  timedate := ReadEventFromFile w.fs d }] ∧
      w'.DDD = Function.update w.DDD i (some { d with status := status }) ∧
      w'.Channel_Table = w.Channel_Table ∧ w'.fs = w.fs ∧
      w'.myRefId = wrap_int (w.myRefId + 1) ∧
      ∃ w1, Format_One_Event_Message
          { w with DDD := (Function.update w.DDD i (some { d with status := status })) }
          { d with status := status } (ReadEventFromFile w.fs d) =
        .ok (some (spec_push_text { d with status := status } (ReadEventFromFile w.fs d)
          (wrap_int (w.myRefId + 1)) w.icdVersion), w1)) := by
  unfold setStatus at h
  rw [hd] at h
  dsimp only at h
  constructor
  · intro hs
    rw [if_neg (not_not.2 hs)] at h
    simp only [Res.ok.injEq, Prod.mk.injEq] at h
    exact ⟨h.2.symm, h.1.symm⟩
  · intro hs
    rw [if_pos hs] at h
    unfold Process_Change_In_Status_Event at h
    simp only [Function.update_same] at h
    obtain ⟨w2, h2, h⟩ := Res.bind_eq_ok h
    simp only [Res.ok.injEq, Prod.mk.injEq] at h
    obtain ⟨k1, k2, k3, -, -, k6, w1, hm⟩ := WriteXMLMessageToServer_returns h2
    rw [← h.1, ← h.2]
    exact ⟨rfl, k1, k2, k3, k6, w1, hm⟩

/-- Claim C18. For a device in status `ST_OUTOFSERVICE` to which its fault channel is
mapped, `Process_DI_Event` on that channel, with either new state, leaves the status
`ST_OUTOFSERVICE` and makes no push through `Process_Change_In_Status_Event`. -/
theorem Process_DI_Event_out_of_service {σ : Type} (net : Net σ) (w w' : World σ)
    (channel : Fin MAX_CHANNELS) (new_state : Int) (now : Timestamp) (pushes : List Push)
    (i : Fin MAX_DETECTORS) (d : DEVICE) (hc : w.Channel_Table channel = some i)
    (hd : w.DDD i = some d) (hf : d.fault_channel = channel)
    (hs : d.status = .ST_OUTOFSERVICE)
    (h : Process_DI_Event net w channel new_state now = .ok (w', pushes)) :
    (w'.DDD i).map (fun d' => d'.status) = some .ST_OUTOFSERVICE ∧
    ∀ p ∈ pushes, p.status_change = false := by
  unfold Process_DI_Event at h
  rw [hc] at h
  dsimp only at h
  rw [hd] at h
  dsimp only at h
  by_cases h0 : d.event_channel = channel ∧ new_state ≠ 1
  · rw [if_pos h0] at h
    simp only [Res.ok.injEq, Prod.mk.injEq] at h
    rw [← h.1, ← h.2, hd]
    exact ⟨by rw [Option.map_some', hs], fun p hp => by cases hp⟩
  · rw [if_neg h0] at h
    obtain ⟨r1, h1, h⟩ := Res.bind_eq_ok h
    have hr1 : r1.1.DDD = w.DDD ∧ ∀ p ∈ r1.2, p.status_change = false := by
      by_cases he : d.event_channel = channel
      · rw [if_pos he] at h1
        obtain ⟨k1, -, -, k4⟩ := Process_Actual_DI_Event_returns hd h1
        refine ⟨k1, fun p hp => ?_⟩
        rw [k4, List.mem_singleton] at hp
        rw [hp]
      · rw [if_neg he] at h1
        simp only [Res.ok.injEq] at h1
        rw [← h1]
        exact ⟨rfl, fun p hp => by cases hp⟩
    rw [if_pos hf, hr1.1, hd] at h
    dsimp only at h
    rw [if_pos hs] at h
    simp only [Res.ok.injEq] at h
    have e1 : w' = r1.1 := by rw [h]
    have e2 : pushes = r1.2 := by rw [h]
    rw [e1, e2, hr1.1, hd]
    exact ⟨by rw [Option.map_some', hs], hr1.2⟩

/-- Claim C18 at the device of `world_out_of_service` (fault channel 1) and a rising
edge. -/
theorem Process_DI_Event_out_of_service_witness :
    world_out_of_service.Channel_Table 1 = some 0 ∧
    world_out_of_service.DDD 0 =
      some { device_without_reading with status := .ST_OUTOFSERVICE } ∧
    Process_DI_Event dead_net world_out_of_service 1 1 half_past_noon =
      .ok (world_out_of_service, []) ∧
    ((world_out_of_service.DDD 0).map (fun d' => d'.status) = some .ST_OUTOFSERVICE ∧
      ∀ p ∈ ([] : List Push), p.status_change = false) :=
  ⟨rfl, rfl, rfl,
    Process_DI_Event_out_of_service dead_net world_out_of_service world_out_of_service 1 1
      half_past_noon [] 0 { device_without_reading with status := .ST_OUTOFSERVICE }
      rfl rfl rfl rfl rfl⟩

/-- A fault channel that is not also the event channel of its device: the rising edge
leaves the device FAILED, the falling edge leaves it ACTIVE, unless it is out of
service. -/
theorem Process_DI_Event_fault_edge {σ : Type} {net : Net σ} {w w' : World σ}
    {channel : Fin MAX_CHANNELS} {new_state : Int} {now : Timestamp} {pushes : List Push}
    {i : Fin MAX_DETECTORS} {d : DEVICE} (hc : w.Channel_Table channel = some i)
    (hd : w.DDD i = some d) (hf : d.fault_channel = channel)
    (he : d.event_channel ≠ channel) (hs : d.status ≠ .ST_OUTOFSERVICE)
    (h : Process_DI_Event net w channel new_state now = .ok (w', pushes)) :
    (w'.DDD i).map (fun d' => d'.status) =
      some (if new_state = 1 then .ST_FAILED else .ST_ACTIVE) := by
  unfold Process_DI_Event at h
  rw [hc] at h
  dsimp only at h
  rw [hd] at h
  dsimp only at h
  rw [if_neg (fun h0 => he h0.1), if_neg he, Res.bind_ok, if_pos hf] at h
  dsimp only at h
  rw [hd] at h
  dsimp only at h
  rw [if_neg hs] at h
  obtain ⟨⟨w2, p2⟩, h2, h⟩ := Res.bind_eq_ok h
  simp only [Res.ok.injEq, Prod.mk.injEq] at h
  rw [← h.1]
  have key : ∀ s, setStatus net w i s = .ok (w2, p2) →
      (w2.DDD i).map (fun d' => d'.status) = some s := by
    intro s hs2
    obtain ⟨a, b⟩ := setStatus_returns hd hs2
    by_cases hds : d.status = s
    · rw [(a hds).2, hd, Option.map_some', hds]
    · rw [(b hds).2.1, Function.update_same]
      rfl
  by_cases hn : new_state = 1
  · rw [if_pos hn] at h2 ⊢
    exact key _ h2
  · rw [if_neg hn] at h2 ⊢
    exact key _ h2

/-- Claim C19, at a device whose event channel and fault channel are both 3 and whose
status is FAILED: the falling edge on channel 3 returns at the event branch, so the device
stays FAILED and no push is made. -/
theorem Process_DI_Event_falling_edge_on_shared_channel :
    world_shared_wire.Channel_Table 3 = some 0 ∧
    world_shared_wire.DDD 0 = some device_shared_wire ∧
    device_shared_wire.fault_channel = 3 ∧ device_shared_wire.event_channel = 3 ∧
    device_shared_wire.status = .ST_FAILED ∧
    Process_DI_Event dead_net world_shared_wire 3 0 half_past_noon =
      .ok (world_shared_wire, []) := by
  refine ⟨?_, ?_, ?_, ?_, ?_, ?_⟩ <;> rfl

/-- What `WriteXMLMessageToServer` does with the message, whenever it returns: without a
client nothing is sent; with a client the message goes through `Send_Request_Message`, and
the session is closed when that fails. -/
theorem WriteXMLMessageToServer_sends {σ : Type} {net : Net σ} {w w' : World σ}
    {d : DEVICE} {timedate : Option Timestamp}
    (h : WriteXMLMessageToServer net w d timedate = .ok w') :
    (w.ClientConnection = INVALID_SOCKET →
      w'.env = w.env ∧ w'.ClientConnection = INVALID_SOCKET) ∧
    (w.ClientConnection ≠ INVALID_SOCKET →
      w'.env =
        (if (Send_Request_Message net w.env w.ClientConnection
            (spec_push_text d timedate (wrap_int (w.myRefId + 1)) w.icdVersion)).1 < 0
          then net.close (Send_Request_Message net w.env w.ClientConnection
            (spec_push_text d timedate (wrap_int (w.myRefId + 1)) w.icdVersion)).2
            w.ClientConnection
          else (Send_Request_Message net w.env w.ClientConnection
            (spec_push_text d timedate (wrap_int (w.myRefId + 1)) w.icdVersion)).2) ∧
      w'.ClientConnection =
        (if (Send_Request_Message net w.env w.ClientConnection
            (spec_push_text d timedate (wrap_int (w.myRefId + 1)) w.icdVersion)).1 < 0
          then INVALID_SOCKET else w.ClientConnection)) := by
  unfold WriteXMLMessageToServer at h
  obtain ⟨⟨m, w1⟩, hr, h⟩ := Res.bind_eq_ok h
  obtain ⟨-, -, hm, -, -, hcc, henv⟩ := Format_One_Event_Message_returns hr
  have hm' : m = some (spec_push_text d timedate (wrap_int (w.myRefId + 1)) w.icdVersion) := by
    rw [hm, pieces_text_event_pieces]
    rfl
  subst hm'
  dsimp only at h
  rw [hcc, henv] at h
  constructor
  · intro hc
    rw [if_neg (not_not.2 hc)] at h
    simp only [Res.ok.injEq] at h
    rw [← h]
    exact ⟨henv, hcc.trans hc⟩
  · intro hc
    rw [if_pos hc] at h
    split_ifs at h with hneg
    · simp only [Res.ok.injEq] at h
      rw [← h, if_pos hneg, if_pos hneg]
      simp only [close_Client_Connection, hcc]
      exact ⟨trivial, trivial⟩
    · simp only [Res.ok.injEq] at h
      rw [← h, if_neg hneg, if_neg hneg]
      exact ⟨rfl, rfl⟩

/-- Claim C20. `setStatus(d, s)` on the device `d` of slot `i`, whenever it returns. When
the status of `d` is `s` already, no push is made and the state is unchanged. Otherwise
exactly one push is made, by `Process_Change_In_Status_Event`, for the device with its new
status `s` and the reading `ReadEventFromFile` finds for it; `Format_One_Event_Message`
builds one message, whose `opStatus` is the name of `s` and whose reading element is that
reading (none when there is none); the counter `myRefId` is incremented once; slot `i`
holds the device with status `s`; and the message is sent once to the client when one is
connected (the session being closed when the send fails), to nobody otherwise. -/
theorem setStatus_pushes {σ : Type} (net : Net σ) (w w' : World σ) (i : Fin MAX_DETECTORS)
    (d : DEVICE) (s : DeviceStatus) (pushes : List Push) (hd : w.DDD i = some d)
    (h : setStatus net w i s = .ok (w', pushes)) :
    (d.status = s → pushes = [] ∧ w' = w) ∧
    (d.status ≠ s →
      pushes = [{ status_change := true, device := { d with status := s },
                  timedate := ReadEventFromFile w.fs d }] ∧
      w'.DDD i = some { d with status := s } ∧
      (∀ j, j ≠ i → w'.DDD j = w.DDD j) ∧
      w'.myRefId = wrap_int (w.myRefId + 1) ∧
      (∃ w1, Format_One_Event_Message
          { w with DDD := (Function.update w.DDD i (some { d with status := s })) }
          { d with status := s } (ReadEventFromFile w.fs d) =
        .ok (some (spec_push_text { d with status := s } (ReadEventFromFile w.fs d)
          (wrap_int (w.myRefId + 1)) w.icdVersion), w1)) ∧
      spec_push_text { d with status := s } (ReadEventFromFile w.fs d)
          (wrap_int (w.myRefId + 1)) w.icdVersion =
        bytes "<overheightUpdateMsg>" ++
        spec_header_text (snprintf 16 (fmt_d (wrap_int (w.myRefId + 1))))
          (text_of w.icdVersion) ++
        spec_id_text d ++ bytes "<overheight>" ++
        (match ReadEventFromFile w.fs d with
          | some t => spec_reading_text d t
          | none => []) ++
        bytes "<overheightStatus><opStatus>" ++ opStatus_text s ++
        bytes "</opStatus></overheightStatus></overheight></overheightUpdateMsg>" ∧
      (w.ClientConnection = INVALID_SOCKET →
        w'.env = w.env ∧ w'.ClientConnection = INVALID_SOCKET) ∧
      (w.ClientConnection ≠ INVALID_SOCKET →
        w'.env =
          (if (Send_Request_Message net w.env w.ClientConnection
              (spec_push_text { d with status := s } (ReadEventFromFile w.fs d)
                (wrap_int (w.myRefId + 1)) w.icdVersion)).1 < 0
            then net.close (Send_Request_Message net w.env w.ClientConnection
              (spec_push_text { d with status := s } (ReadEventFromFile w.fs d)
                (wrap_int (w.myRefId + 1)) w.icdVersion)).2 w.ClientConnection
            else (Send_Request_Message net w.env w.ClientConnection
              (spec_push_text { d with status := s } (ReadEventFromFile w.fs d)
                (wrap_int (w.myRefId + 1)) w.icdVersion)).2) ∧
        w'.ClientConnection =
          (if (Send_Request_Message net w.env w.ClientConnection
              (spec_push_text { d with status := s } (ReadEventFromFile w.fs d)
                (wrap_int (w.myRefId + 1)) w.icdVersion)).1 < 0
            then INVALID_SOCKET else w.ClientConnection))) := by
  obtain ⟨a, b⟩ := setStatus_returns hd h
  refine ⟨a, fun hs => ?_⟩
  obtain ⟨b1, b2, -, -, b5, b6⟩ := b hs
  have hsend : WriteXMLMessageToServer net
      { w with DDD := (Function.update w.DDD i (some { d with status := s })) }
      { d with status := s } (ReadEventFromFile w.fs d) = .ok w' := by
    unfold setStatus at h
    rw [hd] at h
    dsimp only at h
    rw [if_pos hs] at h
    unfold Process_Change_In_Status_Event at h
    simp only [Function.update_same] at h
    obtain ⟨w2, h2, h⟩ := Res.bind_eq_ok h
    simp only [Res.ok.injEq, Prod.mk.injEq] at h
    rw [← h.1]
    exact h2
  obtain ⟨c1, c2⟩ := WriteXMLMessageToServer_sends hsend
  refine ⟨b1, ?_, ?_, b5, b6, ?_, c1, c2⟩
  · rw [b2, Function.update_same]
  · intro j hj
    rw [b2, Function.update_noteq hj]
  · unfold spec_push_text
    cases ReadEventFromFile w.fs d with
    | none =>
      simp only [spec_overheight_text, spec_status_text, List.append_assoc, List.append_nil]
      rfl
    | some t =>
      simp only [spec_overheight_text, spec_status_text, List.append_assoc]
      rfl

/-- `WriteXMLMessageToServer` returns when the strings of the message fit. -/
theorem WriteXMLMessageToServer_total {σ : Type} (net : Net σ) (w : World σ) (d : DEVICE)
    (timedate : Option Timestamp) (hb : w.b.usable) (h1 : fits w.icdVersion) (hd : d.fits) :
    ∃ w', WriteXMLMessageToServer net w d timedate = .ok w' := by
  obtain ⟨m, w1, hm⟩ := Format_One_Event_Message_total w d timedate hb h1 hd
  unfold WriteXMLMessageToServer
  rw [hm, Res.bind_ok]
  dsimp only
  split_ifs <;> exact ⟨_, rfl⟩

/-- `setStatus` returns when the strings of the message fit. -/
theorem setStatus_total {σ : Type} (net : Net σ) (w : World σ) (i : Fin MAX_DETECTORS)
    (d : DEVICE) (s : DeviceStatus) (hd : w.DDD i = some d) (hb : w.b.usable)
    (h1 : fits w.icdVersion) (hf : d.fits) :
    ∃ r, setStatus net w i s = .ok r := by
  unfold setStatus
  rw [hd]
  dsimp only
  split_ifs with hs
  · unfold Process_Change_In_Status_Event
    simp only [Function.update_same]
    obtain ⟨w', hw'⟩ := WriteXMLMessageToServer_total net
      { w with DDD := (Function.update w.DDD i (some { d with status := s })) }
      { d with status := s } (ReadEventFromFile w.fs { d with status := s }) hb h1 hf
    rw [hw']
    exact ⟨_, rfl⟩
  · exact ⟨_, rfl⟩

/-- No call of `Process_DI_Event` puts a device into the status `ST_ERROR`: a device that
has this status afterwards had it before. -/
theorem Process_DI_Event_never_sets_ERROR {σ : Type} {net : Net σ} {w w' : World σ}
    {channel : Fin MAX_CHANNELS} {new_state : Int} {now : Timestamp} {pushes : List Push}
    (h : Process_DI_Event net w channel new_state now = .ok (w', pushes))
    (j : Fin MAX_DETECTORS) (d' : DEVICE) (hj : w'.DDD j = some d')
    (he : d'.status = .ST_ERROR) : ∃ d0, w.DDD j = some d0 ∧ d0.status = .ST_ERROR := by
  have same : w'.DDD = w.DDD → ∃ d0, w.DDD j = some d0 ∧ d0.status = .ST_ERROR := by
    intro e
    rw [e] at hj
    exact ⟨d', hj, he⟩
  unfold Process_DI_Event at h
  cases hc : w.Channel_Table channel with
  | none =>
    rw [hc] at h
    simp only [Res.ok.injEq, Prod.mk.injEq] at h
    exact same (by rw [← h.1])
  | some i =>
    rw [hc] at h
    dsimp only at h
    cases hd : w.DDD i with
    | none => rw [hd] at h; cases h
    | some d =>
      rw [hd] at h
      dsimp only at h
      by_cases h0 : d.event_channel = channel ∧ new_state ≠ 1
      · rw [if_pos h0] at h
        simp only [Res.ok.injEq, Prod.mk.injEq] at h
        exact same (by rw [← h.1])
      · rw [if_neg h0] at h
        obtain ⟨⟨w1, p1⟩, h1, h⟩ := Res.bind_eq_ok h
        have hr1 : w1.DDD = w.DDD := by
          by_cases hev : d.event_channel = channel
          · rw [if_pos hev] at h1
            exact (Process_Actual_DI_Event_returns hd h1).1
          · rw [if_neg hev] at h1
            simp only [Res.ok.injEq, Prod.mk.injEq] at h1
            rw [← h1.1]
        by_cases hf : d.fault_channel = channel
        · rw [if_pos hf, hr1, hd] at h
          dsimp only at h
          by_cases hs : d.status = .ST_OUTOFSERVICE
          · rw [if_pos hs] at h
            simp only [Res.ok.injEq] at h
            exact same (by rw [← hr1, (Prod.mk.inj h).1])
          · rw [if_neg hs] at h
            obtain ⟨⟨w2, p2⟩, h2, h⟩ := Res.bind_eq_ok h
            simp only [Res.ok.injEq, Prod.mk.injEq] at h
            have key : ∀ s, s ≠ DeviceStatus.ST_ERROR → setStatus net w1 i s = .ok (w2, p2) →
                ∃ d0, w.DDD j = some d0 ∧ d0.status = .ST_ERROR := by
              intro s hne hs2
              have hd1 : w1.DDD i = some d := by rw [hr1, hd]
              obtain ⟨a, b⟩ := setStatus_returns hd1 hs2
              by_cases hds : d.status = s
              · exact same (by rw [← h.1, (a hds).2, hr1])
              · have hD := (b hds).2.1
                rw [← h.1, hD] at hj
                by_cases hji : j = i
                · subst hji
                  rw [Function.update_same] at hj
                  cases hj
                  exact absurd he hne
                · rw [Function.update_noteq hji, hr1] at hj
                  exact ⟨d', hj, he⟩
            by_cases hn : new_state = 1
            · rw [if_pos hn] at h2
              exact key _ (by decide) h2
            · rw [if_neg hn] at h2
              exact key _ (by decide) h2
        · rw [if_neg hf] at h
          simp only [Res.ok.injEq] at h
          exact same (by rw [← hr1, (Prod.mk.inj h).1])

/-! ## Decimal numerals -/

theorem digits_value_append (l : List Nat) (d : Nat) :
    digits_value (l ++ [d]) = 10 * digits_value l + (d - 48) := by
  simp [digits_value, List.foldl_append]

theorem digits_succ (fuel v : Nat) :
    digits (fuel + 1) v =
      if v < 10 then [48 + v] else digits fuel (v / 10) ++ [48 + v % 10] := rfl

/-- The fuel of `digits` does not matter once it exceeds the value. -/
theorem digits_fuel (v : Nat) : ∀ fuel, v < fuel → digits fuel v = fmt_lu v := by
  induction v using Nat.strong_induction_on with
  | _ v ih =>
    intro fuel hf
    obtain ⟨f, rfl⟩ : ∃ f, fuel = f + 1 := ⟨fuel - 1, by omega⟩
    unfold fmt_lu
    rw [digits_succ, digits_succ]
    by_cases h10 : v < 10
    · rw [if_pos h10, if_pos h10]
    · rw [if_neg h10, if_neg h10, ih (v / 10) (by omega) f (by omega),
        ih (v / 10) (by omega) v (by omega)]

theorem fmt_lu_small (v : Nat) (h : v < 10) : fmt_lu v = [48 + v] := by
  unfold fmt_lu
  rw [digits_succ, if_pos h]

theorem fmt_lu_step (v : Nat) (h : 10 ≤ v) : fmt_lu v = fmt_lu (v / 10) ++ [48 + v % 10] := by
  unfold fmt_lu
  rw [digits_succ, if_neg (by omega), digits_fuel (v / 10) v (by omega)]
  rfl

theorem decimal_of_zero (w : Nat) : decimal w 0 = List.replicate w 48 := by
  induction w with
  | zero => rfl
  | succ w ih =>
    simp only [decimal, Nat.zero_div, Nat.zero_mod, Nat.add_zero, ih]
    exact (List.replicate_succ' w 48).symm

/-- `%0<w>lu` of a value of at most `w` digits is the value written with `w` digits. -/
theorem fmt_0lu_eq_decimal (w : Nat) : ∀ v, v < 10 ^ (w + 1) →
    fmt_0lu (w + 1) v = decimal (w + 1) v := by
  induction w with
  | zero =>
    intro v hv
    have hv' : v < 10 := by simpa using hv
    simp only [fmt_0lu, fmt_lu_small v hv', decimal, List.length_singleton]
    have : v % 10 = v := Nat.mod_eq_of_lt hv'
    simp [this]
  | succ w ih =>
    intro v hv
    by_cases h10 : v < 10
    · have hd : v / 10 = 0 := by omega
      have hm : v % 10 = v := Nat.mod_eq_of_lt h10
      rw [decimal, hd, decimal_of_zero, hm]
      simp only [fmt_0lu, fmt_lu_small v h10, List.length_singleton, Nat.add_sub_cancel]
    · have hq : v / 10 < 10 ^ (w + 1) := by
        rw [Nat.div_lt_iff_lt_mul (by norm_num)]
        calc v < 10 ^ (w + 1 + 1) := hv
          _ = 10 ^ (w + 1) * 10 := by ring
      rw [decimal, ← ih (v / 10) hq]
      simp only [fmt_0lu, fmt_lu_step v (by omega), List.length_append, List.length_singleton,
        Nat.add_sub_add_right, List.append_assoc]

theorem decimal_length (w v : Nat) : (decimal w v).length = w := by
  induction w generalizing v with
  | zero => rfl
  | succ w ih => simp [decimal, ih]

theorem decimal_bounds (w v x : Nat) (hx : x ∈ decimal w v) : 48 ≤ x ∧ x ≤ 57 := by
  induction w generalizing v with
  | zero => simp [decimal] at hx
  | succ w ih =>
    simp only [decimal, List.mem_append, List.mem_singleton] at hx
    rcases hx with hx | hx
    · exact ih _ hx
    · omega

theorem decimal_value (w v : Nat) : digits_value (decimal w v) = v % 10 ^ w := by
  induction w generalizing v with
  | zero => simp [decimal, digits_value, Nat.mod_one]
  | succ w ih =>
    rw [decimal, digits_value_append, ih, Nat.add_sub_cancel_left, pow_succ,
      Nat.mul_comm (10 ^ w) 10, Nat.mod_mul]
    omega

/-! ## Reading time and event file: claims C23 and C26 -/

theorem fmt_0lu_two (v : Nat) (h : v ≤ 99) : fmt_0lu 2 v = decimal 2 v :=
  fmt_0lu_eq_decimal 1 v (by norm_num; omega)

theorem fmt_0lu_four (v : Nat) (h : v ≤ 9999) : fmt_0lu 4 v = decimal 4 v :=
  fmt_0lu_eq_decimal 3 v (by norm_num; omega)

theorem readingTime_eq (t : Timestamp) (h : t.in_range) :
    readingTime t = decimal 2 t.hour ++ bytes ":" ++ decimal 2 t.min ++ bytes ":" ++
      decimal 2 t.sec := by
  obtain ⟨-, -, -, h4, h5, h6⟩ := h
  unfold readingTime snprintf
  rw [fmt_0lu_two _ h4, fmt_0lu_two _ h5, fmt_0lu_two _ h6]
  apply List.take_of_length_le
  simp only [List.length_append, decimal_length]
  decide

theorem readingDate_eq (t : Timestamp) (h : t.in_range) :
    readingDate t = decimal 4 t.year ++ bytes "-" ++ decimal 2 t.mon ++ bytes "-" ++
      decimal 2 t.day := by
  obtain ⟨h1, h2, h3, -, -, -⟩ := h
  unfold readingDate snprintf
  rw [fmt_0lu_four _ h1, fmt_0lu_two _ h2, fmt_0lu_two _ h3]
  apply List.take_of_length_le
  simp only [List.length_append, decimal_length]
  decide

/-- Claim C26. For a time stamp with a year of at most 9999 and other fields of at most
99, `readingTime` is the 8 characters HH:MM:SS and `readingDate` the 10 characters
YYYY-MM-DD, every component written with all its digits, zero-padded; `AppendOverheight`
with a reading emits them, then the trigger height of the device, then its status under
its name: Active for `ST_ACTIVE`, Error for `ST_ERROR`, Failed for `ST_FAILED`,
OutofService for `ST_OUTOFSERVICE`. -/
theorem AppendOverheight_reading_format (d : DEVICE) (t : Timestamp) (h : t.in_range) :
    readingTime t = decimal 2 t.hour ++ bytes ":" ++ decimal 2 t.min ++ bytes ":" ++
      decimal 2 t.sec ∧
    (readingTime t).length = 8 ∧
    readingDate t = decimal 4 t.year ++ bytes "-" ++ decimal 2 t.mon ++ bytes "-" ++
      decimal 2 t.day ∧
    (readingDate t).length = 10 ∧
    pieces_text (AppendOverheight d (some t)) =
      bytes "<overheight><overheightReadingData><readingTime>" ++ readingTime t ++
      bytes "</readingTime><readingDate>" ++ readingDate t ++
      bytes "</readingDate><triggerHeight units=\"in\">" ++ text_of d.triggerHeight ++
      bytes "</triggerHeight></overheightReadingData><overheightStatus><opStatus>" ++
      (match d.status with
        | .ST_ACTIVE => bytes "Active"
        | .ST_ERROR => bytes "Error"
        | .ST_FAILED => bytes "Failed"
        | .ST_OUTOFSERVICE => bytes "OutofService") ++
      bytes "</opStatus></overheightStatus></overheight>" := by
  refine ⟨readingTime_eq t h, ?_, readingDate_eq t h, ?_, ?_⟩
  · rw [readingTime_eq t h]
    simp only [List.length_append, decimal_length]
    rfl
  · rw [readingDate_eq t h]
    simp only [List.length_append, decimal_length]
    rfl
  · rw [pieces_text_AppendOverheight]
    simp only [spec_overheight_text, spec_reading_text, spec_status_text, List.append_assoc]
    cases d.status <;> rfl

theorem half_past_noon_in_range : half_past_noon.in_range := by
  unfold Timestamp.in_range half_past_noon
  decide

set_option maxRecDepth 100000 in
/-- Claim C26 at 2024/01/02 12:30:45 and the device `device_failed`. -/
theorem AppendOverheight_reading_format_witness :
    half_past_noon.in_range ∧
    readingTime half_past_noon = bytes "12:30:45" ∧
    readingDate half_past_noon = bytes "2024-01-02" ∧
    pieces_text (AppendOverheight device_failed (some half_past_noon)) =
      overheight_failed_with_reading ∧
    (readingTime half_past_noon = decimal 2 half_past_noon.hour ++ bytes ":" ++
        decimal 2 half_past_noon.min ++ bytes ":" ++ decimal 2 half_past_noon.sec ∧
      (readingTime half_past_noon).length = 8 ∧
      readingDate half_past_noon = decimal 4 half_past_noon.year ++ bytes "-" ++
        decimal 2 half_past_noon.mon ++ bytes "-" ++ decimal 2 half_past_noon.day ∧
      (readingDate half_past_noon).length = 10 ∧
      pieces_text (AppendOverheight device_failed (some half_past_noon)) =
        bytes "<overheight><overheightReadingData><readingTime>" ++
        readingTime half_past_noon ++
        bytes "</readingTime><readingDate>" ++ readingDate half_past_noon ++
        bytes "</readingDate><triggerHeight units=\"in\">" ++
        text_of device_failed.triggerHeight ++
        bytes "</triggerHeight></overheightReadingData><overheightStatus><opStatus>" ++
        (match device_failed.status with
          | .ST_ACTIVE => bytes "Active"
          | .ST_ERROR => bytes "Error"
          | .ST_FAILED => bytes "Failed"
          | .ST_OUTOFSERVICE => bytes "OutofService") ++
        bytes "</opStatus></overheightStatus></overheight>") :=
  ⟨half_past_noon_in_range, by decide, by decide, by rfl,
    AppendOverheight_reading_format device_failed half_past_noon half_past_noon_in_range⟩

theorem takeWhile_all (p : Nat → Bool) (l : List Nat) (h : ∀ x ∈ l, p x = true) :
    l.takeWhile p = l := by
  induction l with
  | nil => rfl
  | cons a l ih =>
    rw [List.takeWhile_cons, h a (List.mem_cons_self _ _)]
    simp only [if_true]
    rw [ih (fun x hx => h x (List.mem_cons_of_mem _ hx))]

/-- `%<w>lu` of `sscanf` reads back a value written with `w` digits. -/
theorem scan_lu_decimal (w v : Nat) (rest : List Nat) (hw : 1 ≤ w) (hv : v < 10 ^ w)
    (h32 : v < 2 ^ 32) : scan_lu w (decimal w v ++ rest) = some (v, rest) := by
  have hlen := decimal_length w v
  have hb := decimal_bounds w v
  have hval := decimal_value w v
  rw [Nat.mod_eq_of_lt hv] at hval
  generalize decimal w v = ds at hlen hb hval
  match ds, hlen, hb, hval with
  | [], hlen, _, _ => simp at hlen; omega
  | c :: cs, hlen, hb, hval =>
    have hc := hb c (List.mem_cons_self _ _)
    have hsp : isspace c = false := by
      simp only [isspace, Bool.or_eq_false_iff, beq_eq_false_iff_ne, Bool.and_eq_false_iff,
        decide_eq_false_iff_not]
      omega
    have hdig : ∀ x ∈ c :: cs, isdigit x = true := by
      intro x hx
      have := hb x hx
      simp only [isdigit, Bool.and_eq_true, decide_eq_true_eq]
      omega
    have h43 : c ≠ 43 := by omega
    have h45 : c ≠ 45 := by omega
    have hdrop : ((c :: cs) ++ rest).dropWhile isspace = c :: (cs ++ rest) := by
      simp [List.dropWhile_cons, hsp]
    have htake : (c :: (cs ++ rest)).take w = c :: cs := by
      rw [← List.cons_append, ← hlen]
      exact List.take_left' rfl
    unfold scan_lu
    simp only [hdrop]
    have hsigned : (match c :: (cs ++ rest) with
        | 43 :: _ => true
        | 45 :: _ => true
        | _ => false) = false := by
      split
      · rename_i heq; simp only [List.cons.injEq] at heq; exact absurd heq.1 h43
      · rename_i heq; simp only [List.cons.injEq] at heq; exact absurd heq.1 h45
      · rfl
    simp only [hsigned, Bool.false_eq_true, if_false, htake, takeWhile_all isdigit _ hdig,
      List.head?_cons, Option.some.injEq, h45, hval, Nat.mod_eq_of_lt h32]
    rw [if_neg (List.cons_ne_nil _ _), ← List.cons_append, List.drop_left]


theorem scan_lu_space (w : Nat) (l : List Nat) : scan_lu w (32 :: l) = scan_lu w l := by
  unfold scan_lu
  have : (32 :: l).dropWhile isspace = l.dropWhile isspace := by
    rw [List.dropWhile_cons]
    rfl
  rw [this]

theorem scan_lu_dropWhile (w : Nat) (l : List Nat) :
    scan_lu w (l.dropWhile isspace) = scan_lu w l := by
  induction l with
  | nil => rfl
  | cons a l ih =>
    rw [List.dropWhile_cons]
    by_cases ha : isspace a = true
    · rw [if_pos ha, ih]
      unfold scan_lu
      have : (a :: l).dropWhile isspace = l.dropWhile isspace := by
        rw [List.dropWhile_cons, if_pos ha]
      rw [this]
    · rw [if_neg ha]

theorem event_line_eq (t : Timestamp) (h : t.in_range) :
    event_line t = decimal 4 t.year ++ 47 :: (decimal 2 t.mon ++ 47 :: (decimal 2 t.day ++
      32 :: (decimal 2 t.hour ++ 58 :: (decimal 2 t.min ++ 58 :: (decimal 2 t.sec ++ [10]))))) := by
  obtain ⟨h1, h2, h3, h4, h5, h6⟩ := h
  unfold event_line snprintf
  rw [fmt_0lu_four _ h1, fmt_0lu_two _ h2, fmt_0lu_two _ h3, fmt_0lu_two _ h4,
    fmt_0lu_two _ h5, fmt_0lu_two _ h6]
  rw [List.take_of_length_le]
  · simp only [List.append_assoc, List.singleton_append, List.cons_append, List.nil_append]
  · simp only [List.length_append, decimal_length, List.length_singleton]
    decide

/-- `sscanf` with `EVENT_FILE_FORMAT` reads back the line printed with it. -/
theorem sscanf_event_line (t : Timestamp) (h : t.in_range) :
    sscanf_EVENT_FILE_FORMAT (event_line t) = some t := by
  rw [event_line_eq t h]
  obtain ⟨h1, h2, h3, h4, h5, h6⟩ := h
  unfold sscanf_EVENT_FILE_FORMAT
  simp only [scan_lu_decimal 4 t.year _ (by decide) (by norm_num; omega) (by omega),
    scan_lu_decimal 2 t.mon _ (by decide) (by norm_num; omega) (by omega),
    scan_lu_decimal 2 t.day _ (by decide) (by norm_num; omega) (by omega),
    scan_lu_dropWhile, scan_lu_space,
    scan_lu_decimal 2 t.hour _ (by decide) (by norm_num; omega) (by omega),
    scan_lu_decimal 2 t.min _ (by decide) (by norm_num; omega) (by omega),
    scan_lu_decimal 2 t.sec _ (by decide) (by norm_num; omega) (by omega),
    scan_lit, if_true, Option.pure_def, Option.bind_eq_bind, Option.some_bind]

theorem event_line_nonzero (t : Timestamp) (h : t.in_range) : ∀ x ∈ event_line t, x ≠ 0 := by
  rw [event_line_eq t h]
  intro x hx
  simp only [List.mem_append, List.mem_cons, List.mem_singleton, List.not_mem_nil,
    or_false] at hx
  have hb := fun w v hm => (decimal_bounds w v x hm).1
  rcases hx with hx | hx | hx | hx | hx | hx | hx | hx | hx | hx | hx | hx
  all_goals first
    | exact Nat.ne_of_gt (Nat.lt_of_lt_of_le (by decide : 0 < 48) (hb _ _ hx))
    | omega

theorem event_line_length (t : Timestamp) (h : t.in_range) : (event_line t).length = 20 := by
  rw [event_line_eq t h]
  simp only [List.length_append, List.length_cons, decimal_length, List.length_nil]

/-- Claim C23. For a device with an event file name (not empty), a time stamp whose year
is at most 9999 and whose other fields are at most 99, and whatever the files held
before: after `WriteEventToFile`, `ReadEventFromFile` returns TRUE with the same six
fields. -/
theorem event_file_round_trip (fs : Files) (d : DEVICE) (t : Timestamp) (path : List Nat)
    (hp : d.eventFileName = some path) (hne : path ≠ []) (h : t.in_range) :
    ReadEventFromFile (WriteEventToFile fs d t) d = some t := by
  unfold ReadEventFromFile WriteEventToFile
  simp only [hp, if_neg hne, if_true]
  have hlen := event_line_length t h
  have htake : ((event_line t ++ [0]) ++
        ((fs path).getD []).drop (event_line t ++ [0]).length).take (MAX_FILENAME_LENGTH - 1) =
      event_line t ++ 0 :: (((fs path).getD []).drop (event_line t ++ [0]).length).take 298 := by
    rw [List.take_append_eq_append_take, List.take_of_length_le]
    · simp only [List.length_append, hlen, List.length_singleton, List.append_assoc,
        List.singleton_append]
      rfl
    · simp only [List.length_append, hlen, List.length_singleton]
      decide
  rw [htake]
  have hpos : ¬ (event_line t ++ 0 ::
      (((fs path).getD []).drop (event_line t ++ [0]).length).take 298).length ≤ 0 := by
    simp only [List.length_append, hlen, List.length_cons]
    omega
  rw [if_neg hpos, takeWhile_all_append (fun x => x != 0) (event_line t) 0 _ ?_ rfl]
  · exact sscanf_event_line t h
  · rw [List.all_eq_true]
    intro x hx
    simpa using event_line_nonzero t h x hx

/-- Claim C23 at 2024/01/02 12:30:45, on a file that held a longer text before. -/
theorem event_file_round_trip_witness :
    device_without_reading.eventFileName = some (bytes "ev1") ∧ bytes "ev1" ≠ [] ∧
    half_past_noon.in_range ∧
    WriteEventToFile (fun _ => some (bytes "1999/12/31 23:59:59 and some more text"))
        device_without_reading half_past_noon (bytes "ev1") =
      some (bytes "2024/01/02 12:30:45\n" ++ [0] ++ bytes "nd some more text") ∧
    ReadEventFromFile
        (WriteEventToFile (fun _ => some (bytes "1999/12/31 23:59:59 and some more text"))
          device_without_reading half_past_noon)
        device_without_reading = some half_past_noon :=
  ⟨rfl, by decide, half_past_noon_in_range, by decide,
    event_file_round_trip _ device_without_reading half_past_noon (bytes "ev1") rfl
      (by decide) half_past_noon_in_range⟩

/-! ## The length word: claim C25 -/

/-- Claim C25. For a payload of `n` bytes with `n` below 2^31, `Send_Request_Message`
emits four bytes `b0 b1 b2 b3` with `b0 * 2^24 + b1 * 2^16 + b2 * 2^8 + b3 = n`, then four
zero bytes, then the payload, and the byte-by-byte accumulation of `Read_XML_Message` over
`b0 .. b3` yields `n` again, as a positive `int`. -/
theorem Send_Request_Message_header (payload : List Nat) (hn : payload.length < 2 ^ 31)
    (env rest : List Nat) (fd : Int) :
    ∃ b0 b1 b2 b3, b0 < 256 ∧ b1 < 256 ∧ b2 < 256 ∧ b3 < 256 ∧
      b0 * 2 ^ 24 + b1 * 2 ^ 16 + b2 * 2 ^ 8 + b3 = payload.length ∧
      Send_Request_Message wire env fd payload =
        (0, env ++ [b0, b1, b2, b3] ++ [0, 0, 0, 0] ++ payload) ∧
      read_word wire fd 4 ([b0, b1, b2, b3] ++ rest) 0 = (some payload.length, rest) ∧
      to_int payload.length = payload.length := by
  have hb : ∀ x : Nat, x &&& 0xFF = x % 256 := fun x => Nat.and_pow_two_sub_one_eq_mod x 8
  refine ⟨(payload.length >>> 24) &&& 0xFF, (payload.length >>> 16) &&& 0xFF,
    (payload.length >>> 8) &&& 0xFF, (payload.length >>> 0) &&& 0xFF, ?_, ?_, ?_, ?_, ?_, ?_,
    read_word_length_word payload.length (by omega) fd rest, ?_⟩
  · rw [hb]; omega
  · rw [hb]; omega
  · rw [hb]; omega
  · rw [hb]; omega
  · simp only [hb, Nat.shiftRight_eq_div_pow, Nat.pow_zero, Nat.div_one]
    omega
  · simp only [Send_Request_Message, wire, List.length_cons, List.length_nil]
    simp only [Nat.reduceAdd, Nat.cast_ofNat, lt_self_iff_false, ne_eq, not_true_eq_false,
      or_self, if_false, Int.natCast_nonneg, Int.not_lt.mpr, List.append_assoc]
    norm_num
  · unfold to_int
    rw [if_pos hn]

/-- Claim C25 at the payload `<a>x</a>` of 8 bytes. -/
theorem Send_Request_Message_header_witness :
    (bytes "<a>x</a>").length < 2 ^ 31 ∧
    Send_Request_Message wire [] 5 (bytes "<a>x</a>") =
      (0, [0, 0, 0, 8, 0, 0, 0, 0] ++ bytes "<a>x</a>") ∧
    ∃ b0 b1 b2 b3, b0 < 256 ∧ b1 < 256 ∧ b2 < 256 ∧ b3 < 256 ∧
      b0 * 2 ^ 24 + b1 * 2 ^ 16 + b2 * 2 ^ 8 + b3 = (bytes "<a>x</a>").length ∧
      Send_Request_Message wire [] 5 (bytes "<a>x</a>") =
        (0, [] ++ [b0, b1, b2, b3] ++ [0, 0, 0, 0] ++ bytes "<a>x</a>") ∧
      read_word wire 5 4 ([b0, b1, b2, b3] ++ []) 0 = (some (bytes "<a>x</a>").length, []) ∧
      to_int (bytes "<a>x</a>").length = (bytes "<a>x</a>").length :=
  ⟨by decide, by decide,
    Send_Request_Message_header (bytes "<a>x</a>") (by decide) [] [] 5⟩

/-! ## Bounds: claims C27, C29 and C30 -/

/-- What `decode_polling_delay` can return: 0, or a value from 10 to 1,000,000. -/
theorem decode_polling_delay_range (value : List Nat) :
    decode_polling_delay value = 0 ∨
    (10 ≤ decode_polling_delay value ∧ decode_polling_delay value ≤ 1000000) := by
  unfold decode_polling_delay
  dsimp only
  split_ifs <;> omega

/-- Claim C27, at the values `5`, `0`, `-20` and `fast`: `decode_polling_delay` returns 0,
which is below the 1 microsecond of the claim. -/
theorem decode_polling_delay_returns_zero :
    decode_polling_delay (bytes "5") = 0 ∧ decode_polling_delay (bytes "0") = 0 ∧
    decode_polling_delay (bytes "-20") = 0 ∧ decode_polling_delay (bytes "fast") = 0 := by
  decide

/-- Claim C29, at a configuration that names the device `d1` without setting a channel,
and at the empty configuration: the event channel of the device is still -1 after the fill
from `default_device`, -1 is no slot of `Channel_Table`, and the finalize loop of
`Read_Config_File` uses it as index. -/
theorem Read_Config_File_indexes_outside_Channel_Table :
    (fill_device default_device_init (new_device (bytes "d1"))).event_channel = -1 ∧
    (fill_device default_device_init (new_device (bytes "d1"))).fault_channel = -1 ∧
    channel_slot (-1) = none ∧
    Read_Config_File world_empty_registry lines_without_channels = .fault ∧
    Read_Config_File world_empty_registry [] = .fault := by
  refine ⟨?_, ?_, ?_, ?_, ?_⟩ <;> rfl

/-- Claim C30, at the buffer `ClearBuffer` returns on first use (capacity 1024, empty) and
a string of 2048 characters: the capacity is doubled once, to 2048, and the copy loop
stores the characters and the terminator beyond it. -/
theorem AppendBuffer_writes_beyond_capacity :
    ClearBuffer BUFFER_init = .ok { n := 0, length := 1024, b := some [] } ∧
    BUFFER.holds { n := 0, length := 1024, b := some [] } [] ∧
    AppendBuffer { n := 0, length := 1024, b := some [] } (some (List.replicate 2048 65)) =
      .fault := by
  refine ⟨rfl, ⟨rfl, rfl, by decide⟩, ?_⟩
  apply AppendBuffer_overflow
  · simp only [List.length_replicate]
    decide
  · simp only [List.length_replicate]
    decide

/-! ## Reload: claim C28 -/

/-- The devices of the previous generation are discarded: `Read_Config_File` does not
depend on the registry it finds. -/
theorem Read_Config_File_discards_devices {σ : Type} (w : World σ)
    (DDD : Fin MAX_DETECTORS → Option DEVICE) (lines : List Assignment) :
    Read_Config_File { w with DDD := DDD } lines = Read_Config_File w lines := rfl

/-- The channel table `Read_Config_File` leaves is the one of the registry it leaves. -/
theorem Read_Config_File_Channel_Table {σ : Type} {w w' : World σ} {lines : List Assignment}
    (h : Read_Config_File w lines = .ok w') (c : Fin MAX_CHANNELS) :
    w'.Channel_Table c = last_user w'.DDD c := by
  unfold Read_Config_File at h
  obtain ⟨w1, -, h⟩ := Res.bind_eq_ok h
  obtain ⟨w2, -, h3⟩ := Res.bind_eq_ok h
  unfold Read_Config_File_finalize at h3
  obtain ⟨-, hD, hC⟩ := Read_Config_File_devices_eq _ _ _ (List.nodup_finRange _) h3
  have hD' : w'.DDD = fun j => (w2.DDD j).map (fill_device w2.default_device) := by
    funext i
    rw [hD i, if_pos (List.mem_finRange i)]
  rw [hC c]
  unfold last_user
  rw [hD']
  cases (List.finRange MAX_DETECTORS).reverse.find?
    (uses_channel (fun j => (w2.DDD j).map (fill_device w2.default_device)) c) <;> rfl

/-- Claim C28, at configuration A (template: provider name `TxDOT`, channels 2 and 3)
followed by configuration B (device `d1` with channels 0 and 1): loading B after A gives
`d1` the provider name of A's template, loading B alone leaves it unset. -/
theorem Read_Config_File_keeps_template_of_previous_generation :
    ((Read_Config_File world_empty_registry lines_generation_A).bind
        (fun w => Read_Config_File w lines_generation_B)).result.map
        (fun w => registered w.DDD) =
      some [{ new_device (bytes "d1") with
              providerName := some (bytes "TxDOT"), event_channel := 0, fault_channel := 1 }] ∧
    (Read_Config_File world_empty_registry lines_generation_B).result.map
        (fun w => registered w.DDD) =
      some [{ new_device (bytes "d1") with event_channel := 0, fault_channel := 1 }] := by
  constructor <;> rfl

/-! ## The counter of the pushes: claim C22 -/

theorem fmt_lu_length (k : Nat) : ∀ v, v < 10 ^ (k + 1) → (fmt_lu v).length ≤ k + 1 := by
  induction k with
  | zero =>
    intro v hv
    rw [fmt_lu_small v (by simpa using hv)]
    exact le_refl _
  | succ k ih =>
    intro v hv
    by_cases h10 : v < 10
    · rw [fmt_lu_small v h10]
      simp
    · have hq : v / 10 < 10 ^ (k + 1) := by
        rw [Nat.div_lt_iff_lt_mul (by norm_num)]
        calc v < 10 ^ (k + 1 + 1) := hv
          _ = 10 ^ (k + 1) * 10 := by ring
      rw [fmt_lu_step v (by omega), List.length_append, List.length_singleton]
      exact Nat.succ_le_succ (ih _ hq)

/-- The 16 bytes of `MyRefId` hold the decimal text of every `int`. -/
theorem snprintf_fmt_d (v : Int) (hlo : -2 ^ 31 ≤ v) (hhi : v < 2 ^ 31) :
    snprintf 16 (fmt_d v) = fmt_d v := by
  unfold snprintf
  apply List.take_of_length_le
  have hl : (fmt_lu v.natAbs).length ≤ 10 := fmt_lu_length 9 _ (by norm_num; omega)
  unfold fmt_d
  split_ifs
  · simp only [List.length_cons]
    omega
  · omega

theorem wrap_int_id (v : Int) (hlo : -2 ^ 31 ≤ v) (hhi : v < 2 ^ 31) : wrap_int v = v := by
  unfold wrap_int
  omega

set_option maxRecDepth 100000 in
/-- Claim C22 as it stands, at a counter that stands at 2147483647: the push that follows
carries the refId -2147483648, which is not one greater. -/
theorem Format_One_Event_Message_refId_wraps :
    world_last_refId.myRefId = 2147483647 ∧
    (Format_One_Event_Message world_last_refId device_without_reading none).state.map
      (fun w => w.myRefId) = some (-2147483648) ∧
    (Format_One_Event_Message world_last_refId device_without_reading none).message =
      some (bytes "<overheightUpdateMsg>" ++
        spec_header_text (bytes "-2147483648") (bytes "1.0") ++
        spec_id_text device_without_reading ++
        spec_overheight_text device_without_reading none ++
        bytes "</overheightUpdateMsg>") := by
  refine ⟨?_, ?_, ?_⟩ <;> rfl

/-- Claim C22, amended. `Initialize_Network_Config_Values` sets the counter `myRefId` to
the configured number; for every sequence of pushes that starts with the counter at `c`
and does not take it beyond 2147483647, the k-th push carries as refId the decimal text of
`c + k`, one greater than the push before, and the counter ends at `c` plus the number of
pushes. -/
theorem push_all_refIds {σ : Type} (w w' : World σ)
    (reqs : List (DEVICE × Option Timestamp)) (msgs : List (Option (List Nat)))
    (hlo : -2 ^ 31 ≤ w.myRefId) (hhi : w.myRefId + reqs.length < 2 ^ 31)
    (h : push_all w reqs = .ok (msgs, w')) :
    (Initialize_Network_Config_Values w).myRefId =
      (match w.StringMyRefId with
        | some s => atoi s
        | none => w.myRefId) ∧
    msgs = spec_pushes w.icdVersion w.myRefId reqs ∧
    w'.myRefId = w.myRefId + reqs.length := by
  refine ⟨rfl, ?_⟩
  induction reqs generalizing w w' msgs with
  | nil =>
    simp only [push_all, Res.ok.injEq, Prod.mk.injEq] at h
    rw [← h.1, ← h.2]
    exact ⟨rfl, by simp⟩
  | cons p rest ih =>
    simp only [push_all] at h
    obtain ⟨⟨m, w1⟩, h1, h⟩ := Res.bind_eq_ok h
    obtain ⟨⟨ms, w2⟩, h2, h⟩ := Res.bind_eq_ok h
    simp only [Res.ok.injEq, Prod.mk.injEq] at h
    obtain ⟨hid, hicd, hm, -⟩ := Format_One_Event_Message_returns h1
    simp only [List.length_cons, Nat.cast_add, Nat.cast_one] at hhi
    have hw : wrap_int (w.myRefId + 1) = w.myRefId + 1 := wrap_int_id _ (by omega) (by omega)
    rw [hw] at hid hm
    obtain ⟨e1, e2⟩ := ih w1 w2 ms (by omega) (by omega) h2
    rw [← h.1, ← h.2, hm, e1, e2, hid, hicd, pieces_text_event_pieces,
      snprintf_fmt_d _ (by omega) (by omega)]
    refine ⟨rfl, ?_⟩
    simp only [List.length_cons, Nat.cast_add, Nat.cast_one]
    omega


set_option maxRecDepth 100000 in
/-- Claim C22, amended, at two pushes for the device of `world_one_device`, the counter
standing at 0: they carry the refIds 1 and 2. -/
theorem push_all_refIds_witness :
    -2 ^ 31 ≤ world_one_device.myRefId ∧
    world_one_device.myRefId +
      ([(device_without_reading, none),
        (device_without_reading, some half_past_noon)] :
          List (DEVICE × Option Timestamp)).length < 2 ^ 31 ∧
    ∃ msgs w', push_all world_one_device
        [(device_without_reading, none), (device_without_reading, some half_past_noon)] =
        .ok (msgs, w') ∧
      ((Initialize_Network_Config_Values world_one_device).myRefId =
        (match world_one_device.StringMyRefId with
          | some s => atoi s
          | none => world_one_device.myRefId) ∧
      msgs = spec_pushes world_one_device.icdVersion world_one_device.myRefId
        [(device_without_reading, none), (device_without_reading, some half_past_noon)] ∧
      w'.myRefId = world_one_device.myRefId +
        ([(device_without_reading, none),
          (device_without_reading, some half_past_noon)] :
            List (DEVICE × Option Timestamp)).length) :=
  ⟨by decide, by decide, _, _, rfl,
    push_all_refIds world_one_device _ _ _ (by decide) (by decide) rfl⟩

/-! ## Polling: claims C21 and C24 -/

theorem mask_ne_iff (x y i : Nat) :
    x &&& (1 <<< i) ≠ y &&& (1 <<< i) ↔ x.testBit i ≠ y.testBit i := by
  rw [Nat.one_shiftLeft, Nat.and_two_pow, Nat.and_two_pow]
  have hp : 0 < 2 ^ i := Nat.two_pow_pos i
  cases x.testBit i <;> cases y.testBit i <;> first | (simp; omega) | simp

theorem new_state_eq (x i : Nat) :
    (((x >>> i) &&& 1 : Nat) : Int) = if x.testBit i = true then 1 else 0 := by
  rw [Nat.and_one_is_mod, Nat.shiftRight_eq_div_pow, Nat.testBit_to_div_mod]
  by_cases h : x / 2 ^ i % 2 = 1
  · simp [h]
  · have : x / 2 ^ i % 2 = 0 := by omega
    simp [this]

/-- What `Process_DI_Event` leaves alone, whenever it returns: the channel table, and every
device except for its status. -/
theorem Process_DI_Event_wiring {σ : Type} {net : Net σ} {w w' : World σ}
    {channel : Fin MAX_CHANNELS} {new_state : Int} {now : Timestamp} {pushes : List Push}
    (h : Process_DI_Event net w channel new_state now = .ok (w', pushes)) :
    w'.Channel_Table = w.Channel_Table ∧
    ∀ j d, w.DDD j = some d → ∃ st, w'.DDD j = some { d with status := st } := by
  have same : ∀ w1 : World σ, w1.Channel_Table = w.Channel_Table → w1.DDD = w.DDD →
      w1.Channel_Table = w.Channel_Table ∧
      ∀ j d, w.DDD j = some d → ∃ st, w1.DDD j = some { d with status := st } := by
    intro w1 e1 e2
    exact ⟨e1, fun j d hj => ⟨d.status, by rw [e2, hj]⟩⟩
  unfold Process_DI_Event at h
  cases hc : w.Channel_Table channel with
  | none =>
    rw [hc] at h
    simp only [Res.ok.injEq, Prod.mk.injEq] at h
    rw [← h.1]
    exact same w rfl rfl
  | some i =>
    rw [hc] at h
    dsimp only at h
    cases hd : w.DDD i with
    | none => rw [hd] at h; cases h
    | some d =>
      rw [hd] at h
      dsimp only at h
      by_cases h0 : d.event_channel = channel ∧ new_state ≠ 1
      · rw [if_pos h0] at h
        simp only [Res.ok.injEq, Prod.mk.injEq] at h
        rw [← h.1]
        exact same w rfl rfl
      · rw [if_neg h0] at h
        obtain ⟨⟨w1, p1⟩, h1, h⟩ := Res.bind_eq_ok h
        have hr1 : w1.DDD = w.DDD ∧ w1.Channel_Table = w.Channel_Table := by
          by_cases hev : d.event_channel = channel
          · rw [if_pos hev] at h1
            obtain ⟨k1, k2, -, -⟩ := Process_Actual_DI_Event_returns hd h1
            exact ⟨k1, k2⟩
          · rw [if_neg hev] at h1
            simp only [Res.ok.injEq, Prod.mk.injEq] at h1
            rw [← h1.1]
            exact ⟨rfl, rfl⟩
        by_cases hf : d.fault_channel = channel
        · rw [if_pos hf, hr1.1, hd] at h
          dsimp only at h
          by_cases hs : d.status = .ST_OUTOFSERVICE
          · rw [if_pos hs] at h
            simp only [Res.ok.injEq] at h
            rw [← (Prod.mk.inj h).1]
            exact same w1 hr1.2 hr1.1
          · rw [if_neg hs] at h
            obtain ⟨⟨w2, p2⟩, h2, h⟩ := Res.bind_eq_ok h
            simp only [Res.ok.injEq, Prod.mk.injEq] at h
            rw [← h.1]
            have key : ∀ s, setStatus net w1 i s = .ok (w2, p2) →
                w2.Channel_Table = w.Channel_Table ∧
                ∀ j d, w.DDD j = some d → ∃ st, w2.DDD j = some { d with status := st } := by
              intro s hs2
              have hd1 : w1.DDD i = some d := by rw [hr1.1, hd]
              obtain ⟨a, b⟩ := setStatus_returns hd1 hs2
              by_cases hds : d.status = s
              · rw [(a hds).2]
                exact same w1 hr1.2 hr1.1
              · obtain ⟨-, b2, b3, -⟩ := b hds
                refine ⟨b3.trans hr1.2, fun j dj hj => ?_⟩
                rw [b2]
                by_cases hji : j = i
                · subst hji
                  rw [hd] at hj
                  cases hj
                  exact ⟨s, by rw [Function.update_same]⟩
                · exact ⟨dj.status, by rw [Function.update_noteq hji, hr1.1, hj]⟩
            by_cases hn : new_state = 1
            · rw [if_pos hn] at h2
              exact key _ h2
            · rw [if_neg hn] at h2
              exact key _ h2
        · rw [if_neg hf] at h
          simp only [Res.ok.injEq] at h
          rw [← (Prod.mk.inj h).1]
          exact same w1 hr1.2 hr1.1

theorem Process_DI_Event_event_wired {σ : Type} {net : Net σ} {w w' : World σ}
    {channel : Fin MAX_CHANNELS} {new_state : Int} {now : Timestamp} {pushes : List Push}
    (h : Process_DI_Event net w channel new_state now = .ok (w', pushes))
    (c : Fin MAX_CHANNELS) (hw : event_wired w c) : event_wired w' c := by
  obtain ⟨i, d, hc, hd, he⟩ := hw
  obtain ⟨k1, k2⟩ := Process_DI_Event_wiring h
  obtain ⟨st, hst⟩ := k2 i d hd
  exact ⟨i, _, by rw [k1, hc], hst, he⟩

/-- `Process_DI_Event` on the event channel of the device it is mapped to: a rising edge
makes the push of `Process_Actual_DI_Event`, any other new state makes no push at all. -/
theorem Process_DI_Event_on_event_channel {σ : Type} {net : Net σ} {w w' : World σ}
    {c : Fin MAX_CHANNELS} {new_state : Int} {now : Timestamp} {pushes : List Push}
    (hw : event_wired w c) (h : Process_DI_Event net w c new_state now = .ok (w', pushes)) :
    pushes.any (fun p => !p.status_change) = decide (new_state = 1) := by
  obtain ⟨i, d, hc, hd, he⟩ := hw
  unfold Process_DI_Event at h
  rw [hc] at h
  dsimp only at h
  rw [hd] at h
  dsimp only at h
  by_cases hn : new_state = 1
  · rw [if_neg (fun h0 => h0.2 hn), if_pos he] at h
    obtain ⟨⟨w1, p1⟩, h1, h⟩ := Res.bind_eq_ok h
    obtain ⟨-, -, -, k4⟩ := Process_Actual_DI_Event_returns hd h1
    have hp : ∃ tail, pushes = p1 ++ tail := by
      dsimp only at h
      split at h
      · split at h
        · cases h
        · split at h
          · simp only [Res.ok.injEq, Prod.mk.injEq] at h
            exact ⟨[], by rw [← h.2, List.append_nil]⟩
          · obtain ⟨⟨w2, p2⟩, -, h⟩ := Res.bind_eq_ok h
            simp only [Res.ok.injEq, Prod.mk.injEq] at h
            exact ⟨p2, h.2.symm⟩
      · simp only [Res.ok.injEq, Prod.mk.injEq] at h
        exact ⟨[], by rw [← h.2, List.append_nil]⟩
    obtain ⟨tail, hp⟩ := hp
    rw [hp, k4]
    simp [hn]
  · rw [if_pos ⟨he, hn⟩] at h
    simp only [Res.ok.injEq, Prod.mk.injEq] at h
    rw [← h.2]
    simp [hn]

theorem reports_event_cons (c : Fin MAX_CHANNELS) (s : Signal) (tick : List Signal) :
    reports_event c (s :: tick) =
      ((decide (s.channel = c) && s.pushes.any (fun p => !p.status_change)) ||
        reports_event c tick) := rfl

/-- The loop of `Poll_for_DI_Event` reports an event on a channel wired as an event
channel exactly when the channel is among those looked at and its bit went from 0 to 1. -/
theorem Poll_for_DI_Event_loop_reports {σ : Type} (net : Net σ) (x last : Nat)
    (now : Fin MAX_CHANNELS → Timestamp) (c : Fin MAX_CHANNELS)
    (l : List (Fin MAX_CHANNELS)) :
    ∀ (w w' : World σ) (sigs : List Signal), event_wired w c →
      Poll_for_DI_Event_loop net x last now l w = .ok (w', sigs) →
      event_wired w' c ∧
      reports_event c sigs = (decide (c ∈ l) && (!last.testBit c && x.testBit c)) := by
  induction l with
  | nil =>
    intro w w' sigs hw h
    simp only [Poll_for_DI_Event_loop, Res.ok.injEq, Prod.mk.injEq] at h
    rw [← h.1, ← h.2]
    exact ⟨hw, by simp [reports_event]⟩
  | cons i rest ih =>
    intro w w' sigs hw h
    unfold Poll_for_DI_Event_loop at h
    dsimp only at h
    by_cases hb : x &&& (1 <<< i.val) ≠ last &&& (1 <<< i.val)
    · rw [if_pos hb] at h
      obtain ⟨⟨w1, p1⟩, h1, h⟩ := Res.bind_eq_ok h
      obtain ⟨⟨w2, s2⟩, h2, h⟩ := Res.bind_eq_ok h
      simp only [Res.ok.injEq, Prod.mk.injEq] at h
      have hw1 := Process_DI_Event_event_wired h1 c hw
      obtain ⟨hw2, hr⟩ := ih w1 w2 s2 hw1 h2
      rw [← h.1, ← h.2]
      refine ⟨hw2, ?_⟩
      rw [reports_event_cons, hr]
      by_cases hic : i = c
      · subst hic
        have hp := Process_DI_Event_on_event_channel hw h1
        rw [new_state_eq] at hp
        have hdiff := (mask_ne_iff x last i.val).1 hb
        simp only [hp, decide_True, Bool.true_and, List.mem_cons, true_or]
        cases hx : x.testBit i.val <;> cases hl : last.testBit i.val <;> simp_all
      · have hci : c ≠ i := fun e => hic e.symm
        simp [hic, hci]
    · rw [if_neg hb] at h
      obtain ⟨hw2, hr⟩ := ih w w' sigs hw h
      refine ⟨hw2, ?_⟩
      rw [hr]
      by_cases hic : c = i
      · subst hic
        have hsame : x.testBit c.val = last.testBit c.val := by
          by_contra hne
          exact hb ((mask_ne_iff x last c.val).2 hne)
        rw [hsame]
        cases last.testBit c.val <;> simp
      · simp [hic]

/-- One successful tick of `Poll_for_DI_Event`, whenever it returns: the word read is
remembered, and an event is reported on a channel wired as an event channel exactly when
its bit went from 0 to 1. -/
theorem Poll_for_DI_Event_tick {σ : Type} {net : Net σ} {w w' : World σ} {x : Nat}
    {now : Fin MAX_CHANNELS → Timestamp} {sigs : List Signal}
    (h : Poll_for_DI_Event net w (some x) now = .ok (w', sigs)) :
    w'.last_diValue = x ∧
    ∀ c, event_wired w c → event_wired w' c ∧
      reports_event c sigs = (!w.last_diValue.testBit c && x.testBit c) := by
  unfold Poll_for_DI_Event at h
  dsimp only at h
  by_cases hx : x = w.last_diValue
  · rw [if_pos hx] at h
    simp only [Res.ok.injEq, Prod.mk.injEq] at h
    rw [← h.1, ← h.2]
    refine ⟨hx.symm, fun c hw => ⟨hw, ?_⟩⟩
    rw [hx]
    cases w.last_diValue.testBit c <;> rfl
  · rw [if_neg hx] at h
    obtain ⟨⟨w1, s1⟩, h1, h⟩ := Res.bind_eq_ok h
    simp only [Res.ok.injEq, Prod.mk.injEq] at h
    rw [← h.1, ← h.2]
    refine ⟨rfl, fun c hw => ?_⟩
    obtain ⟨hw1, hr⟩ := Poll_for_DI_Event_loop_reports net x w.last_diValue now c _ w w1 s1 hw h1
    refine ⟨?_, ?_⟩
    · obtain ⟨i, d, a1, a2, a3⟩ := hw1
      exact ⟨i, d, a1, a2, a3⟩
    · rw [hr]
      simp [List.mem_finRange]

/-- Claim C24. A tick whose driver call fails returns the state as it was (remembered
word, devices and counter included) and makes no call of `Process_DI_Event`, hence no
push; a tick whose driver call succeeds leaves, whenever it returns, the word read as the
remembered word, whatever the channels of the changed bits are mapped to. -/
theorem Poll_for_DI_Event_remembers {σ : Type} (net : Net σ) (w w' : World σ) (x : Nat)
    (now : Fin MAX_CHANNELS → Timestamp) (sigs : List Signal)
    (h : Poll_for_DI_Event net w (some x) now = .ok (w', sigs)) :
    Poll_for_DI_Event net w none now = .ok (w, []) ∧ w'.last_diValue = x :=
  ⟨rfl, (Poll_for_DI_Event_tick h).1⟩

/-- Claim C24 at the word 4 read in `world_one_device`, where channel 2 has no device. -/
theorem Poll_for_DI_Event_remembers_witness :
    world_one_device.Channel_Table 2 = none ∧
    Poll_for_DI_Event dead_net world_one_device (some 4) stopped_clock =
      .ok ({ world_one_device with last_diValue := 4 },
        [{ channel := 2, new_state := 1, pushes := [] }]) ∧
    (Poll_for_DI_Event dead_net world_one_device none stopped_clock =
        .ok (world_one_device, []) ∧
      ({ world_one_device with last_diValue := 4 } : World Unit).last_diValue = 4) :=
  ⟨rfl, rfl,
    Poll_for_DI_Event_remembers dead_net world_one_device
      { world_one_device with last_diValue := 4 } 4 stopped_clock
      [{ channel := 2, new_state := 1, pushes := [] }] rfl⟩

set_option maxRecDepth 100000 in
/-- C3 (amended) at a registry with two devices: the first is FAILED and has no persisted
reading, the second is out of service and has one. -/
theorem Format_XML_Response_blocks_witness :
    registered world_two_devices.DDD = [device_failed, device_out_of_service] ∧
    ReadEventFromFile world_two_devices.fs device_failed = none ∧
    ReadEventFromFile world_two_devices.fs device_out_of_service = some half_past_noon ∧
    (Format_XML_Response world_two_devices (some (bytes "5")) (some (bytes "1.0"))).message =
        some response_two_devices ∧
    ((∃ v, response_two_devices = spec_response_open ++ spec_header_text (bytes "5") v ++
        bytes "<data xsi:type=\"retrieveData\">" ++
        ((registered world_two_devices.DDD).map
          (spec_block_text world_two_devices.fs)).flatten ++
        bytes "</data>" ++ bytes "</retrieveDataResp>") ∧
      ∀ d, spec_block_text world_two_devices.fs d =
        bytes "<overheightData>" ++ spec_id_text d ++ bytes "<overheight>" ++
        (match ReadEventFromFile world_two_devices.fs d with
          | some t => spec_reading_text d t
          | none => []) ++
        bytes "<overheightStatus><opStatus>" ++ opStatus_text d.status ++
        bytes "</opStatus></overheightStatus></overheight></overheightData>") := by
  have hmsg : (Format_XML_Response world_two_devices (some (bytes "5"))
      (some (bytes "1.0"))).message = some response_two_devices := by
    obtain ⟨m, w', hm⟩ := Format_XML_Response_total world_two_devices (some (bytes "5"))
      (bytes "1.0") (bytes "1.0") rfl (Or.inl rfl) ⟨by decide⟩ ⟨by decide⟩ ⟨by decide⟩
      (by
        intro d hd
        have hr : registered world_two_devices.DDD =
            [device_failed, device_out_of_service] := rfl
        rw [hr] at hd
        simp only [List.mem_cons, List.mem_singleton, List.not_mem_nil, or_false] at hd
        rcases hd with rfl | rfl <;>
          exact ⟨⟨by decide⟩, ⟨by decide⟩, ⟨by decide⟩, ⟨by decide⟩, ⟨by decide⟩⟩)
    obtain ⟨cur, v, hcur, hv, hicd, hm2, -⟩ := Format_XML_Response_returns hm
    rw [hm]
    simp only [Res.message]
    rw [hm2, pieces_text_response_pieces]
    have e1 : cur = bytes "1.0" := by
      have : world_two_devices.icdVersion = some (bytes "1.0") := rfl
      rw [this] at hcur
      exact (Option.some.inj hcur).symm
    have e2 : v = bytes "1.0" := (Option.some.inj hv).symm
    rw [hicd, e1, e2]
    rfl
  exact ⟨by rfl, by rfl, by rfl, hmsg,
    Format_XML_Response_blocks world_two_devices (some (bytes "5")) (some (bytes "1.0"))
      response_two_devices hmsg⟩

set_option maxRecDepth 100000 in
/-- Claim C20 at the device of `world_connected`, ACTIVE and without a reading, set to
FAILED while a client is connected on the loopback connection: one frame goes out, whose
payload is the push `push_failed` with `opStatus` Failed. -/
theorem setStatus_pushes_witness :
    (world_connected []).DDD 0 = some device_without_reading ∧
    device_without_reading.status ≠ .ST_FAILED ∧
    spec_push_text device_failed none 1 (some (bytes "1.0")) = push_failed ∧
    ∃ w' pushes, setStatus wire (world_connected []) 0 .ST_FAILED = .ok (w', pushes) ∧
      w'.env = [0, 0, 0, 244, 0, 0, 0, 0] ++ push_failed ∧
      w'.ClientConnection = 5 ∧
      pushes = [{ status_change := true, device := device_failed, timedate := none }] ∧
      w'.DDD 0 = some device_failed ∧
      (∀ j, j ≠ 0 → w'.DDD j = (world_connected []).DDD j) ∧
      w'.myRefId = wrap_int ((world_connected []).myRefId + 1) := by
  refine ⟨rfl, by decide, by decide, _, _, rfl, rfl, rfl, ?_⟩
  have T := (setStatus_pushes wire (world_connected []) _ 0 device_without_reading .ST_FAILED _
    rfl rfl).2 (by decide)
  exact ⟨T.1, T.2.1, T.2.2.1, T.2.2.2.1⟩

/-! ## A key that is never assigned, and a template without channels -/

set_option maxRecDepth 100000 in
/-- Claim C11, at the child list `parse_xml_element` builds for a request with a comment
and a text in front of its child `refId`: the element made for the comment gets the text
as value and its key is never assigned. No key of the list equals `overheightData`, so the
lookup should return none; `search_xml_value` passes the unassigned key to `mystrcasecmp`
instead, and `Parse_XML_Message` with it. A tag found in front of that element is still
looked up. -/
theorem search_xml_value_reads_unassigned_key :
    parse_xml_element (parse_fuel request_text_after_comment) request_text_after_comment
      new_root = .ok (some [], root_text_after_comment) ∧
    root_text_after_comment.xml_list =
      [.mk (.str (bytes "refId")) [] (some (bytes "5")),
       .mk .garbage [] (some (bytes "text"))] ∧
    root_text_after_comment.xml_list.find? (key_is (bytes "overheightData")) = none ∧
    search_xml_value root_text_after_comment.xml_list (bytes "overheightData") = .fault ∧
    search_xml_value root_text_after_comment.xml_list (bytes "refId") =
      .ok (some (bytes "5")) ∧
    Parse_XML_Message world_one_device request_text_after_comment = .fault := by
  refine ⟨?_, ?_, ?_, ?_, ?_, ?_⟩ <;> rfl

/-- Claim C17, at a configuration that sets only the provider name of the template: no
line names a device, `search_device_array` makes the one device `default device`, its
channels are still -1 after the fill because the template has none, and the finalize loop
of `Read_Config_File` uses -1 as index of `Channel_Table`, outside the array. -/
theorem Read_Config_File_without_channels_faults :
    (∀ a ∈ lines_provider_only, a.device = none) ∧
    ((define_all world_empty_registry lines_provider_only).bind
        Read_Config_File_ensure).result.map (fun w => (registered w.DDD, w.default_device)) =
      some ([new_device (bytes "default device")],
        { default_device_init with providerName := some (bytes "TxDOT") }) ∧
    (fill_device { default_device_init with providerName := some (bytes "TxDOT") }
      (new_device (bytes "default device"))).event_channel = -1 ∧
    channel_slot (-1) = none ∧
    Read_Config_File world_empty_registry lines_provider_only = .fault := by
  refine ⟨by decide, ?_, ?_, ?_, ?_⟩ <;> rfl

end Overhead
